import Mathlib

/-!
# Geometry kernel of pbrt (`src/core/geometry.h`)

A shallow embedding of the vector / point / normal / bounds / ray types of
`geometry.h` together with theorems about them.

Conventions of the embedding.

* The scalar type `T` of the C++ templates is a type `α`.  A definition asks
  of `α` only the operations the C++ body uses, so one definition is read both
  at exact scalars and at floating point.
* `Float` is the type `IEEE fmt` of the IEEE 754 binary numbers of the format
  `fmt` (`float` or `double`): finite numbers, the two zeros, the two
  infinities and NaN, with every operation rounded to nearest, ties to even,
  overflow to infinity and gradual underflow.  Results on the ray / box tests,
  on the scalar division operators and on `DistanceSquared` are stated there.
* Results whose property is stated for exact arithmetic are stated over a
  linearly ordered ring or field (`Int` is the model of `int`; `ℚ` and `ℝ`
  are `Float` with arithmetic taken exactly).
* `std::min(a, b)` is `(b < a) ? b : a` and `std::max(a, b)` is
  `(a < b) ? b : a`; they are embedded as `stdMin` and `stdMax`.
* `isNaN` is `std::isnan`: the NaN test of `IEEE fmt`, and `false` on `int`
  (as the source specialises it) and on exact scalars.  The division
  operators, whose checks are the subject of a property, are embedded with
  their `CHECK_NE`, the `DCHECK(!HasNaNs())` of the constructor they call and
  an explicit build-mode flag; the other operations leave the `DCHECK`s out.
* C++ overloads are told apart by the namespace of their first bounds / point
  / vector argument (`Bounds3.Inside`, `Bounds2.Inside`, ...).
-/

namespace pbrt

/-! ## Scalars -/

/-- `std::min(a, b)`: returns `b` when `b < a`, otherwise `a`. -/
def stdMin {α : Type} [LT α] [DecidableRel (α := α) (· < ·)] (a b : α) : α :=
  if b < a then b else a

/-- `std::max(a, b)`: returns `b` when `a < b`, otherwise `a`. -/
def stdMax {α : Type} [LT α] [DecidableRel (α := α) (· < ·)] (a b : α) : α :=
  if a < b then b else a

/-! ## Vector2, Vector3, Point2, Point3, Normal3 -/

/-- `Vector2<T>`: public data `T x, y`. -/
structure Vector2 (α : Type) where
  x : α
  y : α
deriving DecidableEq, Repr

/-- `Vector3<T>`: public data `T x, y, z`. -/
structure Vector3 (α : Type) where
  x : α
  y : α
  z : α
deriving DecidableEq, Repr

/-- `Point2<T>`: public data `T x, y`. -/
structure Point2 (α : Type) where
  x : α
  y : α
deriving DecidableEq, Repr

/-- `Point3<T>`: public data `T x, y, z`. -/
structure Point3 (α : Type) where
  x : α
  y : α
  z : α
deriving DecidableEq, Repr

/-- `Normal3<T>`: public data `T x, y, z`. -/
structure Normal3 (α : Type) where
  x : α
  y : α
  z : α
deriving DecidableEq, Repr

/-- `Vector2()`: `x = y = 0`. -/
def Vector2.zero {α : Type} [Zero α] : Vector2 α := ⟨0, 0⟩

/-- `Vector3()`: `x = y = z = 0`. -/
def Vector3.zero {α : Type} [Zero α] : Vector3 α := ⟨0, 0, 0⟩

/-- `Vector3<T>::operator[](int i)`: `x` for 0, `y` for 1, `z` otherwise. -/
def Vector3.get {α : Type} (v : Vector3 α) (i : Int) : α :=
  if i = 0 then v.x else if i = 1 then v.y else v.z

/-- `Point3<T>::operator[](int i)`: `x` for 0, `y` for 1, `z` otherwise. -/
def Point3.get {α : Type} (p : Point3 α) (i : Int) : α :=
  if i = 0 then p.x else if i = 1 then p.y else p.z

/-- `Vector3<T>::operator*(U s)`: `Vector3(s * x, s * y, s * z)`. -/
def Vector3.mul {α : Type} [Mul α] (v : Vector3 α) (s : α) : Vector3 α :=
  ⟨s * v.x, s * v.y, s * v.z⟩

/-- `Point2<T>::operator+(const Vector2<T> &v)`. -/
def Point2.add {α : Type} [Add α] (p : Point2 α) (v : Vector2 α) : Point2 α :=
  ⟨p.x + v.x, p.y + v.y⟩

/-- `Point2<T>::operator-(const Point2<T> &p)`: the vector between two points. -/
def Point2.sub {α : Type} [Sub α] (p q : Point2 α) : Vector2 α :=
  ⟨p.x - q.x, p.y - q.y⟩

/-- `Point3<T>::operator+(const Vector3<T> &v)`. -/
def Point3.add {α : Type} [Add α] (p : Point3 α) (v : Vector3 α) : Point3 α :=
  ⟨p.x + v.x, p.y + v.y, p.z + v.z⟩

/-- `Point3<T>::operator-(const Point3<T> &p)`: the vector between two points. -/
def Point3.sub {α : Type} [Sub α] (p q : Point3 α) : Vector3 α :=
  ⟨p.x - q.x, p.y - q.y, p.z - q.z⟩

/-- `Cross(const Vector3<T> &v1, const Vector3<T> &v2)`.  The source widens the
six components to `double` before multiplying and narrows the three results
back to `T`; on exact scalars both conversions are the identity. -/
def Vector3.Cross {α : Type} [Mul α] [Sub α] (v1 v2 : Vector3 α) : Vector3 α :=
  let v1x := v1.x; let v1y := v1.y; let v1z := v1.z
  let v2x := v2.x; let v2y := v2.y; let v2z := v2.z
  ⟨(v1y * v2z) - (v1z * v2y), (v1z * v2x) - (v1x * v2z), (v1x * v2y) - (v1y * v2x)⟩

/-- `Min(const Point2<T> &pa, const Point2<T> &pb)`: componentwise `std::min`. -/
def Point2.Min {α : Type} [LinearOrder α] (pa pb : Point2 α) : Point2 α :=
  ⟨stdMin pa.x pb.x, stdMin pa.y pb.y⟩

/-- `Max(const Point2<T> &pa, const Point2<T> &pb)`: componentwise `std::max`. -/
def Point2.Max {α : Type} [LinearOrder α] (pa pb : Point2 α) : Point2 α :=
  ⟨stdMax pa.x pb.x, stdMax pa.y pb.y⟩

/-- `Min(const Point3<T> &p1, const Point3<T> &p2)`: componentwise `std::min`. -/
def Point3.Min {α : Type} [LinearOrder α] (p1 p2 : Point3 α) : Point3 α :=
  ⟨stdMin p1.x p2.x, stdMin p1.y p2.y, stdMin p1.z p2.z⟩

/-- `Max(const Point3<T> &p1, const Point3<T> &p2)`: componentwise `std::max`. -/
def Point3.Max {α : Type} [LinearOrder α] (p1 p2 : Point3 α) : Point3 α :=
  ⟨stdMax p1.x p2.x, stdMax p1.y p2.y, stdMax p1.z p2.z⟩

/-! ## Bounds2, Bounds3 -/

/-- `Bounds2<T>`: public data `Point2<T> pMin, pMax`. -/
structure Bounds2 (α : Type) where
  pMin : Point2 α
  pMax : Point2 α
deriving DecidableEq, Repr

/-- `Bounds3<T>`: public data `Point3<T> pMin, pMax`. -/
structure Bounds3 (α : Type) where
  pMin : Point3 α
  pMax : Point3 α
deriving DecidableEq, Repr

/-- Validity of a `Bounds2` (data model): `pMin[i] ≤ pMax[i]` on every axis. -/
def Bounds2.Valid {α : Type} [LinearOrder α] (b : Bounds2 α) : Prop :=
  b.pMin.x ≤ b.pMax.x ∧ b.pMin.y ≤ b.pMax.y

/-- Validity of a `Bounds3` (data model): `pMin[i] ≤ pMax[i]` on every axis. -/
def Bounds3.Valid {α : Type} [LE α] (b : Bounds3 α) : Prop :=
  b.pMin.x ≤ b.pMax.x ∧ b.pMin.y ≤ b.pMax.y ∧ b.pMin.z ≤ b.pMax.z

instance {α : Type} [LinearOrder α] (b : Bounds2 α) : Decidable b.Valid :=
  inferInstanceAs (Decidable (_ ∧ _))

instance {α : Type} [LE α] [DecidableRel (α := α) (· ≤ ·)] (b : Bounds3 α) :
    Decidable b.Valid :=
  inferInstanceAs (Decidable (_ ∧ _))

/-- `Bounds3<T>::operator[](int i)`: `(i == 0) ? pMin : pMax`. -/
def Bounds3.get {α : Type} (b : Bounds3 α) (i : Int) : Point3 α :=
  if i = 0 then b.pMin else b.pMax

/-- `Union(const Bounds3<T> &b, const Point3<T> &p)`. -/
def Bounds3.UnionPoint {α : Type} [LinearOrder α] (b : Bounds3 α) (p : Point3 α) :
    Bounds3 α :=
  { pMin := Point3.Min b.pMin p, pMax := Point3.Max b.pMax p }

/-- `Union(const Bounds2<T> &b, const Point2<T> &p)`. -/
def Bounds2.UnionPoint {α : Type} [LinearOrder α] (b : Bounds2 α) (p : Point2 α) :
    Bounds2 α :=
  { pMin := Point2.Min b.pMin p, pMax := Point2.Max b.pMax p }

/-- `Intersect(const Bounds3<T> &b1, const Bounds3<T> &b2)`: the corners are
assigned directly, so an invalid result is possible. -/
def Bounds3.Intersect {α : Type} [LinearOrder α] (b1 b2 : Bounds3 α) : Bounds3 α :=
  { pMin := Point3.Max b1.pMin b2.pMin, pMax := Point3.Min b1.pMax b2.pMax }

/-- `Intersect(const Bounds2<T> &b1, const Bounds2<T> &b2)`. -/
def Bounds2.Intersect {α : Type} [LinearOrder α] (b1 b2 : Bounds2 α) : Bounds2 α :=
  { pMin := Point2.Max b1.pMin b2.pMin, pMax := Point2.Min b1.pMax b2.pMax }

/-- `Overlaps(const Bounds3<T> &b1, const Bounds3<T> &b2)`. -/
def Bounds3.Overlaps {α : Type} [LinearOrder α] (b1 b2 : Bounds3 α) : Bool :=
  let x := decide (b1.pMax.x ≥ b2.pMin.x) && decide (b1.pMin.x ≤ b2.pMax.x)
  let y := decide (b1.pMax.y ≥ b2.pMin.y) && decide (b1.pMin.y ≤ b2.pMax.y)
  let z := decide (b1.pMax.z ≥ b2.pMin.z) && decide (b1.pMin.z ≤ b2.pMax.z)
  x && y && z

/-- `Overlaps(const Bounds2<T> &ba, const Bounds2<T> &bb)`. -/
def Bounds2.Overlaps {α : Type} [LinearOrder α] (ba bb : Bounds2 α) : Bool :=
  let x := decide (ba.pMax.x ≥ bb.pMin.x) && decide (ba.pMin.x ≤ bb.pMax.x)
  let y := decide (ba.pMax.y ≥ bb.pMin.y) && decide (ba.pMin.y ≤ bb.pMax.y)
  x && y

/-- `Inside(const Point3<T> &p, const Bounds3<T> &b)`: closed on both sides. -/
def Bounds3.Inside {α : Type} [LE α] [DecidableRel (α := α) (· ≤ ·)] (p : Point3 α)
    (b : Bounds3 α) : Bool :=
  decide (p.x ≥ b.pMin.x) && decide (p.x ≤ b.pMax.x) &&
  decide (p.y ≥ b.pMin.y) && decide (p.y ≤ b.pMax.y) &&
  decide (p.z ≥ b.pMin.z) && decide (p.z ≤ b.pMax.z)

/-- `InsideExclusive(const Point3<T> &p, const Bounds3<T> &b)`: open on the
`pMax` side. -/
def Bounds3.InsideExclusive {α : Type} [LinearOrder α] (p : Point3 α) (b : Bounds3 α) :
    Bool :=
  decide (p.x ≥ b.pMin.x) && decide (p.x < b.pMax.x) &&
  decide (p.y ≥ b.pMin.y) && decide (p.y < b.pMax.y) &&
  decide (p.z ≥ b.pMin.z) && decide (p.z < b.pMax.z)

/-- `Inside(const Point2<T> &pt, const Bounds2<T> &b)`: closed on both sides. -/
def Bounds2.Inside {α : Type} [LinearOrder α] (pt : Point2 α) (b : Bounds2 α) : Bool :=
  decide (pt.x ≥ b.pMin.x) && decide (pt.x ≤ b.pMax.x) &&
  decide (pt.y ≥ b.pMin.y) && decide (pt.y ≤ b.pMax.y)

/-- `InsideExclusive(const Point2<T> &pt, const Bounds2<T> &b)`. -/
def Bounds2.InsideExclusive {α : Type} [LinearOrder α] (pt : Point2 α) (b : Bounds2 α) :
    Bool :=
  decide (pt.x ≥ b.pMin.x) && decide (pt.x < b.pMax.x) &&
  decide (pt.y ≥ b.pMin.y) && decide (pt.y < b.pMax.y)

/-- Modelled from the spec: scalar `Lerp(t, v1, v2)` of `pbrt.h`, which is not
part of `geometry.h`: `(1 - t) * v1 + t * v2`, evaluated exactly. -/
def Lerp {α : Type} [Ring α] (t v1 v2 : α) : α := (1 - t) * v1 + t * v2

/-- `Bounds3<T>::Lerp(const Point3f &t)`: componentwise scalar `Lerp` between
the corners. -/
def Bounds3.Lerp {α : Type} [Ring α] (b : Bounds3 α) (t : Point3 α) : Point3 α :=
  ⟨pbrt.Lerp t.x b.pMin.x b.pMax.x, pbrt.Lerp t.y b.pMin.y b.pMax.y,
    pbrt.Lerp t.z b.pMin.z b.pMax.z⟩

/-! ## Ray and the ray / box tests -/

/-- `Ray`: origin `o`, direction `d`, the (mutable) limit `tMax`, `time`, and
the non-owning `medium` pointer (`none` for `nullptr`, an address otherwise). -/
structure Ray (α : Type) where
  o : Point3 α
  d : Vector3 α
  tMax : α
  time : α
  medium : Option Nat
deriving DecidableEq, Repr

/-- `Ray::operator()(Float t)`: `o + d * t`. -/
def Ray.apply {α : Type} [Add α] [Mul α] (r : Ray α) (t : α) : Point3 α :=
  r.o.add (r.d.mul t)

/-- Modelled from the spec: `gamma(n)` of `pbrt.h`, the standard bound
`n ε / (1 - n ε)` on the relative error of `n` roundings, at the
single-precision unit roundoff `ε = 2^-24`.  The general theorems take the
function `gamma` as a parameter; this instance serves concrete evaluations. -/
def gammaSingle (n : Nat) : ℚ := (n * (1 / 2 ^ 24)) / (1 - n * (1 / 2 ^ 24))

/-- Body of the loop of the general-form `Bounds3<T>::IntersectP` for axis `i`
with the running interval `[t0, t1]`: `none` is the early `return false`,
`some (t0, t1)` the updated interval.  `gamma` is the error-bound function of
`pbrt.h`. -/
def Bounds3.IntersectPSlab {α : Type} [Zero α] [One α] [OfNat α 2] [Add α] [Sub α] [Mul α] [Div α]
    [LT α] [DecidableRel (α := α) (· < ·)] (gamma : Nat → α)
    (b : Bounds3 α) (ray : Ray α) (i : Int) (t : α × α) : Option (α × α) :=
  let invRayDir := 1 / ray.d.get i
  let tNear := (b.pMin.get i - ray.o.get i) * invRayDir
  let tFar := (b.pMax.get i - ray.o.get i) * invRayDir
  -- if (tNear > tFar) std::swap(tNear, tFar)
  let near := if tNear > tFar then tFar else tNear
  let far := if tNear > tFar then tNear else tFar
  let far := far * (1 + 2 * gamma 3)
  let t0 := if near > t.1 then near else t.1
  let t1 := if far < t.2 then far else t.2
  if t0 > t1 then none else some (t0, t1)

/-- General form `Bounds3<T>::IntersectP(const Ray &ray, Float *hitt0,
Float *hitt1)`: the loop over `i = 0, 1, 2` starting from `t0 = 0`,
`t1 = ray.tMax`.  `none` is the result `false` (nothing is written);
`some (t0, t1)` is the result `true` with the values stored to `*hitt0` and
`*hitt1` when those pointers are given. -/
def Bounds3.IntersectP {α : Type} [Zero α] [One α] [OfNat α 2] [Add α] [Sub α] [Mul α] [Div α]
    [LT α] [DecidableRel (α := α) (· < ·)] (gamma : Nat → α)
    (b : Bounds3 α) (ray : Ray α) : Option (α × α) :=
  ((Bounds3.IntersectPSlab gamma b ray 0 (0, ray.tMax)).bind
    (Bounds3.IntersectPSlab gamma b ray 1)).bind (Bounds3.IntersectPSlab gamma b ray 2)

/-- Optimized form `Bounds3<T>::IntersectP(const Ray &ray, const Vector3f
&invDir, const int dirIsNeg[3])`. -/
def Bounds3.IntersectPInv {α : Type} [Zero α] [One α] [OfNat α 2] [Add α] [Sub α] [Mul α] [Div α]
    [LT α] [DecidableRel (α := α) (· < ·)] (gamma : Nat → α)
    (bounds : Bounds3 α) (ray : Ray α) (invDir : Vector3 α) (dirIsNeg : Fin 3 → Int) :
    Bool :=
  let tMin := ((bounds.get (dirIsNeg 0)).x - ray.o.x) * invDir.x
  let tMax := ((bounds.get (1 - dirIsNeg 0)).x - ray.o.x) * invDir.x
  let tyMin := ((bounds.get (dirIsNeg 1)).y - ray.o.y) * invDir.y
  let tyMax := ((bounds.get (1 - dirIsNeg 1)).y - ray.o.y) * invDir.y
  let tMax := tMax * (1 + 2 * gamma 3)
  let tyMax := tyMax * (1 + 2 * gamma 3)
  if tMin > tyMax ∨ tyMin > tMax then false
  else
    let tMin := if tyMin > tMin then tyMin else tMin
    let tMax := if tyMax < tMax then tyMax else tMax
    let tzMin := ((bounds.get (dirIsNeg 2)).z - ray.o.z) * invDir.z
    let tzMax := ((bounds.get (1 - dirIsNeg 2)).z - ray.o.z) * invDir.z
    let tzMax := tzMax * (1 + 2 * gamma 3)
    if tMin > tzMax ∨ tzMin > tMax then false
    else
      let tMin := if tzMin > tMin then tzMin else tMin
      let tMax := if tzMax < tMax then tzMax else tMax
      decide (tMin < ray.tMax) && decide (tMax > 0)

/-- The reciprocal direction a caller of the optimized test precomputes:
`invDir = (1 / r.d.x, 1 / r.d.y, 1 / r.d.z)`. -/
def Ray.invDir {α : Type} [One α] [Div α] (r : Ray α) : Vector3 α :=
  ⟨1 / r.d.x, 1 / r.d.y, 1 / r.d.z⟩

/-- The sign flags a caller of the optimized test precomputes:
`dirIsNeg[i] = (invDir[i] < 0)`, as the `int` 1 or 0. -/
def Ray.dirIsNeg {α : Type} [Zero α] [One α] [Div α] [LT α] [DecidableRel (α := α) (· < ·)]
    (r : Ray α) : Fin 3 → Int :=
  fun i => if r.invDir.get i.val < 0 then 1 else 0

/-! ## Checks and the scalar division operators -/

/-- How a run is aborted: by a `CHECK_*` macro, active in every build, or by
a `DCHECK`, active in checked builds only. -/
inductive Abort where
  | check
  | dcheck
deriving DecidableEq, Repr

/-- A scalar type with its NaN test `std::isnan`. -/
class HasNaN (α : Type) where
  /-- Whether the value is a NaN. -/
  isNaN : α → Bool

/-- `isNaN(x)`: `std::isnan(x)`. -/
def isNaN {α : Type} [HasNaN α] (x : α) : Bool := HasNaN.isNaN x

/-- A linearly ordered scalar (`int`, for which the source specialises `isNaN`
to `return false`, or an exact number) is never NaN. -/
instance (priority := low) {α : Type} [LinearOrder α] : HasNaN α := ⟨fun _ => false⟩

/-- `CHECK_NE(a, b)`: aborts, in every build, when `a == b`. -/
def CHECK_NE {α : Type} [BEq α] (a b : α) : Except Abort Unit :=
  if a == b then Except.error Abort.check else Except.ok ()

/-- `DCHECK(cond)`: aborts when `cond` is false, but only in a checked build
(`checked = true`); it is compiled out otherwise. -/
def DCHECK (checked : Bool) (cond : Bool) : Except Abort Unit :=
  if checked && !cond then Except.error Abort.dcheck else Except.ok ()

/-- `Vector2<T>::HasNaNs()`. -/
def Vector2.HasNaNs {α : Type} [HasNaN α] (v : Vector2 α) : Bool := isNaN v.x || isNaN v.y

/-- `Vector3<T>::HasNaNs()`. -/
def Vector3.HasNaNs {α : Type} [HasNaN α] (v : Vector3 α) : Bool := isNaN v.x || isNaN v.y || isNaN v.z

/-- `Point2<T>::HasNaNs()`. -/
def Point2.HasNaNs {α : Type} [HasNaN α] (p : Point2 α) : Bool := isNaN p.x || isNaN p.y

/-- `Point3<T>::HasNaNs()`. -/
def Point3.HasNaNs {α : Type} [HasNaN α] (p : Point3 α) : Bool := isNaN p.x || isNaN p.y || isNaN p.z

/-- `Normal3<T>::HasNaNs()`. -/
def Normal3.HasNaNs {α : Type} [HasNaN α] (n : Normal3 α) : Bool := isNaN n.x || isNaN n.y || isNaN n.z

/-- `Vector2(T xx, T yy)`: stores the components, then `DCHECK(!HasNaNs())`. -/
def Vector2.ctor {α : Type} [HasNaN α] (checked : Bool) (xx yy : α) : Except Abort (Vector2 α) := do
  DCHECK checked (!(Vector2.mk xx yy).HasNaNs)
  pure ⟨xx, yy⟩

/-- `Vector3(T x, T y, T z)`: stores the components, then `DCHECK(!HasNaNs())`. -/
def Vector3.ctor {α : Type} [HasNaN α] (checked : Bool) (x y z : α) : Except Abort (Vector3 α) := do
  DCHECK checked (!(Vector3.mk x y z).HasNaNs)
  pure ⟨x, y, z⟩

/-- `Point2(T xx, T yy)`: stores the components, then `DCHECK(!HasNaNs())`. -/
def Point2.ctor {α : Type} [HasNaN α] (checked : Bool) (xx yy : α) : Except Abort (Point2 α) := do
  DCHECK checked (!(Point2.mk xx yy).HasNaNs)
  pure ⟨xx, yy⟩

/-- `Point3(T x, T y, T z)`: stores the components, then `DCHECK(!HasNaNs())`. -/
def Point3.ctor {α : Type} [HasNaN α] (checked : Bool) (x y z : α) : Except Abort (Point3 α) := do
  DCHECK checked (!(Point3.mk x y z).HasNaNs)
  pure ⟨x, y, z⟩

/-- `Normal3(T xx, T yy, T zz)`: stores the components, then
`DCHECK(!HasNaNs())`. -/
def Normal3.ctor {α : Type} [HasNaN α] (checked : Bool) (xx yy zz : α) : Except Abort (Normal3 α) := do
  DCHECK checked (!(Normal3.mk xx yy zz).HasNaNs)
  pure ⟨xx, yy, zz⟩

/-- `Vector2<T>::operator/(U f)`. -/
def Vector2.div {α : Type} [Zero α] [One α] [Mul α] [Div α] [BEq α] [HasNaN α]
    (checked : Bool) (v : Vector2 α) (f : α) :
    Except Abort (Vector2 α) := do
  CHECK_NE f 0
  let inv := 1 / f
  Vector2.ctor checked (v.x * inv) (v.y * inv)

/-- `Vector2<T>::operator/=(U f)`: the updated `*this`. -/
def Vector2.divAssign {α : Type} [Zero α] [One α] [Mul α] [Div α] [BEq α] (v : Vector2 α) (f : α) :
    Except Abort (Vector2 α) := do
  CHECK_NE f 0
  let inv := 1 / f
  pure { x := v.x * inv, y := v.y * inv }

/-- `Vector3<T>::operator/(U f)`. -/
def Vector3.div {α : Type} [Zero α] [One α] [Mul α] [Div α] [BEq α] [HasNaN α]
    (checked : Bool) (v : Vector3 α) (f : α) :
    Except Abort (Vector3 α) := do
  CHECK_NE f 0
  let inv := 1 / f
  Vector3.ctor checked (v.x * inv) (v.y * inv) (v.z * inv)

/-- `Vector3<T>::operator/=(U f)`: the updated `*this`. -/
def Vector3.divAssign {α : Type} [Zero α] [One α] [Mul α] [Div α] [BEq α] (v : Vector3 α) (f : α) :
    Except Abort (Vector3 α) := do
  CHECK_NE f 0
  let inv := 1 / f
  pure { x := v.x * inv, y := v.y * inv, z := v.z * inv }

/-- `Point2<T>::operator/(U f)`: `Point2<T>(inv * x, inv * y)`. -/
def Point2.div {α : Type} [Zero α] [One α] [Mul α] [Div α] [BEq α] [HasNaN α]
    (checked : Bool) (p : Point2 α) (f : α) :
    Except Abort (Point2 α) := do
  CHECK_NE f 0
  let inv := 1 / f
  Point2.ctor checked (inv * p.x) (inv * p.y)

/-- `Point2<T>::operator/=(U f)`: the updated `*this`. -/
def Point2.divAssign {α : Type} [Zero α] [One α] [Mul α] [Div α] [BEq α] (p : Point2 α) (f : α) :
    Except Abort (Point2 α) := do
  CHECK_NE f 0
  let inv := 1 / f
  pure { x := p.x * inv, y := p.y * inv }

/-- `Point3<T>::operator/(U f)`: `Point3<T>(inv * x, inv * y, inv * z)`. -/
def Point3.div {α : Type} [Zero α] [One α] [Mul α] [Div α] [BEq α] [HasNaN α]
    (checked : Bool) (p : Point3 α) (f : α) :
    Except Abort (Point3 α) := do
  CHECK_NE f 0
  let inv := 1 / f
  Point3.ctor checked (inv * p.x) (inv * p.y) (inv * p.z)

/-- `Point3<T>::operator/=(U f)`: the updated `*this`. -/
def Point3.divAssign {α : Type} [Zero α] [One α] [Mul α] [Div α] [BEq α] (p : Point3 α) (f : α) :
    Except Abort (Point3 α) := do
  CHECK_NE f 0
  let inv := 1 / f
  pure { x := p.x * inv, y := p.y * inv, z := p.z * inv }

/-- `Normal3<T>::operator/(U f)`. -/
def Normal3.div {α : Type} [Zero α] [One α] [Mul α] [Div α] [BEq α] [HasNaN α]
    (checked : Bool) (n : Normal3 α) (f : α) :
    Except Abort (Normal3 α) := do
  CHECK_NE f 0
  let inv := 1 / f
  Normal3.ctor checked (n.x * inv) (n.y * inv) (n.z * inv)

/-- `Normal3<T>::operator/=(U f)`: the updated `*this`. -/
def Normal3.divAssign {α : Type} [Zero α] [One α] [Mul α] [Div α] [BEq α] (n : Normal3 α) (f : α) :
    Except Abort (Normal3 α) := do
  CHECK_NE f 0
  let inv := 1 / f
  pure { x := n.x * inv, y := n.y * inv, z := n.z * inv }

/-! ## Lattice iterator over a Bounds2i -/

/-- `Bounds2iIterator`: the current point `p` and the pointer `bounds` to the
box iterated over (represented by the box it points to). -/
structure Bounds2iIterator where
  p : Point2 Int
  bounds : Bounds2 Int
deriving DecidableEq, Repr

/-- `Bounds2iIterator::advance()`: `++p.x`; when `p.x == bounds->pMax.x`, reset
`p.x` to `bounds->pMin.x` and `++p.y`. -/
def Bounds2iIterator.advance (it : Bounds2iIterator) : Bounds2iIterator :=
  let p : Point2 Int := ⟨it.p.x + 1, it.p.y⟩
  if p.x = it.bounds.pMax.x then
    { it with p := ⟨it.bounds.pMin.x, p.y + 1⟩ }
  else
    { it with p := p }

/-- `Bounds2iIterator::operator!=`: `p != bi.p || bounds != bi.bounds`, with
`Point2::operator!=` being `x != p.x || y != p.y`. -/
def Bounds2iIterator.ne (it bi : Bounds2iIterator) : Bool :=
  (decide (it.p.x ≠ bi.p.x) || decide (it.p.y ≠ bi.p.y)) || decide (it.bounds ≠ bi.bounds)

/-- `begin(const Bounds2i &b)`: the iterator at `b.pMin`. -/
def begin (b : Bounds2 Int) : Bounds2iIterator := ⟨b.pMin, b⟩

/-- `end(const Bounds2i &b)`: the iterator at `(b.pMin.x, b.pMax.y)`, or at
`b.pMin` when the bounds are degenerate. -/
def end_ (b : Bounds2 Int) : Bounds2iIterator :=
  let pEnd : Point2 Int := ⟨b.pMin.x, b.pMax.y⟩
  let pEnd := if b.pMin.x ≥ b.pMax.x ∨ b.pMin.y ≥ b.pMax.y then b.pMin else pEnd
  ⟨pEnd, b⟩

/-- The loop `for (it = begin(b); it != end(b); ++it) visit(*it)`, started at
`it`, with a bound `fuel` on the number of comparisons `it != end(b)`: the
list of visited points, or `none` when the fuel runs out before the iterator
equals `end(b)`. -/
def iterate (b : Bounds2 Int) : Nat → Bounds2iIterator → Option (List (Point2 Int))
  | 0, _ => none
  | fuel + 1, it =>
    if it.ne (end_ b) then (iterate b fuel it.advance).map (fun ps => it.p :: ps)
    else some []

/-- The lattice points `(x, y)` with `pMin.x ≤ x < pMax.x` and
`pMin.y ≤ y < pMax.y`, listed in row-major order (`x` fastest, then `y`). -/
def rowMajor (b : Bounds2 Int) : List (Point2 Int) :=
  (List.range (b.pMax.y - b.pMin.y).toNat).flatMap fun (j : Nat) =>
    (List.range (b.pMax.x - b.pMin.x).toNat).map fun (i : Nat) =>
      (⟨b.pMin.x + (i : Int), b.pMin.y + (j : Int)⟩ : Point2 Int)

/-! ## Length, dot product, normalization -/

/-- `Vector3<T>::LengthSquared()`: `x * x + y * y + z * z`. -/
def Vector3.LengthSquared {α : Type} [Add α] [Mul α] (v : Vector3 α) : α :=
  v.x * v.x + v.y * v.y + v.z * v.z

/-- `Vector3<T>::Length()`: `std::sqrt(LengthSquared())`.  The library function
`std::sqrt` is the parameter `sqrt`. -/
def Vector3.Length {α : Type} [Add α] [Mul α] (sqrt : α → α) (v : Vector3 α) : α :=
  sqrt v.LengthSquared

/-- `Dot(const Vector3<T> &v1, const Vector3<T> &v2)`. -/
def Vector3.Dot {α : Type} [Add α] [Mul α] (v1 v2 : Vector3 α) : α :=
  v1.x * v2.x + v1.y * v2.y + v1.z * v2.z

/-- `Normalize(const Vector3<T> &v)`: `v / v.Length()`, with the checks of
`Vector3<T>::operator/`. -/
def Vector3.Normalize {α : Type} [LinearOrderedField α] (sqrt : α → α) (checked : Bool)
    (v : Vector3 α) : Except Abort (Vector3 α) :=
  Vector3.div checked v (Vector3.Length sqrt v)

/-! ## Bounds constructors, union, extent, offset, corners -/

/-- `std::numeric_limits<int>::lowest()`. -/
def INT_MIN : Int := -2147483648

/-- `std::numeric_limits<int>::max()`. -/
def INT_MAX : Int := 2147483647

/-- Value stored in a 32-bit `int` for a computation whose exact result is
`x`: two's-complement wrap-around into `[INT_MIN, INT_MAX]`. -/
def wrapInt32 (x : Int) : Int := (x + 2 ^ 31) % 2 ^ 32 - 2 ^ 31

/-- `Point2<int>::operator+(const Vector2<int> &v)`: the componentwise sums
are `int` additions, which wrap around on overflow. -/
def Point2.addInt (p : Point2 Int) (v : Vector2 Int) : Point2 Int :=
  ⟨wrapInt32 (p.x + v.x), wrapInt32 (p.y + v.y)⟩

/-- `Point3<int>::operator+(const Vector3<int> &v)`: the componentwise sums
are `int` additions, which wrap around on overflow. -/
def Point3.addInt (p : Point3 Int) (v : Vector3 Int) : Point3 Int :=
  ⟨wrapInt32 (p.x + v.x), wrapInt32 (p.y + v.y), wrapInt32 (p.z + v.z)⟩

/-- `Bounds2()`: with `minNum = std::numeric_limits<T>::lowest()` and
`maxNum = std::numeric_limits<T>::max()`, `pMin = (maxNum, maxNum)` and
`pMax = (minNum, minNum)`. -/
def Bounds2.empty {α : Type} (minNum maxNum : α) : Bounds2 α :=
  { pMin := ⟨maxNum, maxNum⟩, pMax := ⟨minNum, minNum⟩ }

/-- `Bounds3()`: with `minNum = std::numeric_limits<T>::lowest()` and
`maxNum = std::numeric_limits<T>::max()`, `pMin = (maxNum, maxNum, maxNum)` and
`pMax = (minNum, minNum, minNum)`. -/
def Bounds3.empty {α : Type} (minNum maxNum : α) : Bounds3 α :=
  { pMin := ⟨maxNum, maxNum, maxNum⟩, pMax := ⟨minNum, minNum, minNum⟩ }

/-- `Bounds2(const Point2<T> &p)`: `pMin(p), pMax(p)`. -/
def Bounds2.ofPoint {α : Type} (p : Point2 α) : Bounds2 α := { pMin := p, pMax := p }

/-- `Bounds3(const Point3<T> &p)`: `pMin(p), pMax(p)`. -/
def Bounds3.ofPoint {α : Type} (p : Point3 α) : Bounds3 α := { pMin := p, pMax := p }

/-- `Bounds2(const Point2<T> &p1, const Point2<T> &p2)`. -/
def Bounds2.ofPoints {α : Type} [LinearOrder α] (p1 p2 : Point2 α) : Bounds2 α :=
  { pMin := ⟨stdMin p1.x p2.x, stdMin p1.y p2.y⟩
    pMax := ⟨stdMax p1.x p2.x, stdMax p1.y p2.y⟩ }

/-- `Bounds3(const Point3<T> &p1, const Point3<T> &p2)`. -/
def Bounds3.ofPoints {α : Type} [LinearOrder α] (p1 p2 : Point3 α) : Bounds3 α :=
  { pMin := ⟨stdMin p1.x p2.x, stdMin p1.y p2.y, stdMin p1.z p2.z⟩
    pMax := ⟨stdMax p1.x p2.x, stdMax p1.y p2.y, stdMax p1.z p2.z⟩ }

/-- A `Point2` whose components are values of the scalar type `T`, i.e. lie
between `lowest()` and `max()`. -/
def Point2.Representable {α : Type} [LinearOrder α] (minNum maxNum : α) (p : Point2 α) :
    Prop :=
  (minNum ≤ p.x ∧ p.x ≤ maxNum) ∧ (minNum ≤ p.y ∧ p.y ≤ maxNum)

/-- A `Point3` whose components are values of the scalar type `T`, i.e. lie
between `lowest()` and `max()`. -/
def Point3.Representable {α : Type} [LinearOrder α] (minNum maxNum : α) (p : Point3 α) :
    Prop :=
  (minNum ≤ p.x ∧ p.x ≤ maxNum) ∧ (minNum ≤ p.y ∧ p.y ≤ maxNum) ∧
    (minNum ≤ p.z ∧ p.z ≤ maxNum)

instance {α : Type} [LinearOrder α] (lo hi : α) (p : Point2 α) :
    Decidable (p.Representable lo hi) :=
  inferInstanceAs (Decidable (_ ∧ _))

instance {α : Type} [LinearOrder α] (lo hi : α) (p : Point3 α) :
    Decidable (p.Representable lo hi) :=
  inferInstanceAs (Decidable (_ ∧ _))

/-- `Union(const Bounds3<T> &b1, const Bounds3<T> &b2)`. -/
def Bounds3.Union {α : Type} [LinearOrder α] (b1 b2 : Bounds3 α) : Bounds3 α :=
  { pMin := Point3.Min b1.pMin b2.pMin, pMax := Point3.Max b1.pMax b2.pMax }

/-- `Union(const Bounds2<T> &b, const Bounds2<T> &b2)`. -/
def Bounds2.Union {α : Type} [LinearOrder α] (b b2 : Bounds2 α) : Bounds2 α :=
  { pMin := Point2.Min b.pMin b2.pMin, pMax := Point2.Max b.pMax b2.pMax }

/-- `Vector2<T>::operator[](int i)`: `x` for 0, `y` otherwise. -/
def Vector2.get {α : Type} (v : Vector2 α) (i : Int) : α :=
  if i = 0 then v.x else v.y

/-- `Bounds2<T>::Diagonal()`: `pMax - pMin`. -/
def Bounds2.Diagonal {α : Type} [Sub α] (b : Bounds2 α) : Vector2 α := b.pMax.sub b.pMin

/-- `Bounds3<T>::Diagonal()`: `pMax - pMin`. -/
def Bounds3.Diagonal {α : Type} [Sub α] (b : Bounds3 α) : Vector3 α := b.pMax.sub b.pMin

/-- `Bounds2<T>::MaximumExtent()`. -/
def Bounds2.MaximumExtent {α : Type} [LinearOrder α] [Sub α] (b : Bounds2 α) : Int :=
  let diag := b.Diagonal
  if diag.x > diag.y then 0 else 1

/-- `Bounds3<T>::MaximumExtent()`. -/
def Bounds3.MaximumExtent {α : Type} [LinearOrder α] [Sub α] (b : Bounds3 α) : Int :=
  let d := b.Diagonal
  if d.x > d.y ∧ d.x > d.z then 0
  else if d.y > d.z then 1
  else 2

/-- The scalar division `a / b` of `T`, with a zero divisor reported as `none`
(undefined for `int`, an infinity or a NaN for `Float`). -/
def scalarDiv {α : Type} [Zero α] [DecidableEq α] [Div α] (a b : α) : Option α :=
  if b = 0 then none else some (a / b)

/-- `Bounds2<T>::Offset(const Point2<T> &p)`; `none` when a division by zero
is performed. -/
def Bounds2.Offset {α : Type} [LinearOrderedRing α] [Div α] (b : Bounds2 α) (p : Point2 α) :
    Option (Vector2 α) := do
  let o := p.sub b.pMin
  let ox ← if b.pMax.x > b.pMin.x then scalarDiv o.x (b.pMax.x - b.pMin.x) else pure o.x
  let oy ← if b.pMax.y > b.pMin.y then scalarDiv o.y (b.pMax.y - b.pMin.y) else pure o.y
  pure ⟨ox, oy⟩

/-- `Bounds3<T>::Offset(const Point3<T> &p)`; `none` when a division by zero
is performed. -/
def Bounds3.Offset {α : Type} [LinearOrderedRing α] [Div α] (b : Bounds3 α) (p : Point3 α) :
    Option (Vector3 α) := do
  let o := p.sub b.pMin
  let ox ← if b.pMax.x > b.pMin.x then scalarDiv o.x (b.pMax.x - b.pMin.x) else pure o.x
  let oy ← if b.pMax.y > b.pMin.y then scalarDiv o.y (b.pMax.y - b.pMin.y) else pure o.y
  let oz ← if b.pMax.z > b.pMin.z then scalarDiv o.z (b.pMax.z - b.pMin.z) else pure o.z
  pure ⟨ox, oy, oz⟩

/-- `Bounds3<T>::Corner(int corner)`: the `x` of `(*this)[corner & 1]`, the `y`
of `(*this)[(corner & 2) ? 1 : 0]`, the `z` of `(*this)[(corner & 4) ? 1 : 0]`;
`&` on `int` is the two's-complement `Int.land`. -/
def Bounds3.Corner {α : Type} (b : Bounds3 α) (corner : Int) : Point3 α :=
  ⟨(b.get (Int.land corner 1)).x,
   (b.get (if Int.land corner 2 ≠ 0 then 1 else 0)).y,
   (b.get (if Int.land corner 4 ≠ 0 then 1 else 0)).z⟩

/-! ## Further vector operations, distances, bounding sphere -/

/-- `Vector3<T>::operator+(const Vector3<T> &v)`. -/
def Vector3.add {α : Type} [Add α] (v w : Vector3 α) : Vector3 α :=
  ⟨v.x + w.x, v.y + w.y, v.z + w.z⟩

/-- `Vector3<T>::operator-(const Vector3<T> &v)`. -/
def Vector3.sub {α : Type} [Sub α] (v w : Vector3 α) : Vector3 α :=
  ⟨v.x - w.x, v.y - w.y, v.z - w.z⟩

/-- `Vector3<T>::operator-()`: `Vector3<T>(-x, -y, -z)`. -/
def Vector3.neg {α : Type} [Neg α] (v : Vector3 α) : Vector3 α := ⟨-v.x, -v.y, -v.z⟩

/-- `Vector3<T>::Vector3(const Normal3<T> &n)`. -/
def Vector3.ofNormal {α : Type} (n : Normal3 α) : Vector3 α := ⟨n.x, n.y, n.z⟩

/-- `Abs(const Normal3<T> &v)`: componentwise `std::abs`. -/
def Normal3.Abs {α : Type} [LinearOrderedRing α] (v : Normal3 α) : Normal3 α :=
  ⟨abs v.x, abs v.y, abs v.z⟩

/-- `Dot(const Normal3<T> &n1, const Vector3<T> &v2)`. -/
def Normal3.Dot {α : Type} [Add α] [Mul α] (n1 : Normal3 α) (v2 : Vector3 α) : α :=
  n1.x * v2.x + n1.y * v2.y + n1.z * v2.z

/-- `Dot(const Vector3<T> &v1, const Normal3<T> &n2)`. -/
def Vector3.DotNormal {α : Type} [Add α] [Mul α] (v1 : Vector3 α) (n2 : Normal3 α) : α :=
  v1.x * n2.x + v1.y * n2.y + v1.z * n2.z

/-- `Point3<T>::operator+(const Point3<T> &p)`. -/
def Point3.addPoint {α : Type} [Add α] (p q : Point3 α) : Point3 α :=
  ⟨p.x + q.x, p.y + q.y, p.z + q.z⟩

/-- Assignment `p[i] = v` through `T &Point3<T>::operator[](int i)`: `x` for 0,
`y` for 1, `z` otherwise. -/
def Point3.set {α : Type} (p : Point3 α) (i : Int) (v : α) : Point3 α :=
  if i = 0 then { p with x := v } else if i = 1 then { p with y := v } else { p with z := v }

/-- `DistanceSquared(const Point3<T> &p1, const Point3<T> &p2)`:
`(p1 - p2).LengthSquared()`. -/
def Point3.DistanceSquared {α : Type} [Add α] [Sub α] [Mul α] (p1 p2 : Point3 α) : α :=
  (p1.sub p2).LengthSquared

/-- `Distance(const Point3<T> &p1, const Point3<T> &p2)`: `(p1 - p2).Length()`. -/
def Point3.Distance {α : Type} [Add α] [Sub α] [Mul α] (sqrt : α → α) (p1 p2 : Point3 α) : α :=
  (p1.sub p2).Length sqrt

/-- `DistanceSquared(const Point3<T> &p, const Bounds3<U> &b)`; the
`std::max` of an initializer list keeps the first of equal elements, i.e. it
folds `std::max` from the left. -/
def Bounds3.DistanceSquared {α : Type} [Zero α] [Add α] [Sub α] [Mul α]
    [LT α] [DecidableRel (α := α) (· < ·)] (p : Point3 α) (b : Bounds3 α) :
    α :=
  let dx := stdMax (stdMax 0 (b.pMin.x - p.x)) (p.x - b.pMax.x)
  let dy := stdMax (stdMax 0 (b.pMin.y - p.y)) (p.y - b.pMax.y)
  let dz := stdMax (stdMax 0 (b.pMin.z - p.z)) (p.z - b.pMax.z)
  dx * dx + dy * dy + dz * dz

/-- `Bounds3<T>::BoundingSphere(Point3<T> *center, Float *radius)`: the values
stored to `*center` and `*radius`; the division by 2 carries the checks of
`Point3<T>::operator/`. -/
def Bounds3.BoundingSphere {α : Type} [LinearOrderedField α] (sqrt : α → α) (checked : Bool)
    (b : Bounds3 α) : Except Abort (Point3 α × α) := do
  let center ← Point3.div checked (b.pMin.addPoint b.pMax) 2
  let radius := if Bounds3.Inside center b then Point3.Distance sqrt center b.pMax else 0
  pure (center, radius)

/-! ## RayDifferential, hit reporting, OffsetRayOrigin -/

/-- `RayDifferential`: a `Ray` with the flag `hasDifferentials` and the
auxiliary origins and directions. -/
structure RayDifferential (α : Type) extends Ray α where
  hasDifferentials : Bool
  rxOrigin : Point3 α
  ryOrigin : Point3 α
  rxDirection : Vector3 α
  ryDirection : Vector3 α
deriving DecidableEq, Repr

/-- `RayDifferential(const Point3f &o, const Vector3f &d, Float tMax, Float
time, const Medium *medium)`: the `Ray` part from the arguments,
`hasDifferentials = false`, the auxiliary members default-constructed (zero). -/
def RayDifferential.ctor {α : Type} [Zero α] (o : Point3 α) (d : Vector3 α) (tMax time : α)
    (medium : Option Nat) : RayDifferential α :=
  { o := o, d := d, tMax := tMax, time := time, medium := medium,
    hasDifferentials := false,
    rxOrigin := ⟨0, 0, 0⟩, ryOrigin := ⟨0, 0, 0⟩,
    rxDirection := ⟨0, 0, 0⟩, ryDirection := ⟨0, 0, 0⟩ }

/-- `RayDifferential::ScaleDifferentials(Float s)`: the ray differential after
the call. -/
def RayDifferential.ScaleDifferentials {α : Type} [Add α] [Sub α] [Mul α]
    (r : RayDifferential α) (s : α) : RayDifferential α :=
  { r with
    rxOrigin := r.o.add ((r.rxOrigin.sub r.o).mul s)
    ryOrigin := r.o.add ((r.ryOrigin.sub r.o).mul s)
    rxDirection := r.d.add ((r.rxDirection.sub r.d).mul s)
    ryDirection := r.d.add ((r.ryDirection.sub r.d).mul s) }

/-- The general-form `Bounds3<T>::IntersectP` with its out-parameters and the
ray made explicit.  `hitt0`, `hitt1` are the cells the pointers refer to
(`none` for `nullptr`, `some v` for a cell holding `v`); the result is the
returned boolean, the two cells after the call, and the ray after the call
(no member of the ray, in particular the mutable `tMax`, is assigned). -/
def Bounds3.IntersectPOut {α : Type} [LinearOrderedField α] (gamma : Nat → α)
    (b : Bounds3 α) (ray : Ray α) (hitt0 hitt1 : Option α) :
    Bool × Option α × Option α × Ray α :=
  match Bounds3.IntersectP gamma b ray with
  | none => (false, hitt0, hitt1, ray)
  | some (t0, t1) => (true, hitt0.map (fun _ => t0), hitt1.map (fun _ => t1), ray)

/-- The local `offset` of `OffsetRayOrigin`: `d * Vector3f(n)` with
`d = Dot(Abs(n), pError)` (times 1024 under `PBRT_FLOAT_AS_DOUBLE`), negated
when `Dot(w, n) < 0`. -/
def OffsetRayOriginOffset {α : Type} [LinearOrderedRing α] (floatAsDouble : Bool)
    (pError : Vector3 α) (n : Normal3 α) (w : Vector3 α) : Vector3 α :=
  let d := (Normal3.Abs n).Dot pError
  let d := if floatAsDouble then d * 1024 else d
  let offset := (Vector3.ofNormal n).mul d
  if w.DotNormal n < 0 then offset.neg else offset

/-- One pass of the rounding loop of `OffsetRayOrigin` for axis `i`. -/
def OffsetRayOriginRound {α : Type} [LinearOrderedRing α] (NextFloatUp NextFloatDown : α → α)
    (offset : Vector3 α) (i : Int) (po : Point3 α) : Point3 α :=
  if offset.get i > 0 then po.set i (NextFloatUp (po.get i))
  else if offset.get i < 0 then po.set i (NextFloatDown (po.get i))
  else po

/-- `OffsetRayOrigin(const Point3f &p, const Vector3f &pError, const Normal3f
&n, const Vector3f &w)`.  `NextFloatUp` and `NextFloatDown` of `pbrt.h` are
parameters; `floatAsDouble` is the build flag `PBRT_FLOAT_AS_DOUBLE`. -/
def OffsetRayOrigin {α : Type} [LinearOrderedRing α] (floatAsDouble : Bool)
    (NextFloatUp NextFloatDown : α → α) (p : Point3 α) (pError : Vector3 α) (n : Normal3 α)
    (w : Vector3 α) : Point3 α :=
  let offset := OffsetRayOriginOffset floatAsDouble pError n w
  let po := p.add offset
  let po := OffsetRayOriginRound NextFloatUp NextFloatDown offset 0 po
  let po := OffsetRayOriginRound NextFloatUp NextFloatDown offset 1 po
  OffsetRayOriginRound NextFloatUp NextFloatDown offset 2 po

/-! ## Faceforward and CoordinateSystem -/

/-- `Normal3<T>::operator-()`: `Normal3(-x, -y, -z)`. -/
def Normal3.neg {α : Type} [Neg α] (n : Normal3 α) : Normal3 α := ⟨-n.x, -n.y, -n.z⟩

/-- `Dot(const Normal3<T> &n1, const Normal3<T> &n2)`. -/
def Normal3.DotNormal {α : Type} [Add α] [Mul α] (n1 n2 : Normal3 α) : α :=
  n1.x * n2.x + n1.y * n2.y + n1.z * n2.z

/-- The divisor `CoordinateSystem` uses for `v1`: `std::sqrt(x * x + z * z)` in
the branch `std::abs(v1.x) > std::abs(v1.y)`, `std::sqrt(y * y + z * z)`
otherwise. -/
def CoordinateSystemDivisor {α : Type} [LinearOrderedField α] (sqrt : α → α)
    (v1 : Vector3 α) : α :=
  if abs v1.x > abs v1.y then sqrt (v1.x * v1.x + v1.z * v1.z)
  else sqrt (v1.y * v1.y + v1.z * v1.z)

/-- `CoordinateSystem(const Vector3<T> &v1, Vector3<T> *v2, Vector3<T> *v3)`:
the values stored to `*v2` and `*v3`, or the abort of a check (of the
`Vector3` constructor or of `Vector3<T>::operator/`).  `std::sqrt` is the
parameter `sqrt`. -/
def CoordinateSystem {α : Type} [LinearOrderedField α] (sqrt : α → α) (checked : Bool)
    (v1 : Vector3 α) : Except Abort (Vector3 α × Vector3 α) :=
  (if abs v1.x > abs v1.y then
      (Vector3.ctor checked (-v1.z) 0 v1.x).bind fun t =>
        Vector3.div checked t (sqrt (v1.x * v1.x + v1.z * v1.z))
    else
      (Vector3.ctor checked 0 v1.z (-v1.y)).bind fun t =>
        Vector3.div checked t (sqrt (v1.y * v1.y + v1.z * v1.z))).bind fun v2 =>
    Except.ok (v2, Vector3.Cross v1 v2)

/-- Entry value of the slab of axis `i`, after the swap. -/
def slabNear {α : Type} [LinearOrderedField α] (b : Bounds3 α) (ray : Ray α) (i : Int) : α :=
  min ((b.pMin.get i - ray.o.get i) * (1 / ray.d.get i))
    ((b.pMax.get i - ray.o.get i) * (1 / ray.d.get i))

/-- Exit value of the slab of axis `i`, after the swap and before the inflation. -/
def slabFar {α : Type} [LinearOrderedField α] (b : Bounds3 α) (ray : Ray α) (i : Int) : α :=
  max ((b.pMin.get i - ray.o.get i) * (1 / ray.d.get i))
    ((b.pMax.get i - ray.o.get i) * (1 / ray.d.get i))

/-! ## IEEE 754 binary floating point (the type `Float`) -/

/-- The two formats `Float` can be: `float` (the default) and `double` (when
`PBRT_FLOAT_AS_DOUBLE` is defined). -/
inductive FloatFormat where
  | single
  | double
deriving DecidableEq, Repr

/-- Number of stored significand bits: 23 for `float`, 52 for `double`. -/
def FloatFormat.mantBits : FloatFormat → Nat
  | .single => 23
  | .double => 52

/-- Exponent of the smallest normal number: -126 for `float`, -1022 for
`double`. -/
def FloatFormat.emin : FloatFormat → Int
  | .single => -126
  | .double => -1022

/-- Exponent of the largest finite numbers: 127 for `float`, 1023 for
`double`. -/
def FloatFormat.emax : FloatFormat → Int
  | .single => 127
  | .double => 1023

/-- Round to the nearest integer, ties to the even one. -/
def roundHalfEven (y : ℚ) : Int :=
  if y - ⌊y⌋ < 1 / 2 then ⌊y⌋
  else if 1 / 2 < y - ⌊y⌋ then ⌊y⌋ + 1
  else if ⌊y⌋ % 2 = 0 then ⌊y⌋ else ⌊y⌋ + 1

/-- Exponent of the spacing of the format at the magnitude `x ≥ 0`: the
binade of `x` (at least `emin`, below which the numbers are subnormal) less
the number of significand bits. -/
def FloatFormat.quantum (fmt : FloatFormat) (x : ℚ) : Int :=
  max (Int.log 2 x) fmt.emin - fmt.mantBits

/-- Round the magnitude `x ≥ 0` to the nearest multiple of the spacing at `x`,
ties to even, with an unbounded exponent range above (overflow is decided by
the caller on the result). -/
def FloatFormat.roundMag (fmt : FloatFormat) (x : ℚ) : ℚ :=
  roundHalfEven (x / 2 ^ fmt.quantum x) * 2 ^ fmt.quantum x

/-- A value of `Float`: a finite number other than `-0` (`fin 0` is `+0`),
the negative zero, an infinity with its sign, or a NaN. -/
inductive IEEE (fmt : FloatFormat) where
  | fin (q : ℚ)
  | negZero
  | inf (neg : Bool)
  | nan
deriving Repr

/-- The zero of the given sign. -/
def IEEE.zero {fmt : FloatFormat} (neg : Bool) : IEEE fmt :=
  if neg then IEEE.negZero else IEEE.fin 0

/-- The sign bit (of a NaN: unspecified, taken as clear). -/
def IEEE.signBit {fmt : FloatFormat} : IEEE fmt → Bool
  | .fin q => decide (q < 0)
  | .negZero => true
  | .inf neg => neg
  | .nan => false

/-- The number a finite value stands for (0 for the other values). -/
def IEEE.toRat {fmt : FloatFormat} : IEEE fmt → ℚ
  | .fin q => q
  | _ => 0

/-- Round the number `x` to the nearest multiple of the spacing at `|x|`, ties
to even (the sign is kept, the magnitude is rounded). -/
def FloatFormat.roundRat (fmt : FloatFormat) (x : ℚ) : ℚ :=
  if x < 0 then -fmt.roundMag (-x) else fmt.roundMag x

/-- The value delivered for the exact result `x` of an operation, in the
default rounding mode (round to nearest, ties to even): `x` is rounded with
gradual underflow; a rounded magnitude of `2 ^ (emax + 1)` or more overflows to
the infinity of the sign of `x`; a zero result has the sign of `x`, and the
sign `negz` supplied by the operation when `x` is itself 0. -/
def IEEE.round {fmt : FloatFormat} (negz : Bool) (x : ℚ) : IEEE fmt :=
  if x = 0 then IEEE.zero negz
  else if (2 : ℚ) ^ (fmt.emax + 1) ≤ |fmt.roundRat x| then IEEE.inf (decide (x < 0))
  else if fmt.roundRat x = 0 then IEEE.zero (decide (x < 0))
  else IEEE.fin (fmt.roundRat x)

/-- `std::isnan`. -/
def IEEE.isNaN {fmt : FloatFormat} : IEEE fmt → Bool
  | .nan => true
  | _ => false

/-- Unary minus: flips the sign bit. -/
def IEEE.neg {fmt : FloatFormat} : IEEE fmt → IEEE fmt
  | .fin q => if q = 0 then IEEE.negZero else IEEE.fin (-q)
  | .negZero => IEEE.fin 0
  | .inf neg => IEEE.inf (!neg)
  | .nan => IEEE.nan

/-- Addition.  `inf + (-inf)` is NaN; an exact zero sum is `-0` only when both
operands are negative (zeros). -/
def IEEE.add {fmt : FloatFormat} (a b : IEEE fmt) : IEEE fmt :=
  match a, b with
  | .nan, _ => IEEE.nan
  | _, .nan => IEEE.nan
  | .inf s, .inf t => if s = t then IEEE.inf s else IEEE.nan
  | .inf s, _ => IEEE.inf s
  | _, .inf t => IEEE.inf t
  | a, b => IEEE.round (a.signBit && b.signBit) (a.toRat + b.toRat)

/-- Subtraction: `a - b = a + (-b)`. -/
def IEEE.sub {fmt : FloatFormat} (a b : IEEE fmt) : IEEE fmt := a.add b.neg

/-- Multiplication.  `0 * inf` is NaN; the sign of a zero or infinite result
is the exclusive or of the operands' signs. -/
def IEEE.mul {fmt : FloatFormat} (a b : IEEE fmt) : IEEE fmt :=
  match a, b with
  | .nan, _ => IEEE.nan
  | _, .nan => IEEE.nan
  | .inf s, .inf t => IEEE.inf (xor s t)
  | .inf s, b => if b.toRat = 0 then IEEE.nan else IEEE.inf (xor s b.signBit)
  | a, .inf t => if a.toRat = 0 then IEEE.nan else IEEE.inf (xor a.signBit t)
  | a, b => IEEE.round (xor a.signBit b.signBit) (a.toRat * b.toRat)

/-- Division.  `0 / 0` and `inf / inf` are NaN; a non-zero number divided by a
zero is an infinity; a finite number divided by an infinity is a zero. -/
def IEEE.div {fmt : FloatFormat} (a b : IEEE fmt) : IEEE fmt :=
  match a, b with
  | .nan, _ => IEEE.nan
  | _, .nan => IEEE.nan
  | .inf _, .inf _ => IEEE.nan
  | .inf s, b => IEEE.inf (xor s b.signBit)
  | a, .inf t => IEEE.zero (xor a.signBit t)
  | a, b =>
    if b.toRat = 0 then
      (if a.toRat = 0 then IEEE.nan else IEEE.inf (xor a.signBit b.signBit))
    else IEEE.round (xor a.signBit b.signBit) (a.toRat / b.toRat)

/-- Position of a non-NaN value on the extended line: the zeros coincide,
`-inf` is the bottom and `+inf` the top element. -/
def IEEE.key {fmt : FloatFormat} : IEEE fmt → WithBot (WithTop ℚ)
  | .fin q => ((q : WithTop ℚ) : WithBot (WithTop ℚ))
  | .negZero => ((0 : ℚ) : WithTop ℚ)
  | .inf neg => if neg then ⊥ else ((⊤ : WithTop ℚ) : WithBot (WithTop ℚ))
  | .nan => ((0 : ℚ) : WithTop ℚ)

instance {fmt : FloatFormat} : Zero (IEEE fmt) := ⟨IEEE.fin 0⟩

instance {fmt : FloatFormat} : One (IEEE fmt) := ⟨IEEE.fin 1⟩

instance {fmt : FloatFormat} : OfNat (IEEE fmt) 2 := ⟨IEEE.fin 2⟩

instance {fmt : FloatFormat} : Neg (IEEE fmt) := ⟨IEEE.neg⟩

instance {fmt : FloatFormat} : Add (IEEE fmt) := ⟨IEEE.add⟩

instance {fmt : FloatFormat} : Sub (IEEE fmt) := ⟨IEEE.sub⟩

instance {fmt : FloatFormat} : Mul (IEEE fmt) := ⟨IEEE.mul⟩

instance {fmt : FloatFormat} : Div (IEEE fmt) := ⟨IEEE.div⟩

/-- `a < b`: false when an operand is NaN. -/
instance {fmt : FloatFormat} : LT (IEEE fmt) :=
  ⟨fun a b => a.isNaN = false ∧ b.isNaN = false ∧ a.key < b.key⟩

/-- `a <= b`: false when an operand is NaN. -/
instance {fmt : FloatFormat} : LE (IEEE fmt) :=
  ⟨fun a b => a.isNaN = false ∧ b.isNaN = false ∧ a.key ≤ b.key⟩

instance {fmt : FloatFormat} : DecidableRel (α := IEEE fmt) (· < ·) :=
  fun a b => inferInstanceAs (Decidable (a.isNaN = false ∧ b.isNaN = false ∧ a.key < b.key))

instance {fmt : FloatFormat} : DecidableRel (α := IEEE fmt) (· ≤ ·) :=
  fun a b => inferInstanceAs (Decidable (a.isNaN = false ∧ b.isNaN = false ∧ a.key ≤ b.key))

/-- `a == b`: false when an operand is NaN; the two zeros are equal. -/
instance {fmt : FloatFormat} : BEq (IEEE fmt) :=
  ⟨fun a b => !a.isNaN && !b.isNaN && decide (a.key = b.key)⟩

instance {fmt : FloatFormat} : HasNaN (IEEE fmt) := ⟨IEEE.isNaN⟩

/-- `MachineEpsilon` of `pbrt.h`: `std::numeric_limits<Float>::epsilon() * 0.5`. -/
def MachineEpsilon (fmt : FloatFormat) : IEEE fmt := IEEE.fin (1 / 2 ^ (fmt.mantBits + 1))

/-- Modelled from the spec: `gamma(n)` of `pbrt.h`,
`(n * MachineEpsilon) / (1 - n * MachineEpsilon)`, evaluated in `Float`. -/
def gammaFloat (fmt : FloatFormat) (n : Nat) : IEEE fmt :=
  (IEEE.round false n * MachineEpsilon fmt) / (1 - IEEE.round false n * MachineEpsilon fmt)

/-- Position on the extended line of the float delivered for a rounded number
`r`: the top (bottom) element from `2 ^ (emax + 1)` on (from `-2 ^ (emax + 1)`
down), where the format overflows, and `r` itself in between. -/
def FloatFormat.clamp (fmt : FloatFormat) (r : ℚ) : WithBot (WithTop ℚ) :=
  if (2 : ℚ) ^ (fmt.emax + 1) ≤ r then ((⊤ : WithTop ℚ) : WithBot (WithTop ℚ))
  else if r ≤ -(2 : ℚ) ^ (fmt.emax + 1) then ⊥
  else ((r : WithTop ℚ) : WithBot (WithTop ℚ))

/-- A value of the format: a finite value is a fixed point of the rounding
and lies below the overflow threshold. -/
def IEEE.Representable {fmt : FloatFormat} : IEEE fmt → Prop
  | .fin q => fmt.roundRat q = q ∧ |q| < 2 ^ (fmt.emax + 1)
  | _ => True

/-- Conversion of an `int` to `Float`: the nearest value of the format. -/
def IEEE.ofInt {fmt : FloatFormat} (n : Int) : IEEE fmt := IEEE.round false n

/-- Conversion of a `Float` to `int`: a finite value is truncated toward zero.
The conversion of a value whose truncation is not an `int`, of an infinity or
of a NaN is undefined; it is given the result `INT_MIN` the x86 conversion
instruction delivers. -/
def IEEE.toInt {fmt : FloatFormat} : IEEE fmt → Int
  | .fin q =>
    if INT_MIN ≤ (if 0 ≤ q then ⌊q⌋ else -⌊-q⌋) ∧ (if 0 ≤ q then ⌊q⌋ else -⌊-q⌋) ≤ INT_MAX then
      (if 0 ≤ q then ⌊q⌋ else -⌊-q⌋)
    else INT_MIN
  | .negZero => 0
  | _ => INT_MIN

/-- `Vector3<int>::operator/(int f)`, the instantiation `T = U = int`: the
reciprocal `inv = (Float)1 / f` and the products `x * inv` are `Float`
computations on the converted `int` operands, and the constructor
`Vector3<int>(x * inv, y * inv, z * inv)` converts the products back to
`int`. -/
def Vector3.divInt (fmt : FloatFormat) (checked : Bool) (v : Vector3 Int) (f : Int) :
    Except Abort (Vector3 Int) := do
  CHECK_NE f 0
  let inv : IEEE fmt := 1 / IEEE.ofInt f
  Vector3.ctor checked (IEEE.ofInt v.x * inv).toInt (IEEE.ofInt v.y * inv).toInt
    (IEEE.ofInt v.z * inv).toInt

/-- Whether the value is a finite number (a zero included). -/
def IEEE.isFinite {fmt : FloatFormat} : IEEE fmt → Bool
  | .fin _ => true
  | .negZero => true
  | _ => false

/-- Entry parameter of one slab, for the corner coordinates `lo`, `hi` of the
box and the origin `o` and direction `d` of the ray on that axis: the smaller
of `tNear = (lo - o) * (1 / d)` and `tFar = (hi - o) * (1 / d)`, as the swap
of the general test leaves it in `tNear`. -/
def slabEntry {α : Type} [One α] [Sub α] [Mul α] [Div α] [LT α]
    [DecidableRel (α := α) (· < ·)] (lo hi o d : α) : α :=
  if (lo - o) * (1 / d) > (hi - o) * (1 / d) then (hi - o) * (1 / d) else (lo - o) * (1 / d)

/-- Exit parameter of one slab: the value the swap of the general test leaves
in `tFar`, inflated by the factor `k = 1 + 2 * gamma(3)`. -/
def slabExit {α : Type} [One α] [Sub α] [Mul α] [Div α] [LT α]
    [DecidableRel (α := α) (· < ·)] (lo hi o d k : α) : α :=
  (if (lo - o) * (1 / d) > (hi - o) * (1 / d) then (lo - o) * (1 / d)
    else (hi - o) * (1 / d)) * k

/-- The value `x` is a number (not a NaN) at the position `v` of the extended
line. -/
def IEEE.At {fmt : FloatFormat} (x : IEEE fmt) (v : WithBot (WithTop ℚ)) : Prop :=
  x.isNaN = false ∧ x.key = v

/-! ## Lemmas on the scalar helpers -/

theorem stdMin_eq_min {α : Type} [LinearOrder α] (a b : α) : stdMin a b = min a b := by
  unfold stdMin
  split_ifs with h
  · exact (min_eq_right h.le).symm
  · exact (min_eq_left (not_lt.mp h)).symm

theorem stdMax_eq_max {α : Type} [LinearOrder α] (a b : α) : stdMax a b = max a b := by
  unfold stdMax
  split_ifs with h
  · exact (max_eq_right h.le).symm
  · exact (max_eq_left (not_lt.mp h)).symm

theorem Bounds3_Inside_iff {α : Type} [LinearOrder α] (p : Point3 α) (b : Bounds3 α) :
    Bounds3.Inside p b = true ↔
      (b.pMin.x ≤ p.x ∧ p.x ≤ b.pMax.x) ∧ (b.pMin.y ≤ p.y ∧ p.y ≤ b.pMax.y) ∧
        (b.pMin.z ≤ p.z ∧ p.z ≤ b.pMax.z) := by
  simp [Bounds3.Inside, and_assoc]

theorem Bounds2_Inside_iff {α : Type} [LinearOrder α] (p : Point2 α) (b : Bounds2 α) :
    Bounds2.Inside p b = true ↔
      (b.pMin.x ≤ p.x ∧ p.x ≤ b.pMax.x) ∧ (b.pMin.y ≤ p.y ∧ p.y ≤ b.pMax.y) := by
  simp [Bounds2.Inside, and_assoc]

/-! ## Union with an interior point -/

/-- C4: for every valid bounds `b` and every point `p` with `Inside(p, b)`,
`Union(b, p) == b`, for `Bounds3` and for `Bounds2`. -/
theorem C4_union_inside_point {α : Type} [LinearOrder α] :
    (∀ (b : Bounds3 α) (p : Point3 α), b.Valid → Bounds3.Inside p b = true →
        Bounds3.UnionPoint b p = b) ∧
    (∀ (b : Bounds2 α) (p : Point2 α), b.Valid → Bounds2.Inside p b = true →
        Bounds2.UnionPoint b p = b) := by
  constructor
  · rintro ⟨⟨a1, a2, a3⟩, ⟨c1, c2, c3⟩⟩ ⟨p1, p2, p3⟩ _ hin
    rw [Bounds3_Inside_iff] at hin
    obtain ⟨⟨h1, h2⟩, ⟨h3, h4⟩, h5, h6⟩ := hin
    simp only [Bounds3.UnionPoint, Point3.Min, Point3.Max, stdMin_eq_min, stdMax_eq_max]
    simp_all
  · rintro ⟨⟨a1, a2⟩, ⟨c1, c2⟩⟩ ⟨p1, p2⟩ _ hin
    rw [Bounds2_Inside_iff] at hin
    obtain ⟨⟨h1, h2⟩, h3, h4⟩ := hin
    simp only [Bounds2.UnionPoint, Point2.Min, Point2.Max, stdMin_eq_min, stdMax_eq_max]
    simp_all

/-- Witness for C4 at `b = [(0,0,0), (2,2,2)]`, `p = (1,2,0)` and at
`b = [(0,0), (2,2)]`, `p = (1,2)`, over `Int`. -/
theorem C4_union_inside_point_witness :
    Bounds3.UnionPoint (⟨⟨0, 0, 0⟩, ⟨2, 2, 2⟩⟩ : Bounds3 Int) ⟨1, 2, 0⟩
        = ⟨⟨0, 0, 0⟩, ⟨2, 2, 2⟩⟩ ∧
    Bounds2.UnionPoint (⟨⟨0, 0⟩, ⟨2, 2⟩⟩ : Bounds2 Int) ⟨1, 2⟩ = ⟨⟨0, 0⟩, ⟨2, 2⟩⟩ :=
  ⟨C4_union_inside_point.1 ⟨⟨0, 0, 0⟩, ⟨2, 2, 2⟩⟩ ⟨1, 2, 0⟩ (by decide) (by decide),
   C4_union_inside_point.2 ⟨⟨0, 0⟩, ⟨2, 2⟩⟩ ⟨1, 2⟩ (by decide) (by decide)⟩

/-! ## The two ray / box tests -/

theorem slab_axis_sorted {α : Type} [LinearOrderedField α] (lo hi o d : α) :
    (if (lo - o) * (1 / d) > (hi - o) * (1 / d) then (hi - o) * (1 / d) else (lo - o) * (1 / d))
      = min ((lo - o) * (1 / d)) ((hi - o) * (1 / d)) ∧
    (if (lo - o) * (1 / d) > (hi - o) * (1 / d) then (lo - o) * (1 / d) else (hi - o) * (1 / d))
      = max ((lo - o) * (1 / d)) ((hi - o) * (1 / d)) := by
  constructor
  · split_ifs with h
    · exact (min_eq_right h.le).symm
    · exact (min_eq_left (not_lt.mp h)).symm
  · split_ifs with h
    · exact (max_eq_left h.le).symm
    · exact (max_eq_right (not_lt.mp h)).symm

theorem ite_gt_eq_max {α : Type} [LinearOrder α] (a b : α) :
    (if a > b then a else b) = max b a := by
  split_ifs with h
  · exact (max_eq_right h.le).symm
  · exact (max_eq_left (not_lt.mp h)).symm

theorem ite_lt_eq_min {α : Type} [LinearOrder α] (a b : α) :
    (if a < b then a else b) = min b a := by
  split_ifs with h
  · exact (min_eq_right h.le).symm
  · exact (min_eq_left (not_lt.mp h)).symm

theorem IntersectPSlab_eq {α : Type} [LinearOrderedField α] (gamma : Nat → α)
    (b : Bounds3 α) (ray : Ray α) (i : Int) (t : α × α) :
    Bounds3.IntersectPSlab gamma b ray i t =
      if max t.1 (slabNear b ray i) ≤ min t.2 (slabFar b ray i * (1 + 2 * gamma 3)) then
        some (max t.1 (slabNear b ray i), min t.2 (slabFar b ray i * (1 + 2 * gamma 3)))
      else none := by
  unfold Bounds3.IntersectPSlab slabNear slabFar
  simp only [(slab_axis_sorted _ _ _ _).1, (slab_axis_sorted _ _ _ _).2, ite_gt_eq_max,
    ite_lt_eq_min]
  split_ifs with h1 h2 h2
  · exact absurd h2 (not_le.mpr h1)
  · rfl
  · rfl
  · exact absurd (not_lt.mp h1) h2

theorem slab_chain {α : Type} [LinearOrder α] (z T n0 n1 n2 f0 f1 f2 : α) :
    (((if max z n0 ≤ min T f0 then some (max z n0, min T f0) else none).bind
        fun a => if max a.1 n1 ≤ min a.2 f1 then some (max a.1 n1, min a.2 f1) else none).bind
        fun a => if max a.1 n2 ≤ min a.2 f2 then some (max a.1 n2, min a.2 f2) else none) =
      if max (max (max z n0) n1) n2 ≤ min (min (min T f0) f1) f2 then
        some (max (max (max z n0) n1) n2, min (min (min T f0) f1) f2)
      else none := by
  by_cases h1 : max z n0 ≤ min T f0
  · by_cases h2 : max (max z n0) n1 ≤ min (min T f0) f1
    · simp only [h1, h2, if_true, Option.some_bind]
    · have h3 : ¬ max (max (max z n0) n1) n2 ≤ min (min (min T f0) f1) f2 := fun h =>
        h2 (le_trans (le_max_left _ _) (le_trans h (min_le_left _ _)))
      simp only [h1, h2, h3, if_true, if_false, Option.some_bind, Option.none_bind]
  · have h3 : ¬ max (max (max z n0) n1) n2 ≤ min (min (min T f0) f1) f2 := fun h =>
      h1 (le_trans (le_trans (le_max_left _ _) (le_max_left _ _))
        (le_trans h (le_trans (min_le_left _ _) (min_le_left _ _))))
    simp only [h1, h3, if_false, Option.none_bind]

theorem IntersectP_eq {α : Type} [LinearOrderedField α] (gamma : Nat → α)
    (b : Bounds3 α) (ray : Ray α) :
    Bounds3.IntersectP gamma b ray =
      if max (max (max 0 (slabNear b ray 0)) (slabNear b ray 1)) (slabNear b ray 2) ≤
          min (min (min ray.tMax (slabFar b ray 0 * (1 + 2 * gamma 3)))
            (slabFar b ray 1 * (1 + 2 * gamma 3))) (slabFar b ray 2 * (1 + 2 * gamma 3)) then
        some (max (max (max 0 (slabNear b ray 0)) (slabNear b ray 1)) (slabNear b ray 2),
          min (min (min ray.tMax (slabFar b ray 0 * (1 + 2 * gamma 3)))
            (slabFar b ray 1 * (1 + 2 * gamma 3))) (slabFar b ray 2 * (1 + 2 * gamma 3)))
      else none := by
  unfold Bounds3.IntersectP
  simp only [IntersectPSlab_eq]
  exact slab_chain _ _ _ _ _ _ _ _

/-- The optimized test picks, by the sign flag, the same entry and exit values
as the swap of the general test, on a valid axis with a non-zero direction. -/
theorem flag_select {α : Type} [LinearOrderedField α] (lo hi o d : α) (hv : lo ≤ hi)
    (hd : d ≠ 0) :
    ((if (if 1 / d < 0 then (1 : Int) else 0) = 0 then lo else hi) - o) * (1 / d)
        = min ((lo - o) * (1 / d)) ((hi - o) * (1 / d)) ∧
    ((if 1 - (if 1 / d < 0 then (1 : Int) else 0) = 0 then lo else hi) - o) * (1 / d)
        = max ((lo - o) * (1 / d)) ((hi - o) * (1 / d)) := by
  rcases lt_or_gt_of_ne hd with h | h
  · have hi0 : 1 / d < 0 := one_div_neg.mpr h
    have hle : (hi - o) * (1 / d) ≤ (lo - o) * (1 / d) :=
      mul_le_mul_of_nonpos_right (sub_le_sub_right hv o) hi0.le
    rw [if_pos hi0, if_neg (by decide), if_pos (by decide)]
    exact ⟨(min_eq_right hle).symm, (max_eq_left hle).symm⟩
  · have hi0 : 0 < 1 / d := one_div_pos.mpr h
    have hle : (lo - o) * (1 / d) ≤ (hi - o) * (1 / d) :=
      mul_le_mul_of_nonneg_right (sub_le_sub_right hv o) hi0.le
    rw [if_neg (not_lt.mpr hi0.le), if_pos (by decide), if_neg (by decide)]
    exact ⟨(min_eq_left hle).symm, (max_eq_right hle).symm⟩

theorem dirIsNeg_0 {α : Type} [LinearOrderedField α] (r : Ray α) :
    r.dirIsNeg 0 = if 1 / r.d.x < 0 then 1 else 0 := rfl

theorem dirIsNeg_1 {α : Type} [LinearOrderedField α] (r : Ray α) :
    r.dirIsNeg 1 = if 1 / r.d.y < 0 then 1 else 0 := rfl

theorem dirIsNeg_2 {α : Type} [LinearOrderedField α] (r : Ray α) :
    r.dirIsNeg 2 = if 1 / r.d.z < 0 then 1 else 0 := rfl

theorem select_x {α : Type} [LinearOrderedField α] (b : Bounds3 α) (r : Ray α)
    (hv : b.pMin.x ≤ b.pMax.x) (hd : r.d.x ≠ 0) :
    ((b.get (r.dirIsNeg 0)).x - r.o.x) * r.invDir.x = slabNear b r 0 ∧
    ((b.get (1 - r.dirIsNeg 0)).x - r.o.x) * r.invDir.x = slabFar b r 0 := by
  have e := flag_select b.pMin.x b.pMax.x r.o.x r.d.x hv hd
  simp only [dirIsNeg_0, Bounds3.get, apply_ite Point3.x, Ray.invDir, slabNear, slabFar,
    Point3.get, Vector3.get, if_true]
  exact e

theorem select_y {α : Type} [LinearOrderedField α] (b : Bounds3 α) (r : Ray α)
    (hv : b.pMin.y ≤ b.pMax.y) (hd : r.d.y ≠ 0) :
    ((b.get (r.dirIsNeg 1)).y - r.o.y) * r.invDir.y = slabNear b r 1 ∧
    ((b.get (1 - r.dirIsNeg 1)).y - r.o.y) * r.invDir.y = slabFar b r 1 := by
  have e := flag_select b.pMin.y b.pMax.y r.o.y r.d.y hv hd
  simp only [dirIsNeg_1, Bounds3.get, apply_ite Point3.y, Ray.invDir, slabNear, slabFar,
    Point3.get, Vector3.get, if_true, one_ne_zero, if_false]
  exact e

theorem select_z {α : Type} [LinearOrderedField α] (b : Bounds3 α) (r : Ray α)
    (hv : b.pMin.z ≤ b.pMax.z) (hd : r.d.z ≠ 0) :
    ((b.get (r.dirIsNeg 2)).z - r.o.z) * r.invDir.z = slabNear b r 2 ∧
    ((b.get (1 - r.dirIsNeg 2)).z - r.o.z) * r.invDir.z = slabFar b r 2 := by
  have e := flag_select b.pMin.z b.pMax.z r.o.z r.d.z hv hd
  have h20 : ¬ ((2 : Int) = 0) := by decide
  have h21 : ¬ ((2 : Int) = 1) := by decide
  simp only [dirIsNeg_2, Bounds3.get, apply_ite Point3.z, Ray.invDir, slabNear, slabFar,
    Point3.get, Vector3.get, h20, h21, if_false]
  exact e

/-- The decision of the unrolled, optimized slab reduction on abstract entry
values `n0 n1 n2` and (inflated) exit values `f0 f1 f2`. -/
theorem inv_chain {α : Type} [LinearOrder α] (z T n0 n1 n2 f0 f1 f2 : α) :
    (if n0 > f1 ∨ n1 > f0 then false
      else if (if n1 > n0 then n1 else n0) > f2 ∨ n2 > (if f1 < f0 then f1 else f0) then false
      else decide ((if n2 > (if n1 > n0 then n1 else n0) then n2
              else (if n1 > n0 then n1 else n0)) < T) &&
            decide ((if f2 < (if f1 < f0 then f1 else f0) then f2
              else (if f1 < f0 then f1 else f0)) > z)) = true ↔
      (n0 ≤ f1 ∧ n1 ≤ f0) ∧ (max n0 n1 ≤ f2 ∧ n2 ≤ min f0 f1) ∧
        max (max n0 n1) n2 < T ∧ z < min (min f0 f1) f2 := by
  simp only [ite_gt_eq_max, ite_lt_eq_min]
  by_cases h1 : n0 > f1 ∨ n1 > f0
  · have : ¬ (n0 ≤ f1 ∧ n1 ≤ f0) := by
      rintro ⟨a, c⟩
      rcases h1 with h | h
      · exact absurd a (not_le.mpr h)
      · exact absurd c (not_le.mpr h)
    simp [h1, this]
  · have h1b : n0 ≤ f1 ∧ n1 ≤ f0 := by
      constructor
      · exact not_lt.mp (fun h => h1 (Or.inl h))
      · exact not_lt.mp (fun h => h1 (Or.inr h))
    by_cases h2 : max n0 n1 > f2 ∨ n2 > min f0 f1
    · have : ¬ (max n0 n1 ≤ f2 ∧ n2 ≤ min f0 f1) := by
        rintro ⟨a, c⟩
        rcases h2 with h | h
        · exact absurd a (not_le.mpr h)
        · exact absurd c (not_le.mpr h)
      simp only [h1, h2, if_true, if_false, this, false_and, and_false]
      simp
    · have h2b : max n0 n1 ≤ f2 ∧ n2 ≤ min f0 f1 := by
        constructor
        · exact not_lt.mp (fun h => h2 (Or.inl h))
        · exact not_lt.mp (fun h => h2 (Or.inr h))
      simp only [h1, h2, if_false, h1b, h2b, true_and, Bool.and_eq_true, decide_eq_true_eq,
        and_self, gt_iff_lt]

theorem IntersectPInv_eq {α : Type} [LinearOrderedField α] (gamma : Nat → α)
    (b : Bounds3 α) (r : Ray α) (hb : b.Valid)
    (hd : r.d.x ≠ 0 ∧ r.d.y ≠ 0 ∧ r.d.z ≠ 0) :
    Bounds3.IntersectPInv gamma b r r.invDir r.dirIsNeg = true ↔
      (slabNear b r 0 ≤ slabFar b r 1 * (1 + 2 * gamma 3) ∧
        slabNear b r 1 ≤ slabFar b r 0 * (1 + 2 * gamma 3)) ∧
      (max (slabNear b r 0) (slabNear b r 1) ≤ slabFar b r 2 * (1 + 2 * gamma 3) ∧
        slabNear b r 2 ≤ min (slabFar b r 0 * (1 + 2 * gamma 3))
          (slabFar b r 1 * (1 + 2 * gamma 3))) ∧
      max (max (slabNear b r 0) (slabNear b r 1)) (slabNear b r 2) < r.tMax ∧
      0 < min (min (slabFar b r 0 * (1 + 2 * gamma 3)) (slabFar b r 1 * (1 + 2 * gamma 3)))
          (slabFar b r 2 * (1 + 2 * gamma 3)) := by
  obtain ⟨hx, hy, hz⟩ := hb
  obtain ⟨dx, dy, dz⟩ := hd
  have ex := select_x b r hx dx
  have ey := select_y b r hy dy
  have ez := select_z b r hz dz
  unfold Bounds3.IntersectPInv
  simp only [ex.1, ex.2, ey.1, ey.2, ez.1, ez.2]
  exact inv_chain _ _ _ _ _ _ _ _

theorem inflate_le {α : Type} [LinearOrderedField α] (n F g : α) (hg : 0 ≤ g)
    (hF : 0 ≤ F) (hn : n ≤ F) : n ≤ F * (1 + 2 * g) := by
  have : 0 ≤ F * (2 * g) := mul_nonneg hF (by linarith)
  linarith [mul_add F 1 (2 * g)]

theorem inflate_pos {α : Type} [LinearOrderedField α] (F g : α) (hg : 0 ≤ g)
    (hF : 0 < F * (1 + 2 * g)) : 0 < F := by
  have h1 : (0 : α) < 1 + 2 * g := by linarith
  exact (pos_iff_pos_of_mul_pos hF).mpr h1

theorem slabNear_le_slabFar {α : Type} [LinearOrderedField α] (b : Bounds3 α) (r : Ray α)
    (i : Int) : slabNear b r i ≤ slabFar b r i := min_le_max

theorem axis_hit {α : Type} [LinearOrderedField α] (lo hi o d t : α) (hd : d ≠ 0)
    (h1 : lo ≤ o + t * d) (h2 : o + t * d ≤ hi) :
    min ((lo - o) * (1 / d)) ((hi - o) * (1 / d)) ≤ t ∧
      t ≤ max ((lo - o) * (1 / d)) ((hi - o) * (1 / d)) := by
  have key : t = (t * d) * (1 / d) := by field_simp
  rcases lt_or_gt_of_ne hd with h | h
  · have hi0 : 1 / d ≤ 0 := (one_div_neg.mpr h).le
    constructor
    · refine le_trans (min_le_right _ _) ?_
      rw [key]
      exact mul_le_mul_of_nonpos_right (by linarith) hi0
    · refine le_trans ?_ (le_max_left _ _)
      rw [key]
      exact mul_le_mul_of_nonpos_right (by linarith) hi0
  · have hi0 : 0 ≤ 1 / d := (one_div_pos.mpr h).le
    constructor
    · refine le_trans (min_le_left _ _) ?_
      rw [key]
      exact mul_le_mul_of_nonneg_right (by linarith) hi0
    · refine le_trans ?_ (le_max_right _ _)
      rw [key]
      exact mul_le_mul_of_nonneg_right (by linarith) hi0

/-- The two tests in exact arithmetic (a linearly ordered field): for a valid
box, a ray with non-zero direction components and `tMax > 0`, and
`gamma(3) ≥ 0`, the optimized `IntersectP` (called with `invDir = 1 / d` and
`dirIsNeg[i] = (invDir[i] < 0)`) returns true exactly when the general form
returns true with hit parameters `hitt0 < r.tMax` and `hitt1 > 0`. -/
theorem IntersectP_forms_agree_exact {α : Type} [LinearOrderedField α]
    (gamma : Nat → α) (b : Bounds3 α) (r : Ray α) (hb : b.Valid)
    (hd : r.d.x ≠ 0 ∧ r.d.y ≠ 0 ∧ r.d.z ≠ 0) (hg : 0 ≤ gamma 3) (ht : 0 < r.tMax) :
    Bounds3.IntersectPInv gamma b r r.invDir r.dirIsNeg = true ↔
      ∃ t0 t1, Bounds3.IntersectP gamma b r = some (t0, t1) ∧ t0 < r.tMax ∧ 0 < t1 := by
  rw [IntersectPInv_eq gamma b r hb hd, IntersectP_eq]
  have s0 := slabNear_le_slabFar b r 0
  have s1 := slabNear_le_slabFar b r 1
  have s2 := slabNear_le_slabFar b r 2
  generalize slabNear b r 0 = n0 at *
  generalize slabNear b r 1 = n1 at *
  generalize slabNear b r 2 = n2 at *
  have i0 := fun h => inflate_le n0 (slabFar b r 0) (gamma 3) hg h s0
  have i1 := fun h => inflate_le n1 (slabFar b r 1) (gamma 3) hg h s1
  have i2 := fun h => inflate_le n2 (slabFar b r 2) (gamma 3) hg h s2
  have p0 := inflate_pos (slabFar b r 0) (gamma 3) hg
  have p1 := inflate_pos (slabFar b r 1) (gamma 3) hg
  have p2 := inflate_pos (slabFar b r 2) (gamma 3) hg
  generalize slabFar b r 0 * (1 + 2 * gamma 3) = f0 at *
  generalize slabFar b r 1 * (1 + 2 * gamma 3) = f1 at *
  generalize slabFar b r 2 * (1 + 2 * gamma 3) = f2 at *
  have L : ∀ a, a ≤ r.tMax → a ≤ f0 → a ≤ f1 → a ≤ f2 →
      a ≤ min (min (min r.tMax f0) f1) f2 :=
    fun a h1 h2 h3 h4 => le_min (le_min (le_min h1 h2) h3) h4
  constructor
  · rintro ⟨⟨a1, a2⟩, ⟨a3, a4⟩, a5, a6⟩
    simp only [max_le_iff, le_min_iff, max_lt_iff, lt_min_iff] at a3 a4 a5 a6
    obtain ⟨⟨q0, q1⟩, q2⟩ := a6
    have c : max (max (max 0 n0) n1) n2 ≤ min (min (min r.tMax f0) f1) f2 :=
      max_le (max_le (max_le (L 0 ht.le q0.le q1.le q2.le)
        (L n0 a5.1.1.le (i0 (p0 q0).le) a1 a3.1))
        (L n1 a5.1.2.le a2 (i1 (p1 q1).le) a3.2))
        (L n2 a5.2.le a4.1 a4.2 (i2 (p2 q2).le))
    rw [if_pos c]
    refine ⟨_, _, rfl, ?_, ?_⟩
    · simp only [max_lt_iff]
      exact ⟨⟨⟨ht, a5.1.1⟩, a5.1.2⟩, a5.2⟩
    · simp only [lt_min_iff]
      exact ⟨⟨⟨ht, q0⟩, q1⟩, q2⟩
  · rintro ⟨t0, t1, he, h0, h1⟩
    by_cases c : max (max (max 0 n0) n1) n2 ≤ min (min (min r.tMax f0) f1) f2
    · rw [if_pos c] at he
      simp only [Option.some.injEq, Prod.mk.injEq] at he
      obtain ⟨e0, e1⟩ := he
      subst e0 e1
      simp only [max_le_iff, le_min_iff, max_lt_iff, lt_min_iff] at c h0 h1 ⊢
      obtain ⟨⟨⟨_, ⟨⟨_, _⟩, c01⟩, c02⟩, ⟨⟨_, c10⟩, _⟩, c12⟩, ⟨⟨_, c20⟩, c21⟩, _⟩ := c
      exact ⟨⟨c10, c01⟩, ⟨⟨c20, c21⟩, c02, c12⟩, ⟨⟨h0.1.1.2, h0.1.2⟩, h0.2⟩,
        ⟨h1.1.1.2, h1.1.2⟩, h1.2⟩
    · rw [if_neg c] at he
      exact absurd he (by simp)

/-- C1 (counterexample): the box `[(-1,-1,-1), (0,1,1)]` and the ray from the
origin along `(1,1,1)` with `tMax = 10` meet exactly at parameter 0 (the ray
leaves the box through the face `x = 0` at its origin).  The general form
returns true (`hitt0 = hitt1 = 0`); the optimized form, whose final test is
`tMax > 0`, returns false. -/
theorem C1_IntersectP_forms_disagree_at_zero :
    (Bounds3.IntersectP gammaSingle (⟨⟨-1, -1, -1⟩, ⟨0, 1, 1⟩⟩ : Bounds3 ℚ)
        ⟨⟨0, 0, 0⟩, ⟨1, 1, 1⟩, 10, 0, none⟩ = some (0, 0)) ∧
    Bounds3.IntersectPInv gammaSingle (⟨⟨-1, -1, -1⟩, ⟨0, 1, 1⟩⟩ : Bounds3 ℚ)
        ⟨⟨0, 0, 0⟩, ⟨1, 1, 1⟩, 10, 0, none⟩
        (Ray.invDir (⟨⟨0, 0, 0⟩, ⟨1, 1, 1⟩, 10, 0, none⟩ : Ray ℚ))
        (Ray.dirIsNeg (⟨⟨0, 0, 0⟩, ⟨1, 1, 1⟩, 10, 0, none⟩ : Ray ℚ)) = false := by
  constructor
  · norm_num [Bounds3.IntersectP, Bounds3.IntersectPSlab, gammaSingle, Vector3.get,
      Point3.get]
  · norm_num [Bounds3.IntersectPInv, gammaSingle, Ray.invDir, Ray.dirIsNeg,
      Vector3.get, Bounds3.get]

/-- The optimized test has no swap: on the box `[(1,-1,-1), (-1,1,1)]`, whose
corners are reversed on `x`, the general form (which swaps) reports a hit for
the ray from the origin along `(1,1,1)`, the optimized form a miss. -/
theorem IntersectP_forms_on_reversed_box :
    (Bounds3.IntersectP gammaSingle (⟨⟨1, -1, -1⟩, ⟨-1, 1, 1⟩⟩ : Bounds3 ℚ)
        ⟨⟨0, 0, 0⟩, ⟨1, 1, 1⟩, 10, 0, none⟩).isSome = true ∧
    Bounds3.IntersectPInv gammaSingle (⟨⟨1, -1, -1⟩, ⟨-1, 1, 1⟩⟩ : Bounds3 ℚ)
        ⟨⟨0, 0, 0⟩, ⟨1, 1, 1⟩, 10, 0, none⟩
        (Ray.invDir (⟨⟨0, 0, 0⟩, ⟨1, 1, 1⟩, 10, 0, none⟩ : Ray ℚ))
        (Ray.dirIsNeg (⟨⟨0, 0, 0⟩, ⟨1, 1, 1⟩, 10, 0, none⟩ : Ray ℚ)) = false := by
  constructor
  · norm_num [Bounds3.IntersectP, Bounds3.IntersectPSlab, gammaSingle, Vector3.get,
      Point3.get]
  · norm_num [Bounds3.IntersectPInv, gammaSingle, Ray.invDir, Ray.dirIsNeg,
      Vector3.get, Bounds3.get]

/-- With a negative `tMax` the general form starts from the empty interval
`[0, tMax]` and reports a miss, while the optimized form, which never compares
`0` with `ray.tMax`, reports a hit for an origin inside the box. -/
theorem IntersectP_forms_on_negative_tMax :
    Bounds3.IntersectP gammaSingle (⟨⟨-1, -1, -1⟩, ⟨1, 1, 1⟩⟩ : Bounds3 ℚ)
        ⟨⟨0, 0, 0⟩, ⟨1, 1, 1⟩, -1 / 2, 0, none⟩ = none ∧
    Bounds3.IntersectPInv gammaSingle (⟨⟨-1, -1, -1⟩, ⟨1, 1, 1⟩⟩ : Bounds3 ℚ)
        ⟨⟨0, 0, 0⟩, ⟨1, 1, 1⟩, -1 / 2, 0, none⟩
        (Ray.invDir (⟨⟨0, 0, 0⟩, ⟨1, 1, 1⟩, -1 / 2, 0, none⟩ : Ray ℚ))
        (Ray.dirIsNeg (⟨⟨0, 0, 0⟩, ⟨1, 1, 1⟩, -1 / 2, 0, none⟩ : Ray ℚ)) = true := by
  constructor
  · norm_num [Bounds3.IntersectP, Bounds3.IntersectPSlab, gammaSingle, Vector3.get,
      Point3.get]
  · norm_num [Bounds3.IntersectPInv, gammaSingle, Ray.invDir, Ray.dirIsNeg,
      Vector3.get, Bounds3.get]

/-- The same boundary effect at the far end: the box `[(1,-1,-1), (2,1,1)]` is
entered exactly at `t = tMax = 1` by the ray from `(0,-1/2,-1/2)` along
`(1, 1/2, 1/2)`; the general form reports the hit `(1, 1)`, the optimized form,
whose final test is `tMin < ray.tMax`, a miss. -/
theorem IntersectP_forms_at_tMax :
    Bounds3.IntersectP gammaSingle (⟨⟨1, -1, -1⟩, ⟨2, 1, 1⟩⟩ : Bounds3 ℚ)
        ⟨⟨0, -1 / 2, -1 / 2⟩, ⟨1, 1 / 2, 1 / 2⟩, 1, 0, none⟩ = some (1, 1) ∧
    Bounds3.IntersectPInv gammaSingle (⟨⟨1, -1, -1⟩, ⟨2, 1, 1⟩⟩ : Bounds3 ℚ)
        ⟨⟨0, -1 / 2, -1 / 2⟩, ⟨1, 1 / 2, 1 / 2⟩, 1, 0, none⟩
        (Ray.invDir (⟨⟨0, -1 / 2, -1 / 2⟩, ⟨1, 1 / 2, 1 / 2⟩, 1, 0, none⟩ : Ray ℚ))
        (Ray.dirIsNeg (⟨⟨0, -1 / 2, -1 / 2⟩, ⟨1, 1 / 2, 1 / 2⟩, 1, 0, none⟩ : Ray ℚ))
      = false := by
  constructor
  · norm_num [Bounds3.IntersectP, Bounds3.IntersectPSlab, gammaSingle, Vector3.get,
      Point3.get]
  · norm_num [Bounds3.IntersectPInv, gammaSingle, Ray.invDir, Ray.dirIsNeg,
      Vector3.get, Bounds3.get]

/-- C2: the general-form `IntersectP` has no false negative.  For every box
`b` and every ray `r` with non-zero direction components, if some parameter
`t` with `0 ≤ t ≤ r.tMax` has `r(t)` inside `b`, the test returns true (with
hit parameters `t0 ≤ t ≤ t1`), in exact arithmetic with `gamma(3) ≥ 0`. -/
theorem C2_IntersectP_no_false_negative {α : Type} [LinearOrderedField α]
    (gamma : Nat → α) (b : Bounds3 α) (r : Ray α)
    (hd : r.d.x ≠ 0 ∧ r.d.y ≠ 0 ∧ r.d.z ≠ 0) (hg : 0 ≤ gamma 3) (t : α)
    (ht0 : 0 ≤ t) (ht1 : t ≤ r.tMax) (hin : Bounds3.Inside (r.apply t) b = true) :
    ∃ t0 t1, Bounds3.IntersectP gamma b r = some (t0, t1) ∧ t0 ≤ t ∧ t ≤ t1 := by
  rw [Bounds3_Inside_iff] at hin
  obtain ⟨⟨x1, x2⟩, ⟨y1, y2⟩, z1, z2⟩ := hin
  obtain ⟨dx, dy, dz⟩ := hd
  have ax : slabNear b r 0 ≤ t ∧ t ≤ slabFar b r 0 :=
    axis_hit b.pMin.x b.pMax.x r.o.x r.d.x t dx x1 x2
  have ay : slabNear b r 1 ≤ t ∧ t ≤ slabFar b r 1 :=
    axis_hit b.pMin.y b.pMax.y r.o.y r.d.y t dy y1 y2
  have az : slabNear b r 2 ≤ t ∧ t ≤ slabFar b r 2 :=
    axis_hit b.pMin.z b.pMax.z r.o.z r.d.z t dz z1 z2
  have fx := inflate_le t _ _ hg (le_trans ht0 ax.2) ax.2
  have fy := inflate_le t _ _ hg (le_trans ht0 ay.2) ay.2
  have fz := inflate_le t _ _ hg (le_trans ht0 az.2) az.2
  have lo : max (max (max 0 (slabNear b r 0)) (slabNear b r 1)) (slabNear b r 2) ≤ t :=
    max_le (max_le (max_le ht0 ax.1) ay.1) az.1
  have hi : t ≤ min (min (min r.tMax (slabFar b r 0 * (1 + 2 * gamma 3)))
      (slabFar b r 1 * (1 + 2 * gamma 3))) (slabFar b r 2 * (1 + 2 * gamma 3)) :=
    le_min (le_min (le_min ht1 fx) fy) fz
  rw [IntersectP_eq, if_pos (le_trans lo hi)]
  exact ⟨_, _, rfl, lo, hi⟩

/-- Witness for C2: the ray from the origin along `(1, 2, 4)` with `tMax = 1`
reaches, at `t = 1/2`, a point of the box `[(0,0,0), (1,1,2)]`. -/
theorem C2_IntersectP_no_false_negative_witness :
    ∃ t0 t1, Bounds3.IntersectP gammaSingle (⟨⟨0, 0, 0⟩, ⟨1, 1, 2⟩⟩ : Bounds3 ℚ)
        ⟨⟨0, 0, 0⟩, ⟨1, 2, 4⟩, 1, 0, none⟩ = some (t0, t1) ∧ t0 ≤ 1 / 2 ∧ 1 / 2 ≤ t1 :=
  C2_IntersectP_no_false_negative gammaSingle ⟨⟨0, 0, 0⟩, ⟨1, 1, 2⟩⟩
    ⟨⟨0, 0, 0⟩, ⟨1, 2, 4⟩, 1, 0, none⟩ (by norm_num) (by norm_num [gammaSingle]) (1 / 2)
    (by norm_num) (by norm_num)
    (by norm_num [Bounds3.Inside, Ray.apply, Point3.add, Vector3.mul])

/-! ## Lattice iteration -/

theorem end_nondegenerate (b : Bounds2 Int) (hx : b.pMin.x < b.pMax.x)
    (hy : b.pMin.y < b.pMax.y) : end_ b = ⟨⟨b.pMin.x, b.pMax.y⟩, b⟩ := by
  unfold end_
  have h : ¬ (b.pMin.x ≥ b.pMax.x ∨ b.pMin.y ≥ b.pMax.y) := by omega
  simp only [h, if_false]

theorem iterate_end (b : Bounds2 Int) (fuel : Nat) :
    iterate b (fuel + 1) (end_ b) = some [] := by
  simp [iterate, Bounds2iIterator.ne]

theorem iterate_step (b : Bounds2 Int) (fuel : Nat) (it : Bounds2iIterator)
    (h : it.ne (end_ b) = true) :
    iterate b (fuel + 1) it = (iterate b fuel it.advance).map (fun ps => it.p :: ps) := by
  simp [iterate, h]

theorem iterate_from (x0 y0 : Int) (w h : Nat) :
    ∀ (fuel i j : Nat), i < w → j < h → (w - i) + w * (h - 1 - j) < fuel →
      iterate ⟨⟨x0, y0⟩, ⟨x0 + w, y0 + h⟩⟩ fuel
          ⟨⟨x0 + i, y0 + j⟩, ⟨⟨x0, y0⟩, ⟨x0 + w, y0 + h⟩⟩⟩ =
        some ((List.range' i (w - i)).map (fun (a : Nat) => (⟨x0 + (a : Int), y0 + (j : Int)⟩ : Point2 Int))
          ++ (List.range' (j + 1) (h - (j + 1))).flatMap fun (c : Nat) =>
              (List.range' 0 w).map fun (a : Nat) => (⟨x0 + (a : Int), y0 + (c : Int)⟩ : Point2 Int)) := by
  intro fuel
  induction fuel with
  | zero => intro i j _ _ hf; omega
  | succ fuel ih =>
    intro i j hi hj hf
    have hend : end_ ⟨⟨x0, y0⟩, ⟨x0 + w, y0 + h⟩⟩ = ⟨⟨x0, y0 + h⟩, ⟨⟨x0, y0⟩, ⟨x0 + w, y0 + h⟩⟩⟩ :=
      end_nondegenerate _ (by simp only; omega) (by simp only; omega)
    have hne : Bounds2iIterator.ne ⟨⟨x0 + i, y0 + j⟩, ⟨⟨x0, y0⟩, ⟨x0 + w, y0 + h⟩⟩⟩
        (end_ ⟨⟨x0, y0⟩, ⟨x0 + w, y0 + h⟩⟩) = true := by
      rw [hend]
      simp only [Bounds2iIterator.ne, Bool.or_eq_true, decide_eq_true_eq]
      left; right; omega
    rw [iterate_step _ _ _ hne]
    have hrow : List.range' i (w - i) = i :: List.range' (i + 1) (w - (i + 1)) := by
      have : w - i = (w - (i + 1)) + 1 := by omega
      rw [this, List.range'_succ]
    by_cases hlast : i + 1 = w
    · -- end of the row
      have hadv : Bounds2iIterator.advance ⟨⟨x0 + i, y0 + j⟩, ⟨⟨x0, y0⟩, ⟨x0 + w, y0 + h⟩⟩⟩ =
          ⟨⟨x0, y0 + j + 1⟩, ⟨⟨x0, y0⟩, ⟨x0 + w, y0 + h⟩⟩⟩ := by
        have : x0 + (i : Int) + 1 = x0 + (w : Int) := by omega
        unfold Bounds2iIterator.advance
        simp only []
        rw [if_pos this]
      rw [hadv]
      have hrow1 : List.range' (i + 1) (w - (i + 1)) = [] := by
        have : w - (i + 1) = 0 := by omega
        rw [this]; rfl
      by_cases hj1 : j + 1 = h
      · have hfin : (⟨⟨x0, y0 + j + 1⟩, ⟨⟨x0, y0⟩, ⟨x0 + w, y0 + h⟩⟩⟩ : Bounds2iIterator) =
            end_ ⟨⟨x0, y0⟩, ⟨x0 + w, y0 + h⟩⟩ := by
          rw [hend]
          have : y0 + (j : Int) + 1 = y0 + (h : Int) := by omega
          rw [this]
        have hfuel : ∃ f, fuel = f + 1 := ⟨fuel - 1, by omega⟩
        obtain ⟨f, rfl⟩ := hfuel
        rw [hfin, iterate_end]
        have hrows : List.range' (j + 1) (h - (j + 1)) = [] := by
          have : h - (j + 1) = 0 := by omega
          rw [this]; rfl
        rw [hrow, hrow1, hrows]
        rfl
      · have hj2 : j + 1 < h := by omega
        have hm : w + w * (h - 1 - (j + 1)) < fuel := by
          have e : h - 1 - j = (h - 1 - (j + 1)) + 1 := by omega
          rw [e, Nat.mul_succ] at hf
          omega
        have hw : 0 < w := by omega
        have := ih 0 (j + 1) hw hj2 (by simpa using hm)
        simp only [Nat.cast_zero, add_zero, Nat.cast_add, Nat.cast_one, Nat.sub_zero] at this
        rw [← add_assoc] at this
        rw [this]
        have hrows : List.range' (j + 1) (h - (j + 1)) =
            (j + 1) :: List.range' (j + 1 + 1) (h - (j + 1 + 1)) := by
          have : h - (j + 1) = (h - (j + 1 + 1)) + 1 := by omega
          rw [this, List.range'_succ]
        rw [hrow, hrow1, hrows]
        simp [add_assoc]
    · have hi2 : i + 1 < w := by omega
      have hadv : Bounds2iIterator.advance ⟨⟨x0 + i, y0 + j⟩, ⟨⟨x0, y0⟩, ⟨x0 + w, y0 + h⟩⟩⟩ =
          ⟨⟨x0 + (i + 1 : Nat), y0 + j⟩, ⟨⟨x0, y0⟩, ⟨x0 + w, y0 + h⟩⟩⟩ := by
        have : ¬ (x0 + (i : Int) + 1 = x0 + (w : Int)) := by omega
        unfold Bounds2iIterator.advance
        simp only []
        rw [if_neg this]
        simp only [Nat.cast_add, Nat.cast_one, add_assoc]
      rw [hadv, ih (i + 1) j hi2 hj (by omega), hrow]
      simp

theorem length_flatMap_const {β γ : Type} (f : β → List γ) (w : Nat) (hf : ∀ j, (f j).length = w) :
    ∀ l : List β, (l.flatMap f).length = l.length * w := by
  intro l
  induction l with
  | nil => simp
  | cons a l ih =>
    rw [List.flatMap_cons, List.length_append, ih, hf, List.length_cons, Nat.succ_mul,
      Nat.add_comm]

theorem rowMajor_length (b : Bounds2 Int) :
    (rowMajor b).length = (b.pMax.x - b.pMin.x).toNat * (b.pMax.y - b.pMin.y).toNat := by
  unfold rowMajor
  rw [length_flatMap_const _ (b.pMax.x - b.pMin.x).toNat (fun j => by simp), List.length_range,
    Nat.mul_comm]

theorem mem_rowMajor (b : Bounds2 Int) (p : Point2 Int) :
    p ∈ rowMajor b ↔
      b.pMin.x ≤ p.x ∧ p.x < b.pMax.x ∧ b.pMin.y ≤ p.y ∧ p.y < b.pMax.y := by
  unfold rowMajor
  simp only [List.mem_flatMap, List.mem_map, List.mem_range]
  constructor
  · rintro ⟨j, hj, i, hi, rfl⟩
    simp only
    omega
  · rintro ⟨h1, h2, h3, h4⟩
    refine ⟨(p.y - b.pMin.y).toNat, by omega, (p.x - b.pMin.x).toNat, by omega, ?_⟩
    obtain ⟨px, py⟩ := p
    simp only [Point2.mk.injEq] at *
    omega

theorem rowMajor_nodup (b : Bounds2 Int) : (rowMajor b).Nodup := by
  unfold rowMajor
  rw [List.nodup_flatMap]
  constructor
  · intro j _
    refine List.Nodup.map ?_ (List.nodup_range _)
    intro i1 i2 h
    simp only [Point2.mk.injEq] at h
    omega
  · refine List.Nodup.pairwise_of_forall_ne (List.nodup_range _) ?_
    intro j1 _ j2 _ hne
    simp only [Function.onFun]
    rw [List.disjoint_left]
    intro p h1 h2
    simp only [List.mem_map, List.mem_range] at h1 h2
    obtain ⟨i1, _, rfl⟩ := h1
    obtain ⟨i2, _, e⟩ := h2
    simp only [Point2.mk.injEq] at e
    omega

theorem iterate_begin (b : Bounds2 Int) (hx : b.pMin.x < b.pMax.x) (hy : b.pMin.y < b.pMax.y)
    (fuel : Nat)
    (hf : (b.pMax.x - b.pMin.x).toNat * (b.pMax.y - b.pMin.y).toNat < fuel) :
    iterate b fuel (begin b) = some (rowMajor b) := by
  obtain ⟨⟨x0, y0⟩, ⟨x1, y1⟩⟩ := b
  simp only at hx hy hf
  obtain ⟨w, rfl⟩ : ∃ w : Nat, x1 = x0 + w := ⟨(x1 - x0).toNat, by omega⟩
  obtain ⟨h, rfl⟩ : ∃ h : Nat, y1 = y0 + h := ⟨(y1 - y0).toNat, by omega⟩
  have hw : 0 < w := by omega
  have hh : 0 < h := by omega
  have ew : (x0 + (w : Int) - x0).toNat = w := by omega
  have eh : (y0 + (h : Int) - y0).toNat = h := by omega
  rw [ew, eh] at hf
  have hm : (w - 0) + w * (h - 1 - 0) < fuel := by
    have : h = (h - 1) + 1 := by omega
    rw [this, Nat.mul_succ] at hf
    simp only [Nat.sub_zero]
    omega
  have key := iterate_from x0 y0 w h fuel 0 0 hw hh hm
  simp only [Nat.cast_zero, add_zero, Nat.sub_zero, zero_add] at key
  unfold begin
  simp only
  rw [key]
  unfold rowMajor
  simp only [ew, eh]
  have e1 : List.range h = 0 :: List.range' 1 (h - 1) := by
    rw [List.range_eq_range']
    have : h = (h - 1) + 1 := by omega
    conv_lhs => rw [this, List.range'_succ]
  rw [e1, List.flatMap_cons, List.range_eq_range']
  simp

/-- C5: iterating a `Bounds2i` with `pMin.x < pMax.x` and `pMin.y < pMax.y`
from `begin(b)` until the iterator equals `end(b)` terminates (any fuel above
the number of points suffices) and visits exactly the list `rowMajor b`: the
lattice points with `pMin.x ≤ x < pMax.x`, `pMin.y ≤ y < pMax.y`, each once,
in row-major order, `(pMax.x - pMin.x) * (pMax.y - pMin.y)` points in all. -/
theorem C5_iterate_row_major (b : Bounds2 Int) (hx : b.pMin.x < b.pMax.x)
    (hy : b.pMin.y < b.pMax.y) :
    (∀ fuel, (b.pMax.x - b.pMin.x).toNat * (b.pMax.y - b.pMin.y).toNat < fuel →
        iterate b fuel (begin b) = some (rowMajor b)) ∧
    ((rowMajor b).length : Int) = (b.pMax.x - b.pMin.x) * (b.pMax.y - b.pMin.y) ∧
    (rowMajor b).Nodup ∧
    (∀ p : Point2 Int, p ∈ rowMajor b ↔
        b.pMin.x ≤ p.x ∧ p.x < b.pMax.x ∧ b.pMin.y ≤ p.y ∧ p.y < b.pMax.y) := by
  refine ⟨fun fuel hf => iterate_begin b hx hy fuel hf, ?_, rowMajor_nodup b, mem_rowMajor b⟩
  rw [rowMajor_length, Nat.cast_mul, Int.toNat_of_nonneg (by omega),
    Int.toNat_of_nonneg (by omega)]

/-- Witness for C5: for `pMin = (0,0)`, `pMax = (2,3)` the loop visits
`(0,0), (1,0), (0,1), (1,1), (0,2), (1,2)`. -/
theorem C5_iterate_row_major_witness :
    iterate ⟨⟨0, 0⟩, ⟨2, 3⟩⟩ 7 (begin ⟨⟨0, 0⟩, ⟨2, 3⟩⟩) =
      some [⟨0, 0⟩, ⟨1, 0⟩, ⟨0, 1⟩, ⟨1, 1⟩, ⟨0, 2⟩, ⟨1, 2⟩] :=
  (C5_iterate_row_major ⟨⟨0, 0⟩, ⟨2, 3⟩⟩ (by decide) (by decide)).1 7 (by decide)

/-- C6: for a degenerate `Bounds2i` (`pMin.x ≥ pMax.x` or `pMin.y ≥ pMax.y`)
`end(b)` equals `begin(b)`, so the loop stops at its first comparison and
visits no point. -/
theorem C6_degenerate_iterates_nothing (b : Bounds2 Int)
    (hdeg : b.pMin.x ≥ b.pMax.x ∨ b.pMin.y ≥ b.pMax.y) :
    end_ b = begin b ∧ (begin b).ne (end_ b) = false ∧
      ∀ fuel, iterate b (fuel + 1) (begin b) = some [] := by
  have he : end_ b = begin b := by
    unfold end_ begin
    simp only [hdeg, if_true]
  refine ⟨he, ?_, fun fuel => ?_⟩
  · rw [he]
    simp [Bounds2iIterator.ne]
  · rw [← he]
    exact iterate_end b fuel

/-- Witness for C6 at `pMin = (0,0)`, `pMax = (0,3)`, where `pMin.x == pMax.x`. -/
theorem C6_degenerate_iterates_nothing_witness :
    end_ ⟨⟨0, 0⟩, ⟨0, 3⟩⟩ = begin ⟨⟨0, 0⟩, ⟨0, 3⟩⟩ ∧
      (begin ⟨⟨0, 0⟩, ⟨0, 3⟩⟩).ne (end_ ⟨⟨0, 0⟩, ⟨0, 3⟩⟩) = false ∧
      ∀ fuel, iterate ⟨⟨0, 0⟩, ⟨0, 3⟩⟩ (fuel + 1) (begin ⟨⟨0, 0⟩, ⟨0, 3⟩⟩) = some [] :=
  C6_degenerate_iterates_nothing ⟨⟨0, 0⟩, ⟨0, 3⟩⟩ (by decide)

/-! ## Overlap, interpolation, division and the algebraic identities -/

/-- C3 (amended): for all valid bounds `b1`, `b2`, `Overlaps(b1, b2)` is true
if and only if `Intersect(b1, b2)` is a valid box, for `Bounds3` and for
`Bounds2`.  More precisely, for all bounds, valid or not, `Intersect(b1, b2)`
is valid exactly when `Overlaps(b1, b2)` is true and both inputs are valid. -/
theorem C3_overlaps_iff_intersect_valid {α : Type} [LinearOrder α] :
    (∀ b1 b2 : Bounds3 α, b1.Valid → b2.Valid →
        (Bounds3.Overlaps b1 b2 = true ↔ (Bounds3.Intersect b1 b2).Valid)) ∧
    (∀ b1 b2 : Bounds2 α, b1.Valid → b2.Valid →
        (Bounds2.Overlaps b1 b2 = true ↔ (Bounds2.Intersect b1 b2).Valid)) ∧
    (∀ b1 b2 : Bounds3 α, (Bounds3.Intersect b1 b2).Valid ↔
        (Bounds3.Overlaps b1 b2 = true ∧ b1.Valid ∧ b2.Valid)) ∧
    (∀ b1 b2 : Bounds2 α, (Bounds2.Intersect b1 b2).Valid ↔
        (Bounds2.Overlaps b1 b2 = true ∧ b1.Valid ∧ b2.Valid)) := by
  have h3 : ∀ b1 b2 : Bounds3 α, (Bounds3.Intersect b1 b2).Valid ↔
      (Bounds3.Overlaps b1 b2 = true ∧ b1.Valid ∧ b2.Valid) := by
    intro b1 b2
    simp only [Bounds3.Overlaps, Bounds3.Intersect, Bounds3.Valid, Point3.Min, Point3.Max,
      stdMin_eq_min, stdMax_eq_max, max_le_iff, le_min_iff, Bool.and_eq_true,
      decide_eq_true_eq, ge_iff_le]
    tauto
  have h2 : ∀ b1 b2 : Bounds2 α, (Bounds2.Intersect b1 b2).Valid ↔
      (Bounds2.Overlaps b1 b2 = true ∧ b1.Valid ∧ b2.Valid) := by
    intro b1 b2
    simp only [Bounds2.Overlaps, Bounds2.Intersect, Bounds2.Valid, Point2.Min, Point2.Max,
      stdMin_eq_min, stdMax_eq_max, max_le_iff, le_min_iff, Bool.and_eq_true,
      decide_eq_true_eq, ge_iff_le]
    tauto
  refine ⟨fun b1 b2 v1 v2 => ?_, fun b1 b2 v1 v2 => ?_, h3, h2⟩
  · rw [h3]
    exact ⟨fun h => ⟨h, v1, v2⟩, fun h => h.1⟩
  · rw [h2]
    exact ⟨fun h => ⟨h, v1, v2⟩, fun h => h.1⟩

/-- Witness for C3 (amended): the boxes `[(0,0,0), (2,2,2)]` and
`[(1,1,1), (3,3,3)]`, and the rectangles `[(0,0), (2,2)]` and `[(3,0), (4,2)]`. -/
theorem C3_overlaps_iff_intersect_valid_witness :
    (Bounds3.Overlaps (⟨⟨0, 0, 0⟩, ⟨2, 2, 2⟩⟩ : Bounds3 Int) ⟨⟨1, 1, 1⟩, ⟨3, 3, 3⟩⟩ = true ↔
      (Bounds3.Intersect (⟨⟨0, 0, 0⟩, ⟨2, 2, 2⟩⟩ : Bounds3 Int)
        ⟨⟨1, 1, 1⟩, ⟨3, 3, 3⟩⟩).Valid) ∧
    (Bounds2.Overlaps (⟨⟨0, 0⟩, ⟨2, 2⟩⟩ : Bounds2 Int) ⟨⟨3, 0⟩, ⟨4, 2⟩⟩ = true ↔
      (Bounds2.Intersect (⟨⟨0, 0⟩, ⟨2, 2⟩⟩ : Bounds2 Int) ⟨⟨3, 0⟩, ⟨4, 2⟩⟩).Valid) :=
  ⟨C3_overlaps_iff_intersect_valid.1 ⟨⟨0, 0, 0⟩, ⟨2, 2, 2⟩⟩ ⟨⟨1, 1, 1⟩, ⟨3, 3, 3⟩⟩
      (by decide) (by decide),
   C3_overlaps_iff_intersect_valid.2.1 ⟨⟨0, 0⟩, ⟨2, 2⟩⟩ ⟨⟨3, 0⟩, ⟨4, 2⟩⟩
      (by decide) (by decide)⟩

/-- C3 (counterexample): with the invalid `b1 = [(5,0,0), (3,1,1)]` and
`b2 = [(0,0,0), (10,1,1)]`, `Overlaps(b1, b2)` is true while
`Intersect(b1, b2) = [(5,0,0), (3,1,1)]` is not a valid box. -/
theorem C3_overlaps_invalid_input :
    Bounds3.Overlaps (⟨⟨5, 0, 0⟩, ⟨3, 1, 1⟩⟩ : Bounds3 Int) ⟨⟨0, 0, 0⟩, ⟨10, 1, 1⟩⟩ = true ∧
    Bounds3.Intersect (⟨⟨5, 0, 0⟩, ⟨3, 1, 1⟩⟩ : Bounds3 Int) ⟨⟨0, 0, 0⟩, ⟨10, 1, 1⟩⟩
      = ⟨⟨5, 0, 0⟩, ⟨3, 1, 1⟩⟩ ∧
    ¬ (Bounds3.Intersect (⟨⟨5, 0, 0⟩, ⟨3, 1, 1⟩⟩ : Bounds3 Int)
      ⟨⟨0, 0, 0⟩, ⟨10, 1, 1⟩⟩).Valid := by
  decide

/-- C7 (amended): for every valid `Bounds3` `b`, `Inside(b.Lerp((0,0,0)), b)`
and `Inside(b.Lerp((1,1,1)), b)` hold; and for every `Bounds3` `b`, valid or
not, `InsideExclusive(b.Lerp((1,1,1)), b)` is false. -/
theorem C7_lerp_corners_inside {α : Type} [LinearOrderedCommRing α] :
    (∀ b : Bounds3 α, b.Valid →
        Bounds3.Inside (b.Lerp ⟨0, 0, 0⟩) b = true ∧
        Bounds3.Inside (b.Lerp ⟨1, 1, 1⟩) b = true) ∧
    (∀ b : Bounds3 α, Bounds3.InsideExclusive (b.Lerp ⟨1, 1, 1⟩) b = false) := by
  have l0 : ∀ a c : α, Lerp 0 a c = a := fun a c => by unfold Lerp; ring
  have l1 : ∀ a c : α, Lerp 1 a c = c := fun a c => by unfold Lerp; ring
  constructor
  · rintro b ⟨h1, h2, h3⟩
    simp only [Bounds3_Inside_iff, Bounds3.Lerp, l0, l1, le_refl, true_and, and_true]
    exact ⟨⟨h1, h2, h3⟩, h1, h2, h3⟩
  · intro b
    simp [Bounds3.InsideExclusive, Bounds3.Lerp, l1]

/-- Witness for C7 (amended) at the box `[(0,0,0), (1,2,3)]` over `ℚ`. -/
theorem C7_lerp_corners_inside_witness :
    Bounds3.Inside ((⟨⟨0, 0, 0⟩, ⟨1, 2, 3⟩⟩ : Bounds3 ℚ).Lerp ⟨0, 0, 0⟩)
        ⟨⟨0, 0, 0⟩, ⟨1, 2, 3⟩⟩ = true ∧
    Bounds3.Inside ((⟨⟨0, 0, 0⟩, ⟨1, 2, 3⟩⟩ : Bounds3 ℚ).Lerp ⟨1, 1, 1⟩)
        ⟨⟨0, 0, 0⟩, ⟨1, 2, 3⟩⟩ = true :=
  C7_lerp_corners_inside.1 ⟨⟨0, 0, 0⟩, ⟨1, 2, 3⟩⟩ (by norm_num [Bounds3.Valid])

/-- C7 (counterexample): for the invalid box `b = [(1,0,0), (0,0,0)]`,
`b.Lerp((0,0,0)) = (1,0,0)` is not inside `b`. -/
theorem C7_lerp_invalid_box :
    (⟨⟨1, 0, 0⟩, ⟨0, 0, 0⟩⟩ : Bounds3 ℚ).Lerp ⟨0, 0, 0⟩ = ⟨1, 0, 0⟩ ∧
    Bounds3.Inside ((⟨⟨1, 0, 0⟩, ⟨0, 0, 0⟩⟩ : Bounds3 ℚ).Lerp ⟨0, 0, 0⟩)
      ⟨⟨1, 0, 0⟩, ⟨0, 0, 0⟩⟩ = false := by
  constructor
  · norm_num [Bounds3.Lerp, Lerp]
  · norm_num [Bounds3.Inside, Bounds3.Lerp, Lerp]

/-- Scalar division in exact arithmetic (a linearly ordered field, where no
value is a NaN): `operator/` and `operator/=` on `Vector2`, `Vector3`,
`Point2`, `Point3` and `Normal3` abort through `CHECK_NE` exactly when the
divisor is 0, whatever the build mode `checked`; for a non-zero divisor they
return the value with every component multiplied by `1 / f`. -/
theorem division_fatal_iff_zero_exact {α : Type} [LinearOrderedField α] (checked : Bool)
    (f : α) :
    (∀ v : Vector2 α, v.div checked f =
        if f = 0 then Except.error Abort.check
        else Except.ok ⟨v.x * (1 / f), v.y * (1 / f)⟩) ∧
    (∀ v : Vector2 α, v.divAssign f =
        if f = 0 then Except.error Abort.check
        else Except.ok ⟨v.x * (1 / f), v.y * (1 / f)⟩) ∧
    (∀ v : Vector3 α, v.div checked f =
        if f = 0 then Except.error Abort.check
        else Except.ok ⟨v.x * (1 / f), v.y * (1 / f), v.z * (1 / f)⟩) ∧
    (∀ v : Vector3 α, v.divAssign f =
        if f = 0 then Except.error Abort.check
        else Except.ok ⟨v.x * (1 / f), v.y * (1 / f), v.z * (1 / f)⟩) ∧
    (∀ p : Point2 α, p.div checked f =
        if f = 0 then Except.error Abort.check
        else Except.ok ⟨1 / f * p.x, 1 / f * p.y⟩) ∧
    (∀ p : Point2 α, p.divAssign f =
        if f = 0 then Except.error Abort.check
        else Except.ok ⟨p.x * (1 / f), p.y * (1 / f)⟩) ∧
    (∀ p : Point3 α, p.div checked f =
        if f = 0 then Except.error Abort.check
        else Except.ok ⟨1 / f * p.x, 1 / f * p.y, 1 / f * p.z⟩) ∧
    (∀ p : Point3 α, p.divAssign f =
        if f = 0 then Except.error Abort.check
        else Except.ok ⟨p.x * (1 / f), p.y * (1 / f), p.z * (1 / f)⟩) ∧
    (∀ n : Normal3 α, n.div checked f =
        if f = 0 then Except.error Abort.check
        else Except.ok ⟨n.x * (1 / f), n.y * (1 / f), n.z * (1 / f)⟩) ∧
    (∀ n : Normal3 α, n.divAssign f =
        if f = 0 then Except.error Abort.check
        else Except.ok ⟨n.x * (1 / f), n.y * (1 / f), n.z * (1 / f)⟩) := by
  by_cases hf : f = 0
  · subst hf
    simp only [if_true]
    refine ⟨?_, ?_, ?_, ?_, ?_, ?_, ?_, ?_, ?_, ?_⟩ <;> intro v <;>
      simp [Vector2.div, Vector2.divAssign, Vector3.div, Vector3.divAssign, Point2.div,
        Point2.divAssign, Point3.div, Point3.divAssign, Normal3.div, Normal3.divAssign,
        CHECK_NE, bind, Except.bind]
  · simp only [if_neg hf]
    refine ⟨?_, ?_, ?_, ?_, ?_, ?_, ?_, ?_, ?_, ?_⟩ <;> intro v <;>
      simp [Vector2.div, Vector2.divAssign, Vector3.div, Vector3.divAssign, Point2.div,
        Point2.divAssign, Point3.div, Point3.divAssign, Normal3.div, Normal3.divAssign,
        Vector2.ctor, Vector3.ctor, Point2.ctor, Point3.ctor, Normal3.ctor, CHECK_NE, DCHECK,
        Vector2.HasNaNs, Vector3.HasNaNs, Point2.HasNaNs, Point3.HasNaNs, Normal3.HasNaNs,
        isNaN, hf, bind, Except.bind, pure, Except.pure]

/-- C9: for every point `p`, `p - p` is the zero vector and `p + (zero vector)`
is `p`, for `Point3` and for `Point2`; in particular at `Point3(1,2,3)`. -/
theorem C9_point_sub_self_add_zero {α : Type} [AddGroup α] :
    (∀ p : Point3 α, p.sub p = Vector3.zero ∧ p.add Vector3.zero = p) ∧
    (∀ p : Point2 α, p.sub p = Vector2.zero ∧ p.add Vector2.zero = p) ∧
    (Point3.sub (⟨1, 2, 3⟩ : Point3 Int) ⟨1, 2, 3⟩ = ⟨0, 0, 0⟩ ∧
      Point3.add (⟨1, 2, 3⟩ : Point3 Int) ⟨0, 0, 0⟩ = ⟨1, 2, 3⟩) := by
  refine ⟨fun p => ?_, fun p => ?_, by decide⟩
  · simp [Point3.sub, Point3.add, Vector3.zero]
  · simp [Point2.sub, Point2.add, Vector2.zero]

theorem Vector3_div_of_ne_zero {α : Type} [LinearOrderedField α] (checked : Bool)
    (v : Vector3 α) (f : α) (hf : f ≠ 0) :
    v.div checked f = Except.ok ⟨v.x * (1 / f), v.y * (1 / f), v.z * (1 / f)⟩ := by
  simp [Vector3.div, Vector3.ctor, CHECK_NE, DCHECK, Vector3.HasNaNs, isNaN, hf, bind,
    Except.bind, pure, Except.pure]

theorem LengthSquared_pos {α : Type} [LinearOrderedField α] (v : Vector3 α)
    (hv : v ≠ Vector3.zero) : 0 < v.LengthSquared := by
  obtain ⟨x, y, z⟩ := v
  simp only [Vector3.LengthSquared]
  have hne : x ≠ 0 ∨ y ≠ 0 ∨ z ≠ 0 := by
    by_contra h
    push_neg at h
    obtain ⟨hx, hy, hz⟩ := h
    exact hv (by simp [Vector3.zero, hx, hy, hz])
  have hx := mul_self_nonneg x
  have hy := mul_self_nonneg y
  have hz := mul_self_nonneg z
  rcases hne with h | h | h
  · have := mul_self_pos.mpr h
    linarith
  · have := mul_self_pos.mpr h
    linarith
  · have := mul_self_pos.mpr h
    linarith

/-- C11: for every non-zero `Vector3` `v`, `Normalize(v)` succeeds (its divisor
`v.Length()` is non-zero) and `Dot(Normalize(v), Normalize(v))` equals 1, in
exact arithmetic with an exact square root (`sqrt x * sqrt x = x` for
`x ≥ 0`). -/
theorem C11_normalize_unit_length {α : Type} [LinearOrderedField α] (sqrt : α → α)
    (hsqrt : ∀ x, 0 ≤ x → sqrt x * sqrt x = x) (checked : Bool) (v : Vector3 α)
    (hv : v ≠ Vector3.zero) :
    Vector3.Length sqrt v ≠ 0 ∧
      ∃ n, Vector3.Normalize sqrt checked v = Except.ok n ∧ Vector3.Dot n n = 1 := by
  have hpos := LengthSquared_pos v hv
  have hs := hsqrt v.LengthSquared hpos.le
  have hne : Vector3.Length sqrt v ≠ 0 := by
    intro h0
    unfold Vector3.Length at h0
    rw [h0, mul_zero] at hs
    exact absurd hs.symm (ne_of_gt hpos)
  refine ⟨hne, _, Vector3_div_of_ne_zero checked v _ hne, ?_⟩
  simp only [Vector3.Dot]
  have hs2 : Vector3.Length sqrt v * Vector3.Length sqrt v = v.x * v.x + v.y * v.y + v.z * v.z :=
    hs
  field_simp
  linear_combination -hs2

/-- Witness for C11: `v = (3, 4, 0)` over `ℝ` with the real square root. -/
theorem C11_normalize_unit_length_witness :
    Vector3.Length Real.sqrt (⟨3, 4, 0⟩ : Vector3 ℝ) ≠ 0 ∧
      ∃ n, Vector3.Normalize Real.sqrt true (⟨3, 4, 0⟩ : Vector3 ℝ) = Except.ok n ∧
        Vector3.Dot n n = 1 :=
  C11_normalize_unit_length Real.sqrt (fun _ hx => Real.mul_self_sqrt hx) true ⟨3, 4, 0⟩
    (by simp [Vector3.zero])

/-! ## Constructors and union -/

/-- C12: the two-point constructor takes the componentwise minimum and maximum,
so for all points `p1`, `p2` the box `Bounds(p1, p2)` is valid and equals
`Bounds(p2, p1)`, for `Bounds3` and for `Bounds2`. -/
theorem C12_two_point_constructor {α : Type} [LinearOrder α] :
    (∀ p1 p2 : Point3 α,
        (Bounds3.ofPoints p1 p2).pMin = ⟨min p1.x p2.x, min p1.y p2.y, min p1.z p2.z⟩ ∧
        (Bounds3.ofPoints p1 p2).pMax = ⟨max p1.x p2.x, max p1.y p2.y, max p1.z p2.z⟩ ∧
        (Bounds3.ofPoints p1 p2).Valid ∧
        Bounds3.ofPoints p1 p2 = Bounds3.ofPoints p2 p1) ∧
    (∀ p1 p2 : Point2 α,
        (Bounds2.ofPoints p1 p2).pMin = ⟨min p1.x p2.x, min p1.y p2.y⟩ ∧
        (Bounds2.ofPoints p1 p2).pMax = ⟨max p1.x p2.x, max p1.y p2.y⟩ ∧
        (Bounds2.ofPoints p1 p2).Valid ∧
        Bounds2.ofPoints p1 p2 = Bounds2.ofPoints p2 p1) := by
  constructor
  · intro p1 p2
    simp only [Bounds3.ofPoints, Bounds3.Valid, stdMin_eq_min, stdMax_eq_max, true_and]
    refine ⟨⟨min_le_max, min_le_max, min_le_max⟩, ?_⟩
    simp only [min_comm, max_comm]
  · intro p1 p2
    simp only [Bounds2.ofPoints, Bounds2.Valid, stdMin_eq_min, stdMax_eq_max, true_and]
    refine ⟨⟨min_le_max, min_le_max⟩, ?_⟩
    simp only [min_comm, max_comm]

/-- C13: the default-constructed bounds is an identity for `Union`.  For every
point `p` and every bounds `b` whose components are values of the scalar type
(between `lowest()` and `max()`), `Union(Bounds(), p) == Bounds(p)` and
`Union(Bounds(), b) == b`, for `Bounds3` and for `Bounds2`. -/
theorem C13_empty_bounds_union_identity {α : Type} [LinearOrder α] (minNum maxNum : α) :
    (∀ p : Point3 α, p.Representable minNum maxNum →
        Bounds3.UnionPoint (Bounds3.empty minNum maxNum) p = Bounds3.ofPoint p) ∧
    (∀ b : Bounds3 α, b.pMin.Representable minNum maxNum →
        b.pMax.Representable minNum maxNum →
        Bounds3.Union (Bounds3.empty minNum maxNum) b = b) ∧
    (∀ p : Point2 α, p.Representable minNum maxNum →
        Bounds2.UnionPoint (Bounds2.empty minNum maxNum) p = Bounds2.ofPoint p) ∧
    (∀ b : Bounds2 α, b.pMin.Representable minNum maxNum →
        b.pMax.Representable minNum maxNum →
        Bounds2.Union (Bounds2.empty minNum maxNum) b = b) := by
  refine ⟨?_, ?_, ?_, ?_⟩
  · rintro ⟨x, y, z⟩ ⟨⟨h1, h2⟩, ⟨h3, h4⟩, h5, h6⟩
    simp only [Bounds3.UnionPoint, Bounds3.empty, Bounds3.ofPoint, Point3.Min, Point3.Max,
      stdMin_eq_min, stdMax_eq_max]
    simp only at h1 h2 h3 h4 h5 h6
    simp [h1, h2, h3, h4, h5, h6]
  · rintro ⟨⟨a1, a2, a3⟩, ⟨c1, c2, c3⟩⟩ ⟨⟨_, h1⟩, ⟨_, h2⟩, _, h3⟩ ⟨⟨k1, _⟩, ⟨k2, _⟩, k3, _⟩
    simp only [Bounds3.Union, Bounds3.empty, Point3.Min, Point3.Max, stdMin_eq_min,
      stdMax_eq_max]
    simp only at h1 h2 h3 k1 k2 k3
    simp [h1, h2, h3, k1, k2, k3]
  · rintro ⟨x, y⟩ ⟨⟨h1, h2⟩, h3, h4⟩
    simp only [Bounds2.UnionPoint, Bounds2.empty, Bounds2.ofPoint, Point2.Min, Point2.Max,
      stdMin_eq_min, stdMax_eq_max]
    simp only at h1 h2 h3 h4
    simp [h1, h2, h3, h4]
  · rintro ⟨⟨a1, a2⟩, ⟨c1, c2⟩⟩ ⟨⟨_, h1⟩, _, h2⟩ ⟨⟨k1, _⟩, k2, _⟩
    simp only [Bounds2.Union, Bounds2.empty, Point2.Min, Point2.Max, stdMin_eq_min,
      stdMax_eq_max]
    simp only at h1 h2 k1 k2
    simp [h1, h2, k1, k2]

/-- Witness for C13 at `T = int`, where `Bounds3()` has `pMin = INT_MAX` and
`pMax = INT_MIN` on every axis: the point `(1, -2, INT_MAX)` and the box
`[(INT_MIN, 0, 5), (3, 0, -5)]`; likewise in 2D. -/
theorem C13_empty_bounds_union_identity_witness :
    (Bounds3.empty INT_MIN INT_MAX =
        ⟨⟨2147483647, 2147483647, 2147483647⟩, ⟨-2147483648, -2147483648, -2147483648⟩⟩) ∧
    Bounds3.UnionPoint (Bounds3.empty INT_MIN INT_MAX) ⟨1, -2, INT_MAX⟩
      = Bounds3.ofPoint ⟨1, -2, INT_MAX⟩ ∧
    Bounds3.Union (Bounds3.empty INT_MIN INT_MAX) ⟨⟨INT_MIN, 0, 5⟩, ⟨3, 0, -5⟩⟩
      = ⟨⟨INT_MIN, 0, 5⟩, ⟨3, 0, -5⟩⟩ ∧
    Bounds2.UnionPoint (Bounds2.empty INT_MIN INT_MAX) ⟨1, -2⟩ = Bounds2.ofPoint ⟨1, -2⟩ ∧
    Bounds2.Union (Bounds2.empty INT_MIN INT_MAX) ⟨⟨INT_MIN, 0⟩, ⟨3, 0⟩⟩
      = ⟨⟨INT_MIN, 0⟩, ⟨3, 0⟩⟩ :=
  ⟨rfl,
   (C13_empty_bounds_union_identity INT_MIN INT_MAX).1 ⟨1, -2, INT_MAX⟩ (by decide),
   (C13_empty_bounds_union_identity INT_MIN INT_MAX).2.1 ⟨⟨INT_MIN, 0, 5⟩, ⟨3, 0, -5⟩⟩
     (by decide) (by decide),
   (C13_empty_bounds_union_identity INT_MIN INT_MAX).2.2.1 ⟨1, -2⟩ (by decide),
   (C13_empty_bounds_union_identity INT_MIN INT_MAX).2.2.2 ⟨⟨INT_MIN, 0⟩, ⟨3, 0⟩⟩
     (by decide) (by decide)⟩

/-- C14: for all bounds `b1`, `b2` (valid, invalid or the empty sentinel),
`Union(b1, b2)` has the componentwise minimum of the minima as `pMin` and the
componentwise maximum of the maxima as `pMax`, and every point inside `b1` or
inside `b2` is inside `Union(b1, b2)`; for `Bounds3` and for `Bounds2`. -/
theorem C14_union_of_bounds {α : Type} [LinearOrder α] :
    (∀ b1 b2 : Bounds3 α,
        (Bounds3.Union b1 b2).pMin =
          ⟨min b1.pMin.x b2.pMin.x, min b1.pMin.y b2.pMin.y, min b1.pMin.z b2.pMin.z⟩ ∧
        (Bounds3.Union b1 b2).pMax =
          ⟨max b1.pMax.x b2.pMax.x, max b1.pMax.y b2.pMax.y, max b1.pMax.z b2.pMax.z⟩ ∧
        ∀ p : Point3 α, Bounds3.Inside p b1 = true ∨ Bounds3.Inside p b2 = true →
          Bounds3.Inside p (Bounds3.Union b1 b2) = true) ∧
    (∀ b1 b2 : Bounds2 α,
        (Bounds2.Union b1 b2).pMin = ⟨min b1.pMin.x b2.pMin.x, min b1.pMin.y b2.pMin.y⟩ ∧
        (Bounds2.Union b1 b2).pMax = ⟨max b1.pMax.x b2.pMax.x, max b1.pMax.y b2.pMax.y⟩ ∧
        ∀ p : Point2 α, Bounds2.Inside p b1 = true ∨ Bounds2.Inside p b2 = true →
          Bounds2.Inside p (Bounds2.Union b1 b2) = true) := by
  constructor
  · intro b1 b2
    refine ⟨by simp only [Bounds3.Union, Point3.Min, stdMin_eq_min],
      by simp only [Bounds3.Union, Point3.Max, stdMax_eq_max], ?_⟩
    intro p h
    simp only [Bounds3_Inside_iff, Bounds3.Union, Point3.Min, Point3.Max, stdMin_eq_min,
      stdMax_eq_max, min_le_iff, le_max_iff] at h ⊢
    tauto
  · intro b1 b2
    refine ⟨by simp only [Bounds2.Union, Point2.Min, stdMin_eq_min],
      by simp only [Bounds2.Union, Point2.Max, stdMax_eq_max], ?_⟩
    intro p h
    simp only [Bounds2_Inside_iff, Bounds2.Union, Point2.Min, Point2.Max, stdMin_eq_min,
      stdMax_eq_max, min_le_iff, le_max_iff] at h ⊢
    tauto

/-- Witness for C14: the point `(4, 4, 4)` of `b2 = [(3,3,3), (5,5,5)]` is inside
the union with the empty sentinel `Bounds3()` of `int`; the point `(0, 1)` of
`b1 = [(0,0), (1,1)]` is inside the union with `[(3,3), (5,5)]`. -/
theorem C14_union_of_bounds_witness :
    Bounds3.Inside (⟨4, 4, 4⟩ : Point3 Int)
        (Bounds3.Union (Bounds3.empty INT_MIN INT_MAX) ⟨⟨3, 3, 3⟩, ⟨5, 5, 5⟩⟩) = true ∧
    Bounds2.Inside (⟨0, 1⟩ : Point2 Int)
        (Bounds2.Union ⟨⟨0, 0⟩, ⟨1, 1⟩⟩ ⟨⟨3, 3⟩, ⟨5, 5⟩⟩) = true :=
  ⟨(C14_union_of_bounds.1 (Bounds3.empty INT_MIN INT_MAX) ⟨⟨3, 3, 3⟩, ⟨5, 5, 5⟩⟩).2.2
      ⟨4, 4, 4⟩ (by decide),
   (C14_union_of_bounds.2 ⟨⟨0, 0⟩, ⟨1, 1⟩⟩ ⟨⟨3, 3⟩, ⟨5, 5⟩⟩).2.2 ⟨0, 1⟩ (by decide)⟩

/-! ## Extent, offset, corners, unit boxes -/

theorem axis_choice3 {α : Type} [LinearOrder α] (x y z : α) :
    (x > y ∧ x > z → y ≤ x ∧ z ≤ x) ∧
    (¬ (x > y ∧ x > z) → y > z → x ≤ y ∧ z ≤ y) ∧
    (¬ (x > y ∧ x > z) → ¬ (y > z) → x ≤ z ∧ y ≤ z) := by
  refine ⟨fun h => ⟨h.1.le, h.2.le⟩, fun h1 h2 => ⟨?_, h2.le⟩, fun h1 h2 => ⟨?_, not_lt.mp h2⟩⟩
  · by_contra h
    exact h1 ⟨not_le.mp h, lt_trans h2 (not_le.mp h)⟩
  · by_contra h
    exact h1 ⟨lt_of_le_of_lt (not_lt.mp h2) (not_le.mp h), not_le.mp h⟩

/-- C15: `MaximumExtent()` returns an axis of greatest extent.  With
`d = b.Diagonal()` and `k = b.MaximumExtent()`, `k` is 0, 1 or 2 and
`d[k] ≥ d[i]` for every axis `i`; for `Bounds2`, `k` is 0 or 1 likewise. -/
theorem C15_maximum_extent_is_greatest {α : Type} [LinearOrder α] [Sub α] :
    (∀ b : Bounds3 α,
        (b.MaximumExtent = 0 ∨ b.MaximumExtent = 1 ∨ b.MaximumExtent = 2) ∧
        ∀ i : Int, b.Diagonal.get i ≤ b.Diagonal.get b.MaximumExtent) ∧
    (∀ b : Bounds2 α,
        (b.MaximumExtent = 0 ∨ b.MaximumExtent = 1) ∧
        ∀ i : Int, b.Diagonal.get i ≤ b.Diagonal.get b.MaximumExtent) := by
  constructor
  · intro b
    obtain ⟨c0, c1, c2⟩ := axis_choice3 b.Diagonal.x b.Diagonal.y b.Diagonal.z
    unfold Bounds3.MaximumExtent
    simp only
    by_cases h1 : b.Diagonal.x > b.Diagonal.y ∧ b.Diagonal.x > b.Diagonal.z
    · rw [if_pos h1]
      refine ⟨Or.inl rfl, fun i => ?_⟩
      have := c0 h1
      simp only [Vector3.get, if_true]
      split_ifs
      · exact le_refl _
      · exact this.1
      · exact this.2
    · rw [if_neg h1]
      by_cases h2 : b.Diagonal.y > b.Diagonal.z
      · rw [if_pos h2]
        refine ⟨Or.inr (Or.inl rfl), fun i => ?_⟩
        have := c1 h1 h2
        simp only [Vector3.get, one_ne_zero, if_false, if_true]
        split_ifs
        · exact this.1
        · exact le_refl _
        · exact this.2
      · rw [if_neg h2]
        refine ⟨Or.inr (Or.inr rfl), fun i => ?_⟩
        have := c2 h1 h2
        have e20 : ¬ ((2 : Int) = 0) := by decide
        have e21 : ¬ ((2 : Int) = 1) := by decide
        simp only [Vector3.get, e20, e21, if_false]
        split_ifs
        · exact this.1
        · exact this.2
        · exact le_refl _
  · intro b
    unfold Bounds2.MaximumExtent
    simp only
    by_cases h1 : b.Diagonal.x > b.Diagonal.y
    · rw [if_pos h1]
      refine ⟨Or.inl rfl, fun i => ?_⟩
      simp only [Vector2.get, if_true]
      split_ifs
      · exact le_refl _
      · exact h1.le
    · rw [if_neg h1]
      refine ⟨Or.inr rfl, fun i => ?_⟩
      simp only [Vector2.get, one_ne_zero, if_false]
      split_ifs
      · exact not_lt.mp h1
      · exact le_refl _

/-- C16 (amended): `Bounds3::MaximumExtent` breaks ties in the precedence `z`,
then `y`, then `x`.  With `d = b.Diagonal()`, whenever two or more axes share
the greatest extent it returns 2 if `z` is among them and otherwise 1 (`y`);
and it returns 0 exactly when `x` is strictly the greatest. -/
theorem C16_maximum_extent_ties {α : Type} [LinearOrder α] [Sub α] (b : Bounds3 α) :
    (b.MaximumExtent = 0 ↔ b.Diagonal.y < b.Diagonal.x ∧ b.Diagonal.z < b.Diagonal.x) ∧
    (((b.Diagonal.x = max b.Diagonal.x (max b.Diagonal.y b.Diagonal.z) ∧
        b.Diagonal.y = max b.Diagonal.x (max b.Diagonal.y b.Diagonal.z)) ∨
      (b.Diagonal.x = max b.Diagonal.x (max b.Diagonal.y b.Diagonal.z) ∧
        b.Diagonal.z = max b.Diagonal.x (max b.Diagonal.y b.Diagonal.z)) ∨
      (b.Diagonal.y = max b.Diagonal.x (max b.Diagonal.y b.Diagonal.z) ∧
        b.Diagonal.z = max b.Diagonal.x (max b.Diagonal.y b.Diagonal.z))) →
      (b.Diagonal.z = max b.Diagonal.x (max b.Diagonal.y b.Diagonal.z) →
        b.MaximumExtent = 2) ∧
      (b.Diagonal.z ≠ max b.Diagonal.x (max b.Diagonal.y b.Diagonal.z) →
        b.MaximumExtent = 1)) := by
  unfold Bounds3.MaximumExtent
  simp only
  generalize b.Diagonal.x = x
  generalize b.Diagonal.y = y
  generalize b.Diagonal.z = z
  have hx : x ≤ max x (max y z) := le_max_left _ _
  have hy : y ≤ max x (max y z) := le_trans (le_max_left _ _) (le_max_right _ _)
  have hz : z ≤ max x (max y z) := le_trans (le_max_right _ _) (le_max_right _ _)
  constructor
  · by_cases h1 : x > y ∧ x > z
    · simp only [if_pos h1, true_iff]
      exact h1
    · rw [if_neg h1]
      constructor
      · intro h
        split_ifs at h
        · exact absurd h (by decide)
        · exact absurd h (by decide)
      · intro h
        exact absurd h h1
  · intro htie
    constructor
    · intro ez
      have h1 : ¬ (x > y ∧ x > z) := fun h => absurd (ez ▸ hx) (not_le.mpr h.2)
      have h2 : ¬ (y > z) := fun h => absurd (ez ▸ hy) (not_le.mpr h)
      rw [if_neg h1, if_neg h2]
    · intro nz
      rcases htie with ⟨ex, ey⟩ | ⟨_, ez⟩ | ⟨_, ez⟩
      · have h1 : ¬ (x > y ∧ x > z) := fun h => absurd (ey ▸ hx) (not_le.mpr h.1)
        have h2 : y > z := by
          rw [ey]
          exact lt_of_le_of_ne hz nz
        rw [if_neg h1, if_pos h2]
      · exact absurd ez nz
      · exact absurd ez nz

/-- Witness for C16 (amended): on `[(0,0,0), (1,2,2)]` the axes `y` and `z`
share the greatest extent 2 and the result is 2. -/
theorem C16_maximum_extent_ties_witness :
    (⟨⟨0, 0, 0⟩, ⟨1, 2, 2⟩⟩ : Bounds3 Int).MaximumExtent = 2 :=
  ((C16_maximum_extent_ties ⟨⟨0, 0, 0⟩, ⟨1, 2, 2⟩⟩).2 (by decide)).1 (by decide)

/-- C16 (counterexample): on `[(0,0,0), (1,2,2)]` the diagonal is `(1, 2, 2)`, so
`y` is among the axes of greatest extent, yet the result is 2, not 1. -/
theorem C16_tie_y_z_returns_z :
    (⟨⟨0, 0, 0⟩, ⟨1, 2, 2⟩⟩ : Bounds3 Int).Diagonal = ⟨1, 2, 2⟩ ∧
    (⟨⟨0, 0, 0⟩, ⟨1, 2, 2⟩⟩ : Bounds3 Int).MaximumExtent = 2 ∧
    (⟨⟨0, 0, 0⟩, ⟨1, 2, 2⟩⟩ : Bounds3 Int).MaximumExtent ≠ 1 := by
  decide

theorem scalarDiv_of_ne_zero {α : Type} [Zero α] [DecidableEq α] [Div α] (a b : α)
    (hb : b ≠ 0) : scalarDiv a b = some (a / b) := by
  unfold scalarDiv
  rw [if_neg hb]

theorem Bounds3_Offset_eq {α : Type} [LinearOrderedRing α] [Div α] (b : Bounds3 α)
    (p : Point3 α) :
    b.Offset p = some
      ⟨if b.pMax.x > b.pMin.x then (p.x - b.pMin.x) / (b.pMax.x - b.pMin.x)
        else p.x - b.pMin.x,
       if b.pMax.y > b.pMin.y then (p.y - b.pMin.y) / (b.pMax.y - b.pMin.y)
        else p.y - b.pMin.y,
       if b.pMax.z > b.pMin.z then (p.z - b.pMin.z) / (b.pMax.z - b.pMin.z)
        else p.z - b.pMin.z⟩ := by
  unfold Bounds3.Offset
  by_cases hx : b.pMax.x > b.pMin.x <;> by_cases hy : b.pMax.y > b.pMin.y <;>
    by_cases hz : b.pMax.z > b.pMin.z <;>
    simp [hx, hy, hz, Point3.sub, scalarDiv_of_ne_zero, ne_of_gt, sub_pos]

theorem Bounds2_Offset_eq {α : Type} [LinearOrderedRing α] [Div α] (b : Bounds2 α)
    (p : Point2 α) :
    b.Offset p = some
      ⟨if b.pMax.x > b.pMin.x then (p.x - b.pMin.x) / (b.pMax.x - b.pMin.x)
        else p.x - b.pMin.x,
       if b.pMax.y > b.pMin.y then (p.y - b.pMin.y) / (b.pMax.y - b.pMin.y)
        else p.y - b.pMin.y⟩ := by
  unfold Bounds2.Offset
  by_cases hx : b.pMax.x > b.pMin.x <;> by_cases hy : b.pMax.y > b.pMin.y <;>
    simp [hx, hy, Point2.sub, scalarDiv_of_ne_zero, ne_of_gt, sub_pos]

/-- C17: `Offset` is the inverse of `Lerp`.  For every `Bounds3` `b` with
`pMin[i] < pMax[i]` on every axis, `b.Offset(b.Lerp(t)) == t` for every
parameter triple `t`, and `b.Lerp(b.Offset(p)) == p` for every point `p`
(componentwise, exact field arithmetic). -/
theorem C17_offset_inverse_of_lerp {α : Type} [LinearOrderedField α] (b : Bounds3 α)
    (hx : b.pMin.x < b.pMax.x) (hy : b.pMin.y < b.pMax.y) (hz : b.pMin.z < b.pMax.z) :
    (∀ t : Point3 α, b.Offset (b.Lerp t) = some ⟨t.x, t.y, t.z⟩) ∧
    (∀ p : Point3 α, ∃ o : Vector3 α, b.Offset p = some o ∧ b.Lerp ⟨o.x, o.y, o.z⟩ = p) := by
  have dx : b.pMax.x - b.pMin.x ≠ 0 := ne_of_gt (sub_pos.mpr hx)
  have dy : b.pMax.y - b.pMin.y ≠ 0 := ne_of_gt (sub_pos.mpr hy)
  have dz : b.pMax.z - b.pMin.z ≠ 0 := ne_of_gt (sub_pos.mpr hz)
  constructor
  · intro t
    rw [Bounds3_Offset_eq]
    simp only [gt_iff_lt, hx, hy, hz, if_true, Bounds3.Lerp, Lerp, Option.some.injEq,
      Vector3.mk.injEq]
    refine ⟨?_, ?_, ?_⟩ <;> field_simp <;> ring
  · intro p
    refine ⟨_, Bounds3_Offset_eq b p, ?_⟩
    obtain ⟨px, py, pz⟩ := p
    simp only [gt_iff_lt, hx, hy, hz, if_true, Bounds3.Lerp, Lerp, Point3.mk.injEq]
    refine ⟨?_, ?_, ?_⟩ <;> field_simp <;> ring

/-- Witness for C17 on `b = [(0,0,0), (2,4,8)]`: `t = (1/2, 1/4, 3)` and
`p = (1, 1, 1)`. -/
theorem C17_offset_inverse_of_lerp_witness :
    (⟨⟨0, 0, 0⟩, ⟨2, 4, 8⟩⟩ : Bounds3 ℚ).Offset
        ((⟨⟨0, 0, 0⟩, ⟨2, 4, 8⟩⟩ : Bounds3 ℚ).Lerp ⟨1 / 2, 1 / 4, 3⟩)
      = some ⟨1 / 2, 1 / 4, 3⟩ ∧
    ∃ o : Vector3 ℚ, (⟨⟨0, 0, 0⟩, ⟨2, 4, 8⟩⟩ : Bounds3 ℚ).Offset ⟨1, 1, 1⟩ = some o ∧
      (⟨⟨0, 0, 0⟩, ⟨2, 4, 8⟩⟩ : Bounds3 ℚ).Lerp ⟨o.x, o.y, o.z⟩ = ⟨1, 1, 1⟩ :=
  ⟨(C17_offset_inverse_of_lerp ⟨⟨0, 0, 0⟩, ⟨2, 4, 8⟩⟩ (by norm_num) (by norm_num)
      (by norm_num)).1 ⟨1 / 2, 1 / 4, 3⟩,
   (C17_offset_inverse_of_lerp ⟨⟨0, 0, 0⟩, ⟨2, 4, 8⟩⟩ (by norm_num) (by norm_num)
      (by norm_num)).2 ⟨1, 1, 1⟩⟩

/-- C18: `Offset` never divides by zero.  For every bounds `b` (`Bounds3` and
`Bounds2`) and point `p` the call returns a value, a division having been
performed on axis `i` only when `pMax[i] > pMin[i]` (where the component is the
quotient); on every axis with `pMax[i] ≤ pMin[i]` the returned component is
exactly `p[i] - pMin[i]`. -/
theorem C18_offset_no_division_by_zero {α : Type} [LinearOrderedRing α] [Div α] :
    (∀ (b : Bounds3 α) (p : Point3 α), ∃ o : Vector3 α, b.Offset p = some o ∧
        (b.pMax.x ≤ b.pMin.x → o.x = p.x - b.pMin.x) ∧
        (b.pMax.y ≤ b.pMin.y → o.y = p.y - b.pMin.y) ∧
        (b.pMax.z ≤ b.pMin.z → o.z = p.z - b.pMin.z) ∧
        (b.pMax.x > b.pMin.x → o.x = (p.x - b.pMin.x) / (b.pMax.x - b.pMin.x)) ∧
        (b.pMax.y > b.pMin.y → o.y = (p.y - b.pMin.y) / (b.pMax.y - b.pMin.y)) ∧
        (b.pMax.z > b.pMin.z → o.z = (p.z - b.pMin.z) / (b.pMax.z - b.pMin.z))) ∧
    (∀ (b : Bounds2 α) (p : Point2 α), ∃ o : Vector2 α, b.Offset p = some o ∧
        (b.pMax.x ≤ b.pMin.x → o.x = p.x - b.pMin.x) ∧
        (b.pMax.y ≤ b.pMin.y → o.y = p.y - b.pMin.y) ∧
        (b.pMax.x > b.pMin.x → o.x = (p.x - b.pMin.x) / (b.pMax.x - b.pMin.x)) ∧
        (b.pMax.y > b.pMin.y → o.y = (p.y - b.pMin.y) / (b.pMax.y - b.pMin.y))) := by
  constructor
  · intro b p
    refine ⟨_, Bounds3_Offset_eq b p, ?_, ?_, ?_, ?_, ?_, ?_⟩
    · intro h; simp only [gt_iff_lt, not_lt.mpr h, if_false]
    · intro h; simp only [gt_iff_lt, not_lt.mpr h, if_false]
    · intro h; simp only [gt_iff_lt, not_lt.mpr h, if_false]
    · intro h; simp only [h, if_true]
    · intro h; simp only [h, if_true]
    · intro h; simp only [h, if_true]
  · intro b p
    refine ⟨_, Bounds2_Offset_eq b p, ?_, ?_, ?_, ?_⟩
    · intro h; simp only [gt_iff_lt, not_lt.mpr h, if_false]
    · intro h; simp only [gt_iff_lt, not_lt.mpr h, if_false]
    · intro h; simp only [h, if_true]
    · intro h; simp only [h, if_true]

/-- Witness for C18 on `b = [(1,0,0), (1,2,-1)]` (zero width on `x`, inverted on
`z`) and `p = (3,1,5)`: the offset is `(3 - 1, (1 - 0) / (2 - 0), 5 - 0)`. -/
theorem C18_offset_no_division_by_zero_witness :
    ∃ o : Vector3 ℚ, (⟨⟨1, 0, 0⟩, ⟨1, 2, -1⟩⟩ : Bounds3 ℚ).Offset ⟨3, 1, 5⟩ = some o ∧
      o.x = 3 - 1 ∧ o.y = (1 - 0) / (2 - 0) ∧ o.z = 5 - 0 :=
  ((C18_offset_no_division_by_zero (α := ℚ)).1 ⟨⟨1, 0, 0⟩, ⟨1, 2, -1⟩⟩ ⟨3, 1, 5⟩).elim
    fun o h => ⟨o, h.1, h.2.1 (by norm_num), h.2.2.2.2.2.1 (by norm_num),
      h.2.2.2.1 (by norm_num)⟩

/-- C19: for every `Bounds3` `b` and every `i` in `0..7`, `Corner(i)` selects
per axis by the three low bits of `i` (`pMax` where the bit is set, `pMin`
otherwise: bit 0 for `x`, bit 1 for `y`, bit 2 for `z`); in particular
`Corner(0) == pMin`, `Corner(7) == pMax`, `b[0] == pMin` and `b[1] == pMax`. -/
theorem C19_corner_selects_by_bits {α : Type} (b : Bounds3 α) :
    (∀ i : Int, 0 ≤ i → i < 8 →
        b.Corner i =
          ⟨if i.testBit 0 = true then b.pMax.x else b.pMin.x,
           if i.testBit 1 = true then b.pMax.y else b.pMin.y,
           if i.testBit 2 = true then b.pMax.z else b.pMin.z⟩) ∧
    b.Corner 0 = b.pMin ∧ b.Corner 7 = b.pMax ∧ b.get 0 = b.pMin ∧ b.get 1 = b.pMax := by
  refine ⟨?_, rfl, rfl, rfl, rfl⟩
  intro i h0 h8
  interval_cases i <;> rfl

/-- Witness for C19: corner 5 (bits 0 and 2 set) of `[(0,0,0), (1,2,3)]` is
`(1, 0, 3)`. -/
theorem C19_corner_selects_by_bits_witness :
    (⟨⟨0, 0, 0⟩, ⟨1, 2, 3⟩⟩ : Bounds3 Int).Corner 5 = ⟨1, 0, 3⟩ :=
  (C19_corner_selects_by_bits ⟨⟨0, 0, 0⟩, ⟨1, 2, 3⟩⟩).1 5 (by decide) (by decide)

/-- An `int` below `INT_MAX` is incremented without wrap-around. -/
theorem wrapInt32_succ (a : Int) (h1 : INT_MIN ≤ a) (h2 : a < INT_MAX) :
    wrapInt32 (a + 1) = a + 1 := by
  unfold wrapInt32
  unfold INT_MIN at h1
  unfold INT_MAX at h2
  omega

/-- C20 (amended): unit boxes tile the integer lattice exactly once under
`InsideExclusive`, as long as `q + (1,1)` does not overflow `int`.  For all
integer points `p` and all `int` points `q` with every coordinate below
`INT_MAX`, `InsideExclusive(p, Bounds2i(q, q + (1,1)))` holds if and only if
`p == q`, and likewise in 3D; the closed `Inside(p, .)` holds for exactly the
unit boxes whose corner `q` is `p` or `p` lowered by one on some axes (up to 4,
in 3D up to 8). -/
theorem C20_unit_boxes_tile_lattice :
    (∀ p q : Point2 Int, q.Representable INT_MIN INT_MAX → q.x < INT_MAX → q.y < INT_MAX →
        (Bounds2.InsideExclusive p (Bounds2.ofPoints q (q.addInt ⟨1, 1⟩)) = true ↔ p = q)) ∧
    (∀ p q : Point3 Int, q.Representable INT_MIN INT_MAX →
        q.x < INT_MAX → q.y < INT_MAX → q.z < INT_MAX →
        (Bounds3.InsideExclusive p (Bounds3.ofPoints q (q.addInt ⟨1, 1, 1⟩)) = true ↔ p = q)) ∧
    (∀ p q : Point2 Int, q.Representable INT_MIN INT_MAX → q.x < INT_MAX → q.y < INT_MAX →
        (Bounds2.Inside p (Bounds2.ofPoints q (q.addInt ⟨1, 1⟩)) = true ↔
          q ∈ [(⟨p.x, p.y⟩ : Point2 Int), ⟨p.x - 1, p.y⟩, ⟨p.x, p.y - 1⟩,
            ⟨p.x - 1, p.y - 1⟩])) ∧
    (∀ p q : Point3 Int, q.Representable INT_MIN INT_MAX →
        q.x < INT_MAX → q.y < INT_MAX → q.z < INT_MAX →
        (Bounds3.Inside p (Bounds3.ofPoints q (q.addInt ⟨1, 1, 1⟩)) = true ↔
          q ∈ [(⟨p.x, p.y, p.z⟩ : Point3 Int), ⟨p.x - 1, p.y, p.z⟩, ⟨p.x, p.y - 1, p.z⟩,
            ⟨p.x - 1, p.y - 1, p.z⟩, ⟨p.x, p.y, p.z - 1⟩, ⟨p.x - 1, p.y, p.z - 1⟩,
            ⟨p.x, p.y - 1, p.z - 1⟩, ⟨p.x - 1, p.y - 1, p.z - 1⟩])) := by
  have hmin : ∀ a : Int, stdMin a (a + 1) = a := fun a => by
    rw [stdMin_eq_min]; exact min_eq_left (by omega)
  have hmax : ∀ a : Int, stdMax a (a + 1) = a + 1 := fun a => by
    rw [stdMax_eq_max]; exact max_eq_right (by omega)
  refine ⟨?_, ?_, ?_, ?_⟩
  · rintro ⟨px, py⟩ ⟨qx, qy⟩ ⟨⟨x1, _⟩, y1, _⟩ hx hy
    simp only [Bounds2.InsideExclusive, Bounds2.ofPoints, Point2.addInt,
      wrapInt32_succ _ x1 hx, wrapInt32_succ _ y1 hy, hmin, hmax,
      Bool.and_eq_true, decide_eq_true_eq, Point2.mk.injEq, ge_iff_le]
    omega
  · rintro ⟨px, py, pz⟩ ⟨qx, qy, qz⟩ ⟨⟨x1, _⟩, ⟨y1, _⟩, z1, _⟩ hx hy hz
    simp only [Bounds3.InsideExclusive, Bounds3.ofPoints, Point3.addInt,
      wrapInt32_succ _ x1 hx, wrapInt32_succ _ y1 hy, wrapInt32_succ _ z1 hz, hmin, hmax,
      Bool.and_eq_true, decide_eq_true_eq, Point3.mk.injEq, ge_iff_le]
    omega
  · rintro ⟨px, py⟩ ⟨qx, qy⟩ ⟨⟨x1, _⟩, y1, _⟩ hx hy
    simp only [Bounds2_Inside_iff, Bounds2.ofPoints, Point2.addInt,
      wrapInt32_succ _ x1 hx, wrapInt32_succ _ y1 hy, hmin, hmax,
      List.mem_cons, List.mem_singleton, Point2.mk.injEq, List.not_mem_nil, or_false]
    omega
  · rintro ⟨px, py, pz⟩ ⟨qx, qy, qz⟩ ⟨⟨x1, _⟩, ⟨y1, _⟩, z1, _⟩ hx hy hz
    simp only [Bounds3_Inside_iff, Bounds3.ofPoints, Point3.addInt,
      wrapInt32_succ _ x1 hx, wrapInt32_succ _ y1 hy, wrapInt32_succ _ z1 hz, hmin, hmax,
      List.mem_cons, List.mem_singleton, Point3.mk.injEq, List.not_mem_nil, or_false]
    omega

/-- Witness for C20 (amended): `p = q = (3,5)`; `p = (3,5,7)`, `q = (2,5,7)`;
the closed test at `p = (3,5)`, `q = (2,4)` and at `p = (3,5,7)`,
`q = (2,5,6)`. -/
theorem C20_unit_boxes_tile_lattice_witness :
    (Bounds2.InsideExclusive (⟨3, 5⟩ : Point2 Int)
        (Bounds2.ofPoints ⟨3, 5⟩ ((⟨3, 5⟩ : Point2 Int).addInt ⟨1, 1⟩)) = true ↔
      (⟨3, 5⟩ : Point2 Int) = ⟨3, 5⟩) ∧
    (Bounds3.InsideExclusive (⟨3, 5, 7⟩ : Point3 Int)
        (Bounds3.ofPoints ⟨2, 5, 7⟩ ((⟨2, 5, 7⟩ : Point3 Int).addInt ⟨1, 1, 1⟩)) = true ↔
      (⟨3, 5, 7⟩ : Point3 Int) = ⟨2, 5, 7⟩) ∧
    (Bounds2.Inside (⟨3, 5⟩ : Point2 Int)
        (Bounds2.ofPoints ⟨2, 4⟩ ((⟨2, 4⟩ : Point2 Int).addInt ⟨1, 1⟩)) = true ↔
      (⟨2, 4⟩ : Point2 Int) ∈ [(⟨3, 5⟩ : Point2 Int), ⟨3 - 1, 5⟩, ⟨3, 5 - 1⟩,
        ⟨3 - 1, 5 - 1⟩]) ∧
    (Bounds3.Inside (⟨3, 5, 7⟩ : Point3 Int)
        (Bounds3.ofPoints ⟨2, 5, 6⟩ ((⟨2, 5, 6⟩ : Point3 Int).addInt ⟨1, 1, 1⟩)) = true ↔
      (⟨2, 5, 6⟩ : Point3 Int) ∈ [(⟨3, 5, 7⟩ : Point3 Int), ⟨3 - 1, 5, 7⟩, ⟨3, 5 - 1, 7⟩,
        ⟨3 - 1, 5 - 1, 7⟩, ⟨3, 5, 7 - 1⟩, ⟨3 - 1, 5, 7 - 1⟩, ⟨3, 5 - 1, 7 - 1⟩,
        ⟨3 - 1, 5 - 1, 7 - 1⟩]) :=
  ⟨C20_unit_boxes_tile_lattice.1 ⟨3, 5⟩ ⟨3, 5⟩ (by decide) (by decide) (by decide),
   C20_unit_boxes_tile_lattice.2.1 ⟨3, 5, 7⟩ ⟨2, 5, 7⟩ (by decide) (by decide) (by decide)
     (by decide),
   C20_unit_boxes_tile_lattice.2.2.1 ⟨3, 5⟩ ⟨2, 4⟩ (by decide) (by decide) (by decide),
   C20_unit_boxes_tile_lattice.2.2.2 ⟨3, 5, 7⟩ ⟨2, 5, 6⟩ (by decide) (by decide) (by decide)
     (by decide)⟩

/-- C20 (counterexample): at `q = (INT_MAX, 0)` the sum `q + (1,1)` wraps to
`(INT_MIN, 1)`, the two-point constructor builds the box
`[(INT_MIN, 0), (INT_MAX, 1)]`, and `InsideExclusive(q, .)` is false although
`p == q`; the same on the `y` axis and, in 3D, on the `z` axis. -/
theorem C20_unit_box_wraps_at_INT_MAX :
    (⟨INT_MAX, 0⟩ : Point2 Int).addInt ⟨1, 1⟩ = ⟨INT_MIN, 1⟩ ∧
    Bounds2.InsideExclusive (⟨INT_MAX, 0⟩ : Point2 Int)
      (Bounds2.ofPoints ⟨INT_MAX, 0⟩ ((⟨INT_MAX, 0⟩ : Point2 Int).addInt ⟨1, 1⟩)) = false ∧
    Bounds2.InsideExclusive (⟨0, INT_MAX⟩ : Point2 Int)
      (Bounds2.ofPoints ⟨0, INT_MAX⟩ ((⟨0, INT_MAX⟩ : Point2 Int).addInt ⟨1, 1⟩)) = false ∧
    Bounds3.InsideExclusive (⟨0, 0, INT_MAX⟩ : Point3 Int)
      (Bounds3.ofPoints ⟨0, 0, INT_MAX⟩ ((⟨0, 0, INT_MAX⟩ : Point3 Int).addInt ⟨1, 1, 1⟩))
        = false := by
  refine ⟨by decide, by decide, by decide, by decide⟩

/-! ## Ray differentials -/

theorem rescale_point {α : Type} [CommRing α] (o q : Point3 α) (s t : α) :
    (o.add ((q.sub o).mul s)).sub o = (q.sub o).mul s ∧
    o.add ((q.sub o).mul 1) = q ∧
    o.add (((o.add ((q.sub o).mul s)).sub o).mul t) = o.add ((q.sub o).mul (s * t)) := by
  obtain ⟨o1, o2, o3⟩ := o
  obtain ⟨q1, q2, q3⟩ := q
  simp only [Point3.sub, Point3.add, Vector3.mul, Vector3.mk.injEq, Point3.mk.injEq]
  refine ⟨⟨?_, ?_, ?_⟩, ⟨?_, ?_, ?_⟩, ?_, ?_, ?_⟩ <;> ring

theorem rescale_vector {α : Type} [CommRing α] (d v : Vector3 α) (s t : α) :
    (d.add ((v.sub d).mul s)).sub d = (v.sub d).mul s ∧
    d.add ((v.sub d).mul 1) = v ∧
    d.add (((d.add ((v.sub d).mul s)).sub d).mul t) = d.add ((v.sub d).mul (s * t)) := by
  obtain ⟨d1, d2, d3⟩ := d
  obtain ⟨v1, v2, v3⟩ := v
  simp only [Vector3.sub, Vector3.add, Vector3.mul, Vector3.mk.injEq]
  refine ⟨⟨?_, ?_, ?_⟩, ⟨?_, ?_, ?_⟩, ?_, ?_, ?_⟩ <;> ring

/-- C21: `ScaleDifferentials(s)` rescales the auxiliary rays around the primary
ray by `s`: afterwards `rxOrigin - o == s * (rxOrigin_old - o)`, likewise for
`ryOrigin`, and `rxDirection - d == s * (rxDirection_old - d)`, likewise for
`ryDirection`; hence `ScaleDifferentials(1)` changes nothing and
`ScaleDifferentials(s)` followed by `ScaleDifferentials(t)` equals
`ScaleDifferentials(s * t)` (exact arithmetic). -/
theorem C21_scale_differentials {α : Type} [CommRing α] (r : RayDifferential α) (s t : α) :
    (r.ScaleDifferentials s).rxOrigin.sub (r.ScaleDifferentials s).o
        = (r.rxOrigin.sub r.o).mul s ∧
    (r.ScaleDifferentials s).ryOrigin.sub (r.ScaleDifferentials s).o
        = (r.ryOrigin.sub r.o).mul s ∧
    (r.ScaleDifferentials s).rxDirection.sub (r.ScaleDifferentials s).d
        = (r.rxDirection.sub r.d).mul s ∧
    (r.ScaleDifferentials s).ryDirection.sub (r.ScaleDifferentials s).d
        = (r.ryDirection.sub r.d).mul s ∧
    r.ScaleDifferentials 1 = r ∧
    (r.ScaleDifferentials s).ScaleDifferentials t = r.ScaleDifferentials (s * t) := by
  obtain ⟨⟨o, d, tMax, time, medium⟩, flag, rxo, ryo, rxd, ryd⟩ := r
  simp only [RayDifferential.ScaleDifferentials]
  refine ⟨(rescale_point o rxo s t).1, (rescale_point o ryo s t).1,
    (rescale_vector d rxd s t).1, (rescale_vector d ryd s t).1, ?_, ?_⟩
  · rw [(rescale_point o rxo s t).2.1, (rescale_point o ryo s t).2.1,
      (rescale_vector d rxd s t).2.1, (rescale_vector d ryd s t).2.1]
  · rw [(rescale_point o rxo s t).2.2, (rescale_point o ryo s t).2.2,
      (rescale_vector d rxd s t).2.2, (rescale_vector d ryd s t).2.2]

/-- C29: `ScaleDifferentials(s)` modifies only `rxOrigin`, `ryOrigin`,
`rxDirection` and `ryDirection`: the fields `o`, `d`, `tMax`, `time`, `medium`
and `hasDifferentials` are unchanged. -/
theorem C29_scale_differentials_frame {α : Type} [Add α] [Sub α] [Mul α]
    (r : RayDifferential α) (s : α) :
    (r.ScaleDifferentials s).o = r.o ∧ (r.ScaleDifferentials s).d = r.d ∧
    (r.ScaleDifferentials s).tMax = r.tMax ∧ (r.ScaleDifferentials s).time = r.time ∧
    (r.ScaleDifferentials s).medium = r.medium ∧
    (r.ScaleDifferentials s).hasDifferentials = r.hasDifferentials :=
  ⟨rfl, rfl, rfl, rfl, rfl, rfl⟩

/-- C22 (amended): `ScaleDifferentials(s)` does not test `hasDifferentials`.
Whatever the flag, also when it is false, it assigns
`rxOrigin = o + (rxOrigin - o) * s`, `ryOrigin = o + (ryOrigin - o) * s`,
`rxDirection = d + (rxDirection - d) * s` and
`ryDirection = d + (ryDirection - d) * s`, and leaves every other field, the
flag included, as it was; setting the flag commutes with the call.  The
statement holds in any arithmetic (no property of `+`, `-`, `*` is used). -/
theorem C22_scale_differentials_ignores_flag {α : Type} [Add α] [Sub α] [Mul α]
    (r : RayDifferential α) (s : α) :
    (∀ flag : Bool, ({ r with hasDifferentials := flag }).ScaleDifferentials s =
        { r.ScaleDifferentials s with hasDifferentials := flag }) ∧
    (∀ flag : Bool, ({ r with hasDifferentials := flag }).ScaleDifferentials s =
        { r with
          hasDifferentials := flag
          rxOrigin := r.o.add ((r.rxOrigin.sub r.o).mul s)
          ryOrigin := r.o.add ((r.ryOrigin.sub r.o).mul s)
          rxDirection := r.d.add ((r.rxDirection.sub r.d).mul s)
          ryDirection := r.d.add ((r.ryDirection.sub r.d).mul s) }) :=
  ⟨fun _ => rfl, fun _ => rfl⟩

/-- C22 (counterexample): the ray differential built by
`RayDifferential((1,0,0), (0,0,1), 10)` has `hasDifferentials == false` and zero
auxiliary members; `ScaleDifferentials(2)` changes `rxOrigin` from `(0,0,0)` to
`(-1,0,0)` and `rxDirection` from `(0,0,0)` to `(0,0,-1)`. -/
theorem C22_scale_differentials_unset_flag_changes :
    (RayDifferential.ctor (⟨1, 0, 0⟩ : Point3 ℚ) ⟨0, 0, 1⟩ 10 0 none).hasDifferentials
      = false ∧
    (RayDifferential.ctor (⟨1, 0, 0⟩ : Point3 ℚ) ⟨0, 0, 1⟩ 10 0 none).rxOrigin = ⟨0, 0, 0⟩ ∧
    ((RayDifferential.ctor (⟨1, 0, 0⟩ : Point3 ℚ) ⟨0, 0, 1⟩ 10 0 none).ScaleDifferentials
      2).rxOrigin = ⟨-1, 0, 0⟩ ∧
    ((RayDifferential.ctor (⟨1, 0, 0⟩ : Point3 ℚ) ⟨0, 0, 1⟩ 10 0 none).ScaleDifferentials
      2).rxDirection = ⟨0, 0, -1⟩ := by
  refine ⟨rfl, rfl, ?_, ?_⟩ <;>
    norm_num [RayDifferential.ctor, RayDifferential.ScaleDifferentials, Point3.add,
      Point3.sub, Vector3.add, Vector3.sub, Vector3.mul]

/-! ## Cross product -/

/-- C30: for all `Vector3` `a` and `b`, `Cross(a, b)` is orthogonal to both
arguments and antisymmetric: `Dot(Cross(a, b), a) == 0`,
`Dot(Cross(a, b), b) == 0` and `Cross(a, b) == -Cross(b, a)` (exact
arithmetic). -/
theorem C30_cross_orthogonal_antisymmetric {α : Type} [CommRing α] (a b : Vector3 α) :
    Vector3.Dot (Vector3.Cross a b) a = 0 ∧ Vector3.Dot (Vector3.Cross a b) b = 0 ∧
    Vector3.Cross a b = (Vector3.Cross b a).neg := by
  simp only [Vector3.Dot, Vector3.Cross, Vector3.neg, Vector3.mk.injEq]
  refine ⟨?_, ?_, ?_, ?_, ?_⟩ <;> ring

/-! ## Distance to a box, intersection of boxes, reported hit interval -/

/-- C26: `Intersect` computes the set intersection of closed boxes.  For all
bounds `b1`, `b2` and every point `p`, `Inside(p, Intersect(b1, b2))` holds if
and only if `Inside(p, b1)` and `Inside(p, b2)` both hold, for `Bounds3` and
for `Bounds2`, whatever the validity of the inputs. -/
theorem C26_intersect_is_set_intersection {α : Type} [LinearOrder α] :
    (∀ (b1 b2 : Bounds3 α) (p : Point3 α),
        Bounds3.Inside p (Bounds3.Intersect b1 b2) = true ↔
          (Bounds3.Inside p b1 = true ∧ Bounds3.Inside p b2 = true)) ∧
    (∀ (b1 b2 : Bounds2 α) (p : Point2 α),
        Bounds2.Inside p (Bounds2.Intersect b1 b2) = true ↔
          (Bounds2.Inside p b1 = true ∧ Bounds2.Inside p b2 = true)) := by
  constructor
  · intro b1 b2 p
    simp only [Bounds3_Inside_iff, Bounds3.Intersect, Point3.Min, Point3.Max, stdMin_eq_min,
      stdMax_eq_max, max_le_iff, le_min_iff]
    tauto
  · intro b1 b2 p
    simp only [Bounds2_Inside_iff, Bounds2.Intersect, Point2.Min, Point2.Max, stdMin_eq_min,
      stdMax_eq_max, max_le_iff, le_min_iff]
    tauto

/-- C27: whenever the general-form `IntersectP` returns true, the values stored
to `*hitt0` and `*hitt1` satisfy `0 ≤ *hitt0 ≤ *hitt1 ≤ ray.tMax`; whenever it
returns false, `*hitt0` and `*hitt1` are left as they were; and the ray, in
particular `ray.tMax`, is unchanged in both cases. -/
theorem C27_reported_hit_interval {α : Type} [LinearOrderedField α] (gamma : Nat → α)
    (b : Bounds3 α) (ray : Ray α) (hitt0 hitt1 : Option α) :
    ((Bounds3.IntersectPOut gamma b ray hitt0 hitt1).1 = true →
      ∃ t0 t1, Bounds3.IntersectP gamma b ray = some (t0, t1) ∧
        Bounds3.IntersectPOut gamma b ray hitt0 hitt1 =
          (true, hitt0.map (fun _ => t0), hitt1.map (fun _ => t1), ray) ∧
        0 ≤ t0 ∧ t0 ≤ t1 ∧ t1 ≤ ray.tMax) ∧
    ((Bounds3.IntersectPOut gamma b ray hitt0 hitt1).1 = false →
      Bounds3.IntersectPOut gamma b ray hitt0 hitt1 = (false, hitt0, hitt1, ray)) ∧
    (Bounds3.IntersectPOut gamma b ray hitt0 hitt1).2.2.2 = ray := by
  unfold Bounds3.IntersectPOut
  rw [IntersectP_eq]
  split_ifs with h
  · refine ⟨fun _ => ⟨_, _, rfl, rfl, ?_, h, ?_⟩, fun hf => ?_, rfl⟩
    · exact le_trans (le_trans (le_max_left _ _) (le_max_left _ _)) (le_max_left _ _)
    · exact le_trans (min_le_left _ _) (le_trans (min_le_left _ _) (min_le_left _ _))
    · exact absurd hf (by simp)
  · refine ⟨fun ht => ?_, fun _ => rfl, rfl⟩
    exact absurd ht (by simp)

/-- Witness for C27: the ray from the origin along `(1,1,1)` with `tMax = 10`
against `[(-1,-1,-1), (1,1,1)]`, with a cell for `*hitt0` and a cell for
`*hitt1`; and, for the miss, the same ray against `[(2,2,2), (3,3,3)]` with
`tMax = 1`. -/
theorem C27_reported_hit_interval_witness :
    (∃ t0 t1 : ℚ, Bounds3.IntersectP gammaSingle (⟨⟨-1, -1, -1⟩, ⟨1, 1, 1⟩⟩ : Bounds3 ℚ)
        ⟨⟨0, 0, 0⟩, ⟨1, 1, 1⟩, 10, 0, none⟩ = some (t0, t1) ∧
      Bounds3.IntersectPOut gammaSingle (⟨⟨-1, -1, -1⟩, ⟨1, 1, 1⟩⟩ : Bounds3 ℚ)
        ⟨⟨0, 0, 0⟩, ⟨1, 1, 1⟩, 10, 0, none⟩ (some 7) (some 7) =
          (true, (some (7 : ℚ)).map (fun _ => t0), (some (7 : ℚ)).map (fun _ => t1),
            ⟨⟨0, 0, 0⟩, ⟨1, 1, 1⟩, 10, 0, none⟩) ∧
      0 ≤ t0 ∧ t0 ≤ t1 ∧ t1 ≤ 10) ∧
    Bounds3.IntersectPOut gammaSingle (⟨⟨2, 2, 2⟩, ⟨3, 3, 3⟩⟩ : Bounds3 ℚ)
        ⟨⟨0, 0, 0⟩, ⟨1, 1, 1⟩, 1, 0, none⟩ (some 7) (some 7) =
      (false, some 7, some 7, ⟨⟨0, 0, 0⟩, ⟨1, 1, 1⟩, 1, 0, none⟩) :=
  ⟨(C27_reported_hit_interval gammaSingle ⟨⟨-1, -1, -1⟩, ⟨1, 1, 1⟩⟩
      ⟨⟨0, 0, 0⟩, ⟨1, 1, 1⟩, 10, 0, none⟩ (some 7) (some 7)).1
      (by norm_num [Bounds3.IntersectPOut, Bounds3.IntersectP, Bounds3.IntersectPSlab,
        gammaSingle, Vector3.get, Point3.get]),
   (C27_reported_hit_interval gammaSingle ⟨⟨2, 2, 2⟩, ⟨3, 3, 3⟩⟩
      ⟨⟨0, 0, 0⟩, ⟨1, 1, 1⟩, 1, 0, none⟩ (some 7) (some 7)).2.1
      (by norm_num [Bounds3.IntersectPOut, Bounds3.IntersectP, Bounds3.IntersectPSlab,
        gammaSingle, Vector3.get, Point3.get])⟩

/-! ## Bounding sphere -/

theorem Point3_div_of_ne_zero {α : Type} [LinearOrderedField α] (checked : Bool)
    (p : Point3 α) (f : α) (hf : f ≠ 0) :
    p.div checked f = Except.ok ⟨1 / f * p.x, 1 / f * p.y, 1 / f * p.z⟩ := by
  simp [Point3.div, Point3.ctor, CHECK_NE, DCHECK, Point3.HasNaNs, isNaN, hf, bind,
    Except.bind, pure, Except.pure]

/-- The value of `BoundingSphere`: the division by 2 passes its check; the
centre is the midpoint of the corners. -/
theorem BoundingSphere_eq {α : Type} [LinearOrderedField α] (sqrt : α → α) (checked : Bool)
    (b : Bounds3 α) :
    b.BoundingSphere sqrt checked = Except.ok
      ((⟨1 / 2 * (b.pMin.x + b.pMax.x), 1 / 2 * (b.pMin.y + b.pMax.y),
          1 / 2 * (b.pMin.z + b.pMax.z)⟩ : Point3 α),
        if Bounds3.Inside (⟨1 / 2 * (b.pMin.x + b.pMax.x), 1 / 2 * (b.pMin.y + b.pMax.y),
            1 / 2 * (b.pMin.z + b.pMax.z)⟩ : Point3 α) b = true then
          Point3.Distance sqrt (⟨1 / 2 * (b.pMin.x + b.pMax.x),
            1 / 2 * (b.pMin.y + b.pMax.y), 1 / 2 * (b.pMin.z + b.pMax.z)⟩ : Point3 α) b.pMax
        else 0) := by
  unfold Bounds3.BoundingSphere
  rw [Point3_div_of_ne_zero checked _ 2 two_ne_zero]
  rfl

theorem midpoint_inside_iff {α : Type} [LinearOrderedField α] (b : Bounds3 α) :
    Bounds3.Inside (⟨1 / 2 * (b.pMin.x + b.pMax.x), 1 / 2 * (b.pMin.y + b.pMax.y),
      1 / 2 * (b.pMin.z + b.pMax.z)⟩ : Point3 α) b = true ↔ b.Valid := by
  rw [Bounds3_Inside_iff]
  unfold Bounds3.Valid
  simp only
  constructor
  · rintro ⟨⟨h1, h2⟩, ⟨h3, h4⟩, h5, h6⟩
    exact ⟨by linarith, by linarith, by linarith⟩
  · rintro ⟨h1, h2, h3⟩
    exact ⟨⟨by linarith, by linarith⟩, ⟨by linarith, by linarith⟩, by linarith, by linarith⟩

/-- On one axis, a coordinate of the closed interval is no farther from the
midpoint than the upper end. -/
theorem axis_mid_le {α : Type} [LinearOrderedField α] (lo hi x : α) (h1 : lo ≤ x)
    (h2 : x ≤ hi) :
    (1 / 2 * (lo + hi) - x) * (1 / 2 * (lo + hi) - x) ≤
      (1 / 2 * (lo + hi) - hi) * (1 / 2 * (lo + hi) - hi) := by
  nlinarith [mul_nonneg (sub_nonneg.mpr h1) (sub_nonneg.mpr h2)]

/-- On one axis, the squared half-width is bounded by the squared distances of
any coordinate `c` to the two ends. -/
theorem axis_half_width_le {α : Type} [LinearOrderedField α] (lo hi c : α) :
    2 * ((1 / 2 * (lo + hi) - hi) * (1 / 2 * (lo + hi) - hi)) ≤
      (c - lo) * (c - lo) + (c - hi) * (c - hi) := by
  nlinarith [mul_self_nonneg (c - lo + (c - hi))]

theorem corner_inside_of_valid {α : Type} [LinearOrder α] (b : Bounds3 α) (hb : b.Valid)
    (i : Int) : Bounds3.Inside (b.Corner i) b = true := by
  obtain ⟨hx, hy, hz⟩ := hb
  rw [Bounds3_Inside_iff]
  unfold Bounds3.Corner Bounds3.get
  simp only
  split_ifs <;> simp [hx, hy, hz]

/-- The squared radius reported for a valid box is the squared distance from
the midpoint to `pMax`; every point of the box is within it, and it is at most
`R * R` for every sphere `(c, R)` holding `pMin` and `pMax`. -/
theorem bounding_radius_facts {α : Type} [LinearOrderedField α] (sqrt : α → α)
    (hsqrt : ∀ x, 0 ≤ x → sqrt x * sqrt x = x) (checked : Bool) (b : Bounds3 α)
    (hb : b.Valid) :
    ∃ center radius, b.BoundingSphere sqrt checked = Except.ok (center, radius) ∧
      (∀ p : Point3 α, Bounds3.Inside p b = true →
        Point3.DistanceSquared center p ≤ radius * radius) ∧
      (∀ (c : Point3 α) (R : α), 0 ≤ R → Point3.DistanceSquared c b.pMin ≤ R * R →
        Point3.DistanceSquared c b.pMax ≤ R * R → radius ≤ R) := by
  refine ⟨_, _, BoundingSphere_eq sqrt checked b, ?_, ?_⟩
  · intro p hp
    rw [if_pos ((midpoint_inside_iff b).mpr hb)]
    rw [Bounds3_Inside_iff] at hp
    obtain ⟨⟨x1, x2⟩, ⟨y1, y2⟩, z1, z2⟩ := hp
    have hL : 0 ≤ Vector3.LengthSquared ((⟨1 / 2 * (b.pMin.x + b.pMax.x),
        1 / 2 * (b.pMin.y + b.pMax.y), 1 / 2 * (b.pMin.z + b.pMax.z)⟩ : Point3 α).sub
          b.pMax) :=
      add_nonneg (add_nonneg (mul_self_nonneg _) (mul_self_nonneg _)) (mul_self_nonneg _)
    unfold Point3.Distance Vector3.Length
    rw [hsqrt _ hL]
    simp only [Point3.DistanceSquared, Vector3.LengthSquared, Point3.sub]
    have ex := axis_mid_le b.pMin.x b.pMax.x p.x x1 x2
    have ey := axis_mid_le b.pMin.y b.pMax.y p.y y1 y2
    have ez := axis_mid_le b.pMin.z b.pMax.z p.z z1 z2
    linarith
  · intro c R hR h0 h7
    rw [if_pos ((midpoint_inside_iff b).mpr hb)]
    have hL : 0 ≤ Vector3.LengthSquared ((⟨1 / 2 * (b.pMin.x + b.pMax.x),
        1 / 2 * (b.pMin.y + b.pMax.y), 1 / 2 * (b.pMin.z + b.pMax.z)⟩ : Point3 α).sub
          b.pMax) :=
      add_nonneg (add_nonneg (mul_self_nonneg _) (mul_self_nonneg _)) (mul_self_nonneg _)
    have hs := hsqrt _ hL
    unfold Point3.Distance Vector3.Length
    generalize sqrt _ = rad at hs ⊢
    simp only [Point3.DistanceSquared, Vector3.LengthSquared, Point3.sub] at hs h0 h7
    have ex := axis_half_width_le b.pMin.x b.pMax.x c.x
    have ey := axis_half_width_le b.pMin.y b.pMax.y c.y
    have ez := axis_half_width_le b.pMin.z b.pMax.z c.z
    have hle : rad * rad ≤ R * R := by linarith
    by_contra hlt
    have hlt2 : R < rad := not_le.mp hlt
    have : R * R < rad * rad := mul_self_lt_mul_self hR hlt2
    linarith

/-- C28: for every valid `Bounds3` `b` the sphere returned by `BoundingSphere`
encloses the box: every point `p` with `Inside(p, b)` satisfies
`DistanceSquared(center, p) ≤ radius²`; and for every box that is invalid on
some axis the radius is 0 (exact arithmetic with an exact square root). -/
theorem C28_bounding_sphere_encloses {α : Type} [LinearOrderedField α] (sqrt : α → α)
    (hsqrt : ∀ x, 0 ≤ x → sqrt x * sqrt x = x) (checked : Bool) (b : Bounds3 α) :
    (b.Valid → ∃ center radius, b.BoundingSphere sqrt checked = Except.ok (center, radius) ∧
      ∀ p : Point3 α, Bounds3.Inside p b = true →
        Point3.DistanceSquared center p ≤ radius * radius) ∧
    (¬ b.Valid → ∃ center, b.BoundingSphere sqrt checked = Except.ok (center, 0)) := by
  constructor
  · intro hb
    obtain ⟨center, radius, h1, h2, _⟩ := bounding_radius_facts sqrt hsqrt checked b hb
    exact ⟨center, radius, h1, h2⟩
  · intro hb
    have h := BoundingSphere_eq sqrt checked b
    rw [if_neg (fun h => hb ((midpoint_inside_iff b).mp h))] at h
    exact ⟨_, h⟩

/-- Witness for C28 over `ℝ` with the real square root: the valid box
`[(0,0,0), (6,8,0)]` and the box `[(1,0,0), (0,0,0)]`, invalid on `x`. -/
theorem C28_bounding_sphere_encloses_witness :
    (∃ center radius, (⟨⟨0, 0, 0⟩, ⟨6, 8, 0⟩⟩ : Bounds3 ℝ).BoundingSphere Real.sqrt true
        = Except.ok (center, radius) ∧
      ∀ p : Point3 ℝ, Bounds3.Inside p ⟨⟨0, 0, 0⟩, ⟨6, 8, 0⟩⟩ = true →
        Point3.DistanceSquared center p ≤ radius * radius) ∧
    (∃ center, (⟨⟨1, 0, 0⟩, ⟨0, 0, 0⟩⟩ : Bounds3 ℝ).BoundingSphere Real.sqrt true
        = Except.ok (center, 0)) :=
  ⟨(C28_bounding_sphere_encloses Real.sqrt (fun _ hx => Real.mul_self_sqrt hx) true
      ⟨⟨0, 0, 0⟩, ⟨6, 8, 0⟩⟩).1 (by norm_num [Bounds3.Valid]),
   (C28_bounding_sphere_encloses Real.sqrt (fun _ hx => Real.mul_self_sqrt hx) true
      ⟨⟨1, 0, 0⟩, ⟨0, 0, 0⟩⟩).2 (by norm_num [Bounds3.Valid])⟩

/-- C23 (amended): for every valid box the radius `BoundingSphere` reports is
the radius of the smallest sphere containing the 8 corners: the reported sphere
contains every corner, and every sphere `(c, R)` containing the 8 corners has
`R ≥` the reported radius (containment as `DistanceSquared ≤ R²`, exact
arithmetic with an exact square root). -/
theorem C23_bounding_sphere_is_minimal {α : Type} [LinearOrderedField α] (sqrt : α → α)
    (hsqrt : ∀ x, 0 ≤ x → sqrt x * sqrt x = x) (checked : Bool) (b : Bounds3 α)
    (hb : b.Valid) :
    ∃ center radius, b.BoundingSphere sqrt checked = Except.ok (center, radius) ∧
      (∀ i : Int, 0 ≤ i → i < 8 →
        Point3.DistanceSquared center (b.Corner i) ≤ radius * radius) ∧
      (∀ (c : Point3 α) (R : α), 0 ≤ R →
        (∀ i : Int, 0 ≤ i → i < 8 → Point3.DistanceSquared c (b.Corner i) ≤ R * R) →
        radius ≤ R) := by
  obtain ⟨center, radius, h1, h2, h3⟩ := bounding_radius_facts sqrt hsqrt checked b hb
  refine ⟨center, radius, h1, fun i _ _ => h2 _ (corner_inside_of_valid b hb i), ?_⟩
  intro c R hR hc
  exact h3 c R hR (hc 0 (by decide) (by decide)) (hc 7 (by decide) (by decide))

/-- Witness for C23 (amended) over `ℝ` with the real square root, at the box
`[(0,0,0), (100,1,1)]`, far from cubic. -/
theorem C23_bounding_sphere_is_minimal_witness :
    ∃ center radius, (⟨⟨0, 0, 0⟩, ⟨100, 1, 1⟩⟩ : Bounds3 ℝ).BoundingSphere Real.sqrt true
        = Except.ok (center, radius) ∧
      (∀ i : Int, 0 ≤ i → i < 8 →
        Point3.DistanceSquared center
          ((⟨⟨0, 0, 0⟩, ⟨100, 1, 1⟩⟩ : Bounds3 ℝ).Corner i) ≤ radius * radius) ∧
      (∀ (c : Point3 ℝ) (R : ℝ), 0 ≤ R →
        (∀ i : Int, 0 ≤ i → i < 8 → Point3.DistanceSquared c
          ((⟨⟨0, 0, 0⟩, ⟨100, 1, 1⟩⟩ : Bounds3 ℝ).Corner i) ≤ R * R) →
        radius ≤ R) :=
  C23_bounding_sphere_is_minimal Real.sqrt (fun _ hx => Real.mul_self_sqrt hx) true
    ⟨⟨0, 0, 0⟩, ⟨100, 1, 1⟩⟩ (by norm_num [Bounds3.Valid])

/-- C23 (counterexample): no valid box has a sphere `(c, R)` that contains its 8
corners and is strictly smaller than the sphere `BoundingSphere` reports (exact
real arithmetic). -/
theorem C23_no_smaller_enclosing_sphere :
    ¬ ∃ b : Bounds3 ℝ, b.Valid ∧ ∃ (c : Point3 ℝ) (R : ℝ), 0 ≤ R ∧
      (∀ i : Int, 0 ≤ i → i < 8 → Point3.DistanceSquared c (b.Corner i) ≤ R * R) ∧
      ∃ center radius, b.BoundingSphere Real.sqrt true = Except.ok (center, radius) ∧
        R < radius := by
  rintro ⟨b, hb, c, R, hR, hc, center, radius, he, hlt⟩
  obtain ⟨center2, radius2, h1, _, h3⟩ :=
    bounding_radius_facts Real.sqrt (fun _ hx => Real.mul_self_sqrt hx) true b hb
  rw [h1] at he
  simp only [Except.ok.injEq, Prod.mk.injEq] at he
  have hle := h3 c R hR (hc 0 (by decide) (by decide)) (hc 7 (by decide) (by decide))
  rw [he.2] at hle
  exact absurd hlt (not_lt.mpr hle)

/-! ## OffsetRayOrigin -/

/-- The rounding loop of `OffsetRayOrigin` acts on each axis separately: the
component is rounded up, rounded down or kept according to the sign of the
offset on that axis. -/
theorem offset_rounds_components {α : Type} [LinearOrderedRing α] (up down : α → α)
    (off : Vector3 α) (po : Point3 α) :
    OffsetRayOriginRound up down off 2
        (OffsetRayOriginRound up down off 1 (OffsetRayOriginRound up down off 0 po)) =
      ⟨if off.x > 0 then up po.x else if off.x < 0 then down po.x else po.x,
       if off.y > 0 then up po.y else if off.y < 0 then down po.y else po.y,
       if off.z > 0 then up po.z else if off.z < 0 then down po.z else po.z⟩ := by
  obtain ⟨ox, oy, oz⟩ := off
  obtain ⟨px, py, pz⟩ := po
  have e20 : ¬ ((2 : Int) = 0) := by decide
  have e21 : ¬ ((2 : Int) = 1) := by decide
  simp only [OffsetRayOriginRound, Vector3.get, Point3.get, Point3.set, if_true, one_ne_zero,
    if_false, e20, e21]
  split_ifs <;> rfl

/-- C24: `OffsetRayOrigin` rounds every component strictly away from the offset
point in the direction of the offset.  With `offset` the local offset vector
(`Dot(Abs(n), pError) * n`, negated when `Dot(w, n) < 0`), for each axis `i`
the result satisfies `result[i] > p[i] + offset[i]` when `offset[i] > 0`,
`result[i] < p[i] + offset[i]` when `offset[i] < 0`, and `result[i] == p[i]`
when `offset[i] == 0`, given `NextFloatUp(x) > x` and `NextFloatDown(x) < x`. -/
theorem C24_offset_ray_origin_rounds_away {α : Type} [LinearOrderedRing α]
    (floatAsDouble : Bool) (NextFloatUp NextFloatDown : α → α)
    (hup : ∀ x, x < NextFloatUp x) (hdown : ∀ x, NextFloatDown x < x)
    (p : Point3 α) (pError : Vector3 α) (n : Normal3 α) (w : Vector3 α) :
    (OffsetRayOriginOffset false pError n w =
        if w.DotNormal n < 0 then ((Vector3.ofNormal n).mul ((Normal3.Abs n).Dot pError)).neg
        else (Vector3.ofNormal n).mul ((Normal3.Abs n).Dot pError)) ∧
    ∀ i : Int, i = 0 ∨ i = 1 ∨ i = 2 →
      (0 < (OffsetRayOriginOffset floatAsDouble pError n w).get i →
        p.get i + (OffsetRayOriginOffset floatAsDouble pError n w).get i <
          (OffsetRayOrigin floatAsDouble NextFloatUp NextFloatDown p pError n w).get i) ∧
      ((OffsetRayOriginOffset floatAsDouble pError n w).get i < 0 →
        (OffsetRayOrigin floatAsDouble NextFloatUp NextFloatDown p pError n w).get i <
          p.get i + (OffsetRayOriginOffset floatAsDouble pError n w).get i) ∧
      ((OffsetRayOriginOffset floatAsDouble pError n w).get i = 0 →
        (OffsetRayOrigin floatAsDouble NextFloatUp NextFloatDown p pError n w).get i =
          p.get i) := by
  refine ⟨rfl, ?_⟩
  intro i hi
  unfold OffsetRayOrigin
  simp only [offset_rounds_components]
  generalize OffsetRayOriginOffset floatAsDouble pError n w = off
  obtain ⟨ox, oy, oz⟩ := off
  obtain ⟨px, py, pz⟩ := p
  have e20 : ¬ ((2 : Int) = 0) := by decide
  have e21 : ¬ ((2 : Int) = 1) := by decide
  rcases hi with rfl | rfl | rfl <;>
    simp only [Vector3.get, Point3.get, Point3.add, if_true, one_ne_zero, if_false, e20, e21,
      gt_iff_lt] <;>
    refine ⟨fun h => ?_, fun h => ?_, fun h => ?_⟩
  all_goals first
    | (rw [if_pos h]; exact hup _)
    | (rw [if_neg (not_lt.mpr h.le), if_pos h]; exact hdown _)
    | (rw [h, if_neg (lt_irrefl _), if_neg (lt_irrefl _), add_zero])

/-- Witness for C24 over `ℚ` with `NextFloatUp(x) = x + 1/100` and
`NextFloatDown(x) = x - 1/100`: `p = 0`, `pError = (1,1,1)`, `n = (0,-1,1)`,
`w = (0,0,1)`, so `offset = (0,-2,2)`; axes 0, 1 and 2. -/
theorem C24_offset_ray_origin_rounds_away_witness :
    (OffsetRayOrigin false (fun x : ℚ => x + 1 / 100) (fun x : ℚ => x - 1 / 100) ⟨0, 0, 0⟩
        ⟨1, 1, 1⟩ ⟨0, -1, 1⟩ ⟨0, 0, 1⟩).get 0 = (⟨0, 0, 0⟩ : Point3 ℚ).get 0 ∧
    (OffsetRayOrigin false (fun x : ℚ => x + 1 / 100) (fun x : ℚ => x - 1 / 100) ⟨0, 0, 0⟩
        ⟨1, 1, 1⟩ ⟨0, -1, 1⟩ ⟨0, 0, 1⟩).get 1 <
      (⟨0, 0, 0⟩ : Point3 ℚ).get 1 +
        (OffsetRayOriginOffset false (⟨1, 1, 1⟩ : Vector3 ℚ) ⟨0, -1, 1⟩ ⟨0, 0, 1⟩).get 1 ∧
    (⟨0, 0, 0⟩ : Point3 ℚ).get 2 +
        (OffsetRayOriginOffset false (⟨1, 1, 1⟩ : Vector3 ℚ) ⟨0, -1, 1⟩ ⟨0, 0, 1⟩).get 2 <
      (OffsetRayOrigin false (fun x : ℚ => x + 1 / 100) (fun x : ℚ => x - 1 / 100) ⟨0, 0, 0⟩
        ⟨1, 1, 1⟩ ⟨0, -1, 1⟩ ⟨0, 0, 1⟩).get 2 :=
  ⟨((C24_offset_ray_origin_rounds_away false (fun x : ℚ => x + 1 / 100)
      (fun x : ℚ => x - 1 / 100) (fun x => by linarith) (fun x => by linarith) ⟨0, 0, 0⟩
      ⟨1, 1, 1⟩ ⟨0, -1, 1⟩ ⟨0, 0, 1⟩).2 0 (Or.inl rfl)).2.2
      (by norm_num [OffsetRayOriginOffset, Vector3.get, Vector3.mul, Vector3.ofNormal,
        Vector3.neg, Normal3.Abs, Normal3.Dot, Vector3.DotNormal]),
   ((C24_offset_ray_origin_rounds_away false (fun x : ℚ => x + 1 / 100)
      (fun x : ℚ => x - 1 / 100) (fun x => by linarith) (fun x => by linarith) ⟨0, 0, 0⟩
      ⟨1, 1, 1⟩ ⟨0, -1, 1⟩ ⟨0, 0, 1⟩).2 1 (Or.inr (Or.inl rfl))).2.1
      (by norm_num [OffsetRayOriginOffset, Vector3.get, Vector3.mul, Vector3.ofNormal,
        Vector3.neg, Normal3.Abs, Normal3.Dot, Vector3.DotNormal]),
   ((C24_offset_ray_origin_rounds_away false (fun x : ℚ => x + 1 / 100)
      (fun x : ℚ => x - 1 / 100) (fun x => by linarith) (fun x => by linarith) ⟨0, 0, 0⟩
      ⟨1, 1, 1⟩ ⟨0, -1, 1⟩ ⟨0, 0, 1⟩).2 2 (Or.inr (Or.inr rfl))).1
      (by norm_num [OffsetRayOriginOffset, Vector3.get, Vector3.mul, Vector3.ofNormal,
        Vector3.neg, Normal3.Abs, Normal3.Dot, Vector3.DotNormal])⟩

/-! ## Faceforward -/

theorem Vector3_ctor_ok {α : Type} [LinearOrder α] (checked : Bool) (x y z : α) :
    Vector3.ctor checked x y z = Except.ok ⟨x, y, z⟩ := by
  simp [Vector3.ctor, DCHECK, Vector3.HasNaNs, isNaN, HasNaN.isNaN, bind, Except.bind, pure,
    Except.pure]

theorem Vector3_div_zero {α : Type} [LinearOrderedField α] (checked : Bool) (v : Vector3 α) :
    v.div checked 0 = Except.error Abort.check := by
  simp [Vector3.div, CHECK_NE, bind, Except.bind]

theorem sqrt_ne_zero_of_pos {α : Type} [LinearOrderedField α] (sqrt : α → α)
    (hsqrt : ∀ x, 0 ≤ x → sqrt x * sqrt x = x) (x : α) (hx : 0 < x) : sqrt x ≠ 0 := by
  intro h0
  have hs := hsqrt x hx.le
  rw [h0, mul_zero] at hs
  exact absurd hs.symm (ne_of_gt hx)

/-- The divisor of `CoordinateSystem` is non-zero for a non-zero `v1`. -/
theorem coordinate_divisor_ne_zero {α : Type} [LinearOrderedField α] (sqrt : α → α)
    (hsqrt : ∀ x, 0 ≤ x → sqrt x * sqrt x = x) (v1 : Vector3 α) (hv : v1 ≠ Vector3.zero) :
    CoordinateSystemDivisor sqrt v1 ≠ 0 := by
  obtain ⟨x, y, z⟩ := v1
  unfold CoordinateSystemDivisor
  simp only
  by_cases h : abs x > abs y
  · rw [if_pos h]
    have hx : x ≠ 0 := fun h0 => by
      rw [h0, abs_zero] at h
      exact absurd h (not_lt.mpr (abs_nonneg y))
    have : 0 < x * x + z * z := by
      have := mul_self_pos.mpr hx
      have := mul_self_nonneg z
      linarith
    exact sqrt_ne_zero_of_pos sqrt hsqrt _ this
  · rw [if_neg h]
    have hyz : y ≠ 0 ∨ z ≠ 0 := by
      by_contra hc
      push_neg at hc
      obtain ⟨hy, hz⟩ := hc
      have hx : x = 0 := by
        rw [hy, abs_zero] at h
        exact abs_eq_zero.mp (le_antisymm (not_lt.mp h) (abs_nonneg x))
      exact hv (by simp [Vector3.zero, hx, hy, hz])
    have : 0 < y * y + z * z := by
      have hy := mul_self_nonneg y
      have hz := mul_self_nonneg z
      rcases hyz with h1 | h1
      · have := mul_self_pos.mpr h1
        linarith
      · have := mul_self_pos.mpr h1
        linarith
    exact sqrt_ne_zero_of_pos sqrt hsqrt _ this

/-- C32: for every non-zero `Vector3` `v1`, `CoordinateSystem(v1, &v2, &v3)` does
not trigger the fatal division check (the divisor chosen by the
`|x| > |y|` branch is non-zero) and yields `v2` with `Dot(v1, v2) == 0` and
`v3 == Cross(v1, v2)`; for `v1 == 0` the fatal check fires (exact arithmetic
with an exact square root). -/
theorem C32_coordinate_system {α : Type} [LinearOrderedField α] (sqrt : α → α)
    (hsqrt : ∀ x, 0 ≤ x → sqrt x * sqrt x = x) (checked : Bool) :
    (∀ v1 : Vector3 α, v1 ≠ Vector3.zero →
      CoordinateSystemDivisor sqrt v1 ≠ 0 ∧
      ∃ v2 v3, CoordinateSystem sqrt checked v1 = Except.ok (v2, v3) ∧
        Vector3.Dot v1 v2 = 0 ∧ v3 = Vector3.Cross v1 v2) ∧
    CoordinateSystem sqrt checked (Vector3.zero : Vector3 α) = Except.error Abort.check := by
  constructor
  · intro v1 hv
    have hd := coordinate_divisor_ne_zero sqrt hsqrt v1 hv
    refine ⟨hd, ?_⟩
    unfold CoordinateSystemDivisor at hd
    unfold CoordinateSystem
    by_cases h : abs v1.x > abs v1.y
    · rw [if_pos h] at hd ⊢
      rw [Vector3_ctor_ok]
      simp only [Except.bind]
      rw [Vector3_div_of_ne_zero checked _ _ hd]
      refine ⟨_, _, rfl, ?_, rfl⟩
      simp only [Vector3.Dot]
      ring
    · rw [if_neg h] at hd ⊢
      rw [Vector3_ctor_ok]
      simp only [Except.bind]
      rw [Vector3_div_of_ne_zero checked _ _ hd]
      refine ⟨_, _, rfl, ?_, rfl⟩
      simp only [Vector3.Dot]
      ring
  · have h0 : sqrt (0 : α) = 0 := by
      have := hsqrt 0 le_rfl
      exact mul_self_eq_zero.mp this
    unfold CoordinateSystem
    have hlt : ¬ (abs (Vector3.zero : Vector3 α).x > abs (Vector3.zero : Vector3 α).y) := by
      simp [Vector3.zero]
    rw [if_neg hlt, Vector3_ctor_ok]
    simp only [Except.bind, Vector3.zero, mul_zero, add_zero, h0]
    rw [Vector3_div_zero]

/-- Witness for C32 over `ℝ` with the real square root, at `v1 = (3, 0, 4)`. -/
theorem C32_coordinate_system_witness :
    CoordinateSystemDivisor Real.sqrt (⟨3, 0, 4⟩ : Vector3 ℝ) ≠ 0 ∧
      ∃ v2 v3, CoordinateSystem Real.sqrt true (⟨3, 0, 4⟩ : Vector3 ℝ) = Except.ok (v2, v3) ∧
        Vector3.Dot (⟨3, 0, 4⟩ : Vector3 ℝ) v2 = 0 ∧
        v3 = Vector3.Cross (⟨3, 0, 4⟩ : Vector3 ℝ) v2 :=
  (C32_coordinate_system Real.sqrt (fun _ hx => Real.mul_self_sqrt hx) true).1 ⟨3, 0, 4⟩
    (by simp [Vector3.zero])

/-! ## Floating point: rounding -/

/-! ## Rounding -/

theorem roundHalfEven_bounds (y : ℚ) : ⌊y⌋ ≤ roundHalfEven y ∧ roundHalfEven y ≤ ⌊y⌋ + 1 := by
  unfold roundHalfEven
  split_ifs <;> omega

theorem roundHalfEven_mono {y1 y2 : ℚ} (h : y1 ≤ y2) : roundHalfEven y1 ≤ roundHalfEven y2 := by
  have hf : ⌊y1⌋ ≤ ⌊y2⌋ := Int.floor_mono h
  rcases hf.lt_or_eq with hlt | heq
  · have a := (roundHalfEven_bounds y1).2
    have b := (roundHalfEven_bounds y2).1
    omega
  · unfold roundHalfEven
    rw [heq]
    have : y1 - ⌊y2⌋ ≤ y2 - ⌊y2⌋ := by linarith
    split_ifs <;> first | omega | (exfalso; linarith)

theorem roundHalfEven_intCast (n : Int) : roundHalfEven (n : ℚ) = n := by
  simp [roundHalfEven]

theorem two_zpow_pos (k : Int) : (0 : ℚ) < 2 ^ k := zpow_pos (by norm_num) k

/-- A magnitude at most a point `N * 2 ^ quantum` of its own grid rounds to at
most that point. -/
theorem roundMag_le_grid (fmt : FloatFormat) (x : ℚ) (N : Int)
    (h : x ≤ N * 2 ^ fmt.quantum x) : fmt.roundMag x ≤ N * 2 ^ fmt.quantum x := by
  unfold FloatFormat.roundMag
  have hp := two_zpow_pos (fmt.quantum x)
  have h1 : x / 2 ^ fmt.quantum x ≤ (N : ℚ) := (div_le_iff₀ hp).mpr h
  have h2 := roundHalfEven_mono h1
  rw [roundHalfEven_intCast] at h2
  have h3 : ((roundHalfEven (x / 2 ^ fmt.quantum x) : Int) : ℚ) ≤ (N : ℚ) := by exact_mod_cast h2
  exact mul_le_mul_of_nonneg_right h3 hp.le

theorem grid_le_roundMag (fmt : FloatFormat) (x : ℚ) (N : Int)
    (h : N * 2 ^ fmt.quantum x ≤ x) : N * 2 ^ fmt.quantum x ≤ fmt.roundMag x := by
  unfold FloatFormat.roundMag
  have hp := two_zpow_pos (fmt.quantum x)
  have h1 : (N : ℚ) ≤ x / 2 ^ fmt.quantum x := (le_div_iff₀ hp).mpr h
  have h2 := roundHalfEven_mono h1
  rw [roundHalfEven_intCast] at h2
  have h3 : (N : ℚ) ≤ ((roundHalfEven (x / 2 ^ fmt.quantum x) : Int) : ℚ) := by exact_mod_cast h2
  exact mul_le_mul_of_nonneg_right h3 hp.le

theorem roundMag_zero (fmt : FloatFormat) : fmt.roundMag 0 = 0 := by
  simp [FloatFormat.roundMag, roundHalfEven]

theorem roundMag_nonneg (fmt : FloatFormat) {x : ℚ} (h : 0 ≤ x) : 0 ≤ fmt.roundMag x := by
  have := grid_le_roundMag fmt x 0 (by simpa using h)
  simpa using this

/-- A point of the grid at `x` rounds to itself. -/
theorem roundMag_grid (fmt : FloatFormat) (x : ℚ) (N : Int) (h : x = N * 2 ^ fmt.quantum x) :
    fmt.roundMag x = x := by
  apply le_antisymm
  · have := roundMag_le_grid fmt x N h.le
    rwa [← h] at this
  · have := grid_le_roundMag fmt x N h.ge
    rwa [← h] at this

/-- A power of two with an exponent `≥ 0` is an integer. -/
theorem two_zpow_eq_intCast {k : Int} (hk : 0 ≤ k) : (2 : ℚ) ^ k = ((2 ^ k.toNat : Int) : ℚ) := by
  obtain ⟨n, rfl⟩ := Int.eq_ofNat_of_zero_le hk
  simp [zpow_natCast]

/-- A multiple `n * 2 ^ k` of a power of two not below the spacing at it
rounds to itself. -/
theorem roundMag_of_multiple (fmt : FloatFormat) (x : ℚ) (n : Int) (k : Int)
    (hx : x = n * 2 ^ k) (hk : fmt.quantum x ≤ k) : fmt.roundMag x = x := by
  apply roundMag_grid fmt x (n * 2 ^ (k - fmt.quantum x).toNat)
  have h0 : 0 ≤ k - fmt.quantum x := by omega
  have e : (2 : ℚ) ^ k = 2 ^ (k - fmt.quantum x) * 2 ^ fmt.quantum x := by
    rw [← zpow_add₀ (by norm_num : (2 : ℚ) ≠ 0)]
    congr 1
    ring
  rw [two_zpow_eq_intCast h0] at e
  push_cast at e ⊢
  rw [mul_assoc, ← e]
  exact hx

theorem quantum_mono (fmt : FloatFormat) {x y : ℚ} (hx : 0 < x) (h : x ≤ y) :
    fmt.quantum x ≤ fmt.quantum y := by
  unfold FloatFormat.quantum
  have := Int.log_mono_right (b := 2) hx h
  omega

theorem roundMag_mono (fmt : FloatFormat) {x y : ℚ} (hx : 0 ≤ x) (h : x ≤ y) :
    fmt.roundMag x ≤ fmt.roundMag y := by
  rcases hx.lt_or_eq with hpos | h0
  swap
  · rw [← h0, roundMag_zero]
    exact roundMag_nonneg fmt (h0 ▸ h)
  have hq := quantum_mono fmt hpos h
  rcases hq.lt_or_eq with hlt | heq
  · -- different binades: a power of two lies between
    have hy : 0 < y := lt_of_lt_of_le hpos h
    have hlx := Int.lt_zpow_succ_log_self (b := 2) (by norm_num) x
    have hly := Int.zpow_log_le_self (b := 2) (by norm_num) hy
    have hq1 : fmt.quantum x = max (Int.log 2 x) fmt.emin - fmt.mantBits := rfl
    have hq2 : fmt.quantum y = max (Int.log 2 y) fmt.emin - fmt.mantBits := rfl
    have hE : fmt.quantum y = Int.log 2 y - fmt.mantBits := by omega
    have hE2 : Int.log 2 x + 1 ≤ Int.log 2 y := by omega
    have hxE : x ≤ (2 : ℚ) ^ (Int.log 2 y) :=
      le_trans hlx.le (by
        have := zpow_le_zpow_right₀ (by norm_num : (1 : ℚ) ≤ 2) hE2
        simpa using this)
    -- 2 ^ E is a point of both grids
    have g1 : (2 : ℚ) ^ (Int.log 2 y)
        = ((2 ^ (Int.log 2 y - fmt.quantum x).toNat : Int) : ℚ) * 2 ^ fmt.quantum x := by
      rw [← two_zpow_eq_intCast (by omega), ← zpow_add₀ (by norm_num : (2 : ℚ) ≠ 0)]
      congr 1
      ring
    have g2 : (2 : ℚ) ^ (Int.log 2 y)
        = ((2 ^ fmt.mantBits : Int) : ℚ) * 2 ^ fmt.quantum y := by
      rw [hE]
      push_cast
      rw [← zpow_natCast, ← zpow_add₀ (by norm_num : (2 : ℚ) ≠ 0)]
      congr 1
      ring
    have hly2 : (2 : ℚ) ^ (Int.log 2 y) ≤ y := by simpa using hly
    rw [g1] at hxE
    rw [g2] at hly2
    exact le_trans (roundMag_le_grid fmt x _ hxE)
      (le_trans (by rw [← g1, ← g2]) (grid_le_roundMag fmt y _ hly2))
  · unfold FloatFormat.roundMag
    rw [heq]
    have hp := two_zpow_pos (fmt.quantum y)
    have h1 : x / 2 ^ fmt.quantum y ≤ y / 2 ^ fmt.quantum y :=
      div_le_div_of_nonneg_right h hp.le
    have h2 := roundHalfEven_mono h1
    have h3 : ((roundHalfEven (x / 2 ^ fmt.quantum y) : Int) : ℚ)
        ≤ ((roundHalfEven (y / 2 ^ fmt.quantum y) : Int) : ℚ) := by exact_mod_cast h2
    exact mul_le_mul_of_nonneg_right h3 hp.le

theorem roundMag_le_next_binade (fmt : FloatFormat) (x : ℚ) :
    fmt.roundMag x ≤ 2 ^ (max (Int.log 2 x) fmt.emin + 1) := by
  have hlx := Int.lt_zpow_succ_log_self (b := 2) (by norm_num) x
  have h1 : x ≤ (2 : ℚ) ^ (max (Int.log 2 x) fmt.emin + 1) :=
    le_trans hlx.le (by
      have := zpow_le_zpow_right₀ (by norm_num : (1 : ℚ) ≤ 2)
        (show Int.log 2 x + 1 ≤ max (Int.log 2 x) fmt.emin + 1 by omega)
      simpa using this)
  have g : (2 : ℚ) ^ (max (Int.log 2 x) fmt.emin + 1)
      = ((2 ^ (fmt.mantBits + 1) : Int) : ℚ) * 2 ^ fmt.quantum x := by
    unfold FloatFormat.quantum
    push_cast
    rw [← zpow_natCast, ← zpow_add₀ (by norm_num : (2 : ℚ) ≠ 0)]
    congr 1
    push_cast
    ring
  rw [g] at h1 ⊢
  exact roundMag_le_grid fmt x _ h1

theorem roundMag_idem (fmt : FloatFormat) {x : ℚ} (hx : 0 ≤ x) :
    fmt.roundMag (fmt.roundMag x) = fmt.roundMag x := by
  rcases hx.lt_or_eq with hpos | h0
  swap
  · rw [← h0, roundMag_zero, roundMag_zero]
  have hr0 := roundMag_nonneg fmt hx
  rcases hr0.lt_or_eq with hrpos | hr0
  swap
  · rw [← hr0, roundMag_zero]
  have hle := roundMag_le_next_binade fmt x
  rcases hle.lt_or_eq with hlt | heq
  · -- the result stays in the binade: same or finer grid
    have hlog : Int.log 2 (fmt.roundMag x) < max (Int.log 2 x) fmt.emin + 1 :=
      (Int.lt_zpow_iff_log_lt (b := 2) (by norm_num) hrpos).mp (by simpa using hlt)
    have hq : fmt.quantum (fmt.roundMag x) ≤ fmt.quantum x := by
      unfold FloatFormat.quantum
      omega
    exact roundMag_of_multiple fmt _ (roundHalfEven (x / 2 ^ fmt.quantum x)) (fmt.quantum x)
      rfl hq
  · -- the result is the next power of two
    have hlog : Int.log 2 (fmt.roundMag x) = max (Int.log 2 x) fmt.emin + 1 := by
      rw [heq]
      have := Int.log_zpow (R := ℚ) (b := 2) (by norm_num) (max (Int.log 2 x) fmt.emin + 1)
      simpa using this
    apply roundMag_of_multiple fmt _ (2 ^ fmt.mantBits)
      (max (Int.log 2 x) fmt.emin + 1 - fmt.mantBits)
    · rw [heq]
      push_cast
      rw [← zpow_natCast, ← zpow_add₀ (by norm_num : (2 : ℚ) ≠ 0)]
      congr 1
      ring
    · unfold FloatFormat.quantum
      rw [hlog]
      omega

theorem roundRat_zero (fmt : FloatFormat) : fmt.roundRat 0 = 0 := by
  simp [FloatFormat.roundRat, roundMag_zero]

theorem roundRat_nonneg (fmt : FloatFormat) {x : ℚ} (h : 0 ≤ x) : 0 ≤ fmt.roundRat x := by
  unfold FloatFormat.roundRat
  rw [if_neg (not_lt.mpr h)]
  exact roundMag_nonneg fmt h

theorem roundRat_nonpos (fmt : FloatFormat) {x : ℚ} (h : x ≤ 0) : fmt.roundRat x ≤ 0 := by
  unfold FloatFormat.roundRat
  split_ifs with h1
  · have := roundMag_nonneg fmt (x := -x) (by linarith)
    linarith
  · have : x = 0 := le_antisymm h (not_lt.mp h1)
    rw [this, roundMag_zero]

theorem roundRat_mono (fmt : FloatFormat) {x y : ℚ} (h : x ≤ y) :
    fmt.roundRat x ≤ fmt.roundRat y := by
  rcases lt_or_le x 0 with hx | hx
  · rcases lt_or_le y 0 with hy | hy
    · unfold FloatFormat.roundRat
      rw [if_pos hx, if_pos hy]
      have := roundMag_mono fmt (x := -y) (y := -x) (by linarith) (by linarith)
      linarith
    · exact le_trans (roundRat_nonpos fmt hx.le) (roundRat_nonneg fmt hy)
  · have hy : 0 ≤ y := le_trans hx h
    unfold FloatFormat.roundRat
    rw [if_neg (not_lt.mpr hx), if_neg (not_lt.mpr hy)]
    exact roundMag_mono fmt hx h

theorem roundRat_idem (fmt : FloatFormat) (x : ℚ) :
    fmt.roundRat (fmt.roundRat x) = fmt.roundRat x := by
  rcases lt_or_le x 0 with hx | hx
  · have h1 : fmt.roundRat x = -fmt.roundMag (-x) := by
      unfold FloatFormat.roundRat
      rw [if_pos hx]
    have h2 := roundMag_nonneg fmt (x := -x) (by linarith)
    rw [h1]
    rcases h2.lt_or_eq with h3 | h3
    · unfold FloatFormat.roundRat
      rw [if_pos (by linarith), neg_neg, roundMag_idem fmt (by linarith)]
    · rw [← h3]
      simp [roundRat_zero]
  · have h1 : fmt.roundRat x = fmt.roundMag x := by
      unfold FloatFormat.roundRat
      rw [if_neg (not_lt.mpr hx)]
    have h2 := roundMag_nonneg fmt hx
    rw [h1]
    unfold FloatFormat.roundRat
    rw [if_neg (not_lt.mpr h2), roundMag_idem fmt hx]

theorem overflow_pos (fmt : FloatFormat) : (0 : ℚ) < 2 ^ (fmt.emax + 1) := two_zpow_pos _

theorem clamp_mono (fmt : FloatFormat) {r s : ℚ} (h : r ≤ s) : fmt.clamp r ≤ fmt.clamp s := by
  have hT := overflow_pos fmt
  unfold FloatFormat.clamp
  split_ifs with h1 h2 h3 h4 h5 h6 h7
  all_goals first
    | exact le_rfl
    | exact le_top
    | exact bot_le
    | (exfalso; linarith)
    | exact WithBot.coe_le_coe.mpr le_top
    | exact WithBot.coe_le_coe.mpr (WithTop.coe_le_coe.mpr h)

theorem clamp_zero (fmt : FloatFormat) : fmt.clamp 0 = 0 := by
  have hT := overflow_pos fmt
  unfold FloatFormat.clamp
  rw [if_neg (not_le.mpr hT), if_neg (by linarith)]
  rfl

theorem isNaN_round {fmt : FloatFormat} (z : Bool) (x : ℚ) :
    (IEEE.round z x : IEEE fmt).isNaN = false := by
  unfold IEEE.round IEEE.zero
  split_ifs <;> rfl

theorem key_zero {fmt : FloatFormat} (z : Bool) : (IEEE.zero z : IEEE fmt).key = 0 := by
  cases z <;> rfl

theorem key_round {fmt : FloatFormat} (z : Bool) (x : ℚ) :
    (IEEE.round z x : IEEE fmt).key = fmt.clamp (fmt.roundRat x) := by
  have hT := overflow_pos fmt
  unfold IEEE.round
  split_ifs with h1 h2 h3
  · rw [h1, roundRat_zero, clamp_zero, key_zero]
  · rcases lt_or_le x 0 with hx | hx
    · have := roundRat_nonpos fmt hx.le
      rw [abs_of_nonpos this] at h2
      unfold FloatFormat.clamp
      rw [if_neg (by linarith), if_pos (by linarith)]
      simp [IEEE.key, hx]
    · have := roundRat_nonneg fmt hx
      rw [abs_of_nonneg this] at h2
      unfold FloatFormat.clamp
      rw [if_pos h2]
      simp [IEEE.key, not_lt.mpr hx]
  · rw [h3, clamp_zero, key_zero]
  · have h4 := lt_of_not_le h2
    rw [abs_lt] at h4
    unfold FloatFormat.clamp
    rw [if_neg (by linarith), if_neg (by linarith)]
    rfl

theorem key_round_mono {fmt : FloatFormat} (z w : Bool) {x y : ℚ} (h : x ≤ y) :
    (IEEE.round z x : IEEE fmt).key ≤ (IEEE.round w y : IEEE fmt).key := by
  rw [key_round, key_round]
  exact clamp_mono fmt (roundRat_mono fmt h)

theorem representable_zero {fmt : FloatFormat} (z : Bool) :
    (IEEE.zero z : IEEE fmt).Representable := by
  cases z
  · exact ⟨roundRat_zero fmt, by simpa using overflow_pos fmt⟩
  · trivial

theorem representable_round {fmt : FloatFormat} (z : Bool) (x : ℚ) :
    (IEEE.round z x : IEEE fmt).Representable := by
  unfold IEEE.round
  split_ifs with h1 h2 h3
  · exact representable_zero z
  · trivial
  · exact representable_zero _
  · exact ⟨roundRat_idem fmt x, lt_of_not_le h2⟩

/-! ## Floating-point operations -/

theorem IEEE.lt_def {fmt : FloatFormat} (a b : IEEE fmt) :
    a < b ↔ a.isNaN = false ∧ b.isNaN = false ∧ a.key < b.key := Iff.rfl

theorem IEEE.le_def {fmt : FloatFormat} (a b : IEEE fmt) :
    a ≤ b ↔ a.isNaN = false ∧ b.isNaN = false ∧ a.key ≤ b.key := Iff.rfl

theorem IEEE.zero_def {fmt : FloatFormat} : (0 : IEEE fmt) = IEEE.fin 0 := rfl

theorem IEEE.one_def {fmt : FloatFormat} : (1 : IEEE fmt) = IEEE.fin 1 := rfl

theorem IEEE.two_def {fmt : FloatFormat} : (2 : IEEE fmt) = IEEE.fin 2 := rfl

theorem IEEE.sub_def {fmt : FloatFormat} (a b : IEEE fmt) : a - b = IEEE.add a (IEEE.neg b) :=
  rfl

theorem IEEE.mul_def {fmt : FloatFormat} (a b : IEEE fmt) : a * b = IEEE.mul a b := rfl

theorem IEEE.div_def {fmt : FloatFormat} (a b : IEEE fmt) : a / b = IEEE.div a b := rfl

theorem IEEE.key_fin_zero {fmt : FloatFormat} : (IEEE.fin 0 : IEEE fmt).key = 0 := rfl

theorem key_round_zero {fmt : FloatFormat} (z : Bool) : (IEEE.round z 0 : IEEE fmt).key = 0 := by
  rw [key_round, roundRat_zero, clamp_zero]

theorem key_round_nonneg {fmt : FloatFormat} (z : Bool) {x : ℚ} (h : 0 ≤ x) :
    0 ≤ (IEEE.round z x : IEEE fmt).key := by
  have := @key_round_mono fmt z z _ _ h
  rwa [key_round_zero] at this

theorem coe_nonneg_iff (q : ℚ) :
    (0 : WithBot (WithTop ℚ)) ≤ ((q : WithTop ℚ) : WithBot (WithTop ℚ)) ↔ 0 ≤ q := by
  rw [show (0 : WithBot (WithTop ℚ)) = (((0 : ℚ) : WithTop ℚ) : WithBot (WithTop ℚ)) from rfl,
    WithBot.coe_le_coe, WithTop.coe_le_coe]

theorem coe_pos_iff (q : ℚ) :
    (0 : WithBot (WithTop ℚ)) < ((q : WithTop ℚ) : WithBot (WithTop ℚ)) ↔ 0 < q := by
  rw [show (0 : WithBot (WithTop ℚ)) = (((0 : ℚ) : WithTop ℚ) : WithBot (WithTop ℚ)) from rfl,
    WithBot.coe_lt_coe, WithTop.coe_lt_coe]

/-- The non-negative values: `+0`, `-0`, the positive finite numbers and
`+inf`. -/
theorem IEEE.zero_le_iff {fmt : FloatFormat} (a : IEEE fmt) :
    (0 : IEEE fmt) ≤ a ↔ a.isNaN = false ∧ 0 ≤ a.key := by
  rw [IEEE.le_def]
  simp [IEEE.zero_def, IEEE.isNaN, IEEE.key_fin_zero]

theorem IEEE.zero_lt_iff {fmt : FloatFormat} (a : IEEE fmt) :
    (0 : IEEE fmt) < a ↔ a.isNaN = false ∧ 0 < a.key := by
  rw [IEEE.lt_def]
  simp [IEEE.zero_def, IEEE.isNaN, IEEE.key_fin_zero]

theorem roundHalfEven_of_near (y : ℚ) (n : Int) (h : |y - n| < 1 / 2) : roundHalfEven y = n := by
  rw [abs_lt] at h
  obtain ⟨h1, h2⟩ := h
  rcases le_or_lt (n : ℚ) y with c | c
  · have hf : ⌊y⌋ = n := Int.floor_eq_iff.mpr ⟨c, by linarith⟩
    unfold roundHalfEven
    rw [hf, if_pos (by linarith)]
  · have hf : ⌊y⌋ = n - 1 := Int.floor_eq_iff.mpr ⟨by push_cast; linarith, by push_cast; linarith⟩
    unfold roundHalfEven
    rw [hf, if_neg (by push_cast; linarith), if_pos (by push_cast; linarith)]
    ring

theorem log_eq_of_bounds (x : ℚ) (e : Int) (h1 : (2 : ℚ) ^ e ≤ x) (h2 : x < 2 ^ (e + 1)) :
    Int.log 2 x = e := by
  have hx : 0 < x := lt_of_lt_of_le (two_zpow_pos e) h1
  have a : e ≤ Int.log 2 x := (Int.zpow_le_iff_le_log (b := 2) (by norm_num) hx).mp (by simpa using h1)
  have b : Int.log 2 x < e + 1 :=
    (Int.lt_zpow_iff_log_lt (b := 2) (by norm_num) hx).mp (by simpa using h2)
  omega

/-- Rounding of a magnitude in the normal range, in the binade `[2^e, 2^(e+1))`. -/
theorem roundMag_normal (fmt : FloatFormat) (x : ℚ) (e n : Int) (h1 : (2 : ℚ) ^ e ≤ x)
    (h2 : x < 2 ^ (e + 1)) (he : fmt.emin ≤ e)
    (h3 : |x / 2 ^ (e - fmt.mantBits) - n| < 1 / 2) :
    fmt.roundMag x = n * 2 ^ (e - fmt.mantBits) := by
  have hq : fmt.quantum x = e - fmt.mantBits := by
    unfold FloatFormat.quantum
    rw [log_eq_of_bounds x e h1 h2, max_eq_left he]
  unfold FloatFormat.roundMag
  rw [hq, roundHalfEven_of_near _ n h3]

theorem roundRat_of_pos (fmt : FloatFormat) {x : ℚ} (h : 0 < x) :
    fmt.roundRat x = fmt.roundMag x := by
  unfold FloatFormat.roundRat
  rw [if_neg (not_lt.mpr h.le)]

theorem roundRat_of_neg (fmt : FloatFormat) {x : ℚ} (h : x < 0) :
    fmt.roundRat x = -fmt.roundMag (-x) := by
  unfold FloatFormat.roundRat
  rw [if_pos h]

/-- The operation delivers the finite non-zero number `r` when the exact
result rounds to `r` below the overflow threshold. -/
theorem round_eq_fin {fmt : FloatFormat} (z : Bool) (x r : ℚ) (hr : fmt.roundRat x = r)
    (h0 : r ≠ 0) (hT : |r| < 2 ^ (fmt.emax + 1)) : (IEEE.round z x : IEEE fmt) = IEEE.fin r := by
  have hx : x ≠ 0 := by
    rintro rfl
    rw [roundRat_zero] at hr
    exact h0 hr.symm
  unfold IEEE.round
  rw [if_neg hx, hr, if_neg (not_le.mpr hT), if_neg h0]

/-- A multiple `n * 2 ^ k` with `|n| < 2 ^ (mantBits + 1)` and
`k ≥ emin - mantBits` is a fixed point of the rounding. -/
theorem roundRat_exact (fmt : FloatFormat) (x : ℚ) (n k : Int) (hx : x = n * 2 ^ k)
    (hn : |n| < 2 ^ (fmt.mantBits + 1)) (hk : fmt.emin - fmt.mantBits ≤ k) :
    fmt.roundRat x = x := by
  have key : ∀ (y : ℚ) (m : Int), 0 < y → y = m * 2 ^ k → |m| < 2 ^ (fmt.mantBits + 1) →
      fmt.roundMag y = y := by
    intro y m hy hym hm
    apply roundMag_of_multiple fmt y m k hym
    have hb : y < 2 ^ (k + fmt.mantBits + 1) := by
      have h1 : (m : ℚ) < 2 ^ (fmt.mantBits + 1) := by
        have : (m : ℚ) ≤ |(m : ℚ)| := le_abs_self _
        have h2 : |(m : ℚ)| < 2 ^ (fmt.mantBits + 1) := by exact_mod_cast hm
        linarith
      have h3 : (2 : ℚ) ^ (k + fmt.mantBits + 1) = 2 ^ (fmt.mantBits + 1) * 2 ^ k := by
        rw [← zpow_natCast, ← zpow_add₀ (by norm_num : (2 : ℚ) ≠ 0)]
        congr 1
        push_cast
        ring
      rw [hym, h3]
      exact mul_lt_mul_of_pos_right h1 (two_zpow_pos k)
    have hl : Int.log 2 y < k + fmt.mantBits + 1 :=
      (Int.lt_zpow_iff_log_lt (b := 2) (by norm_num) hy).mp (by simpa using hb)
    unfold FloatFormat.quantum
    omega
  rcases lt_trichotomy x 0 with h | h | h
  · rw [roundRat_of_neg fmt h, key (-x) (-n) (by linarith) (by rw [hx]; push_cast; ring)
      (by rwa [abs_neg]), neg_neg]
  · rw [h, roundRat_zero]
  · rw [roundRat_of_pos fmt h, key x n h hx hn]

/-- A non-zero multiple `n * 2 ^ k` with `|n| < 2 ^ (mantBits + 1)` and
`k ≥ emin - mantBits`, below the overflow threshold, is delivered exactly. -/
theorem round_exact {fmt : FloatFormat} (z : Bool) (x : ℚ) (n k : Int) (hx : x = n * 2 ^ k)
    (h0 : x ≠ 0) (hn : |n| < 2 ^ (fmt.mantBits + 1)) (hk : fmt.emin - fmt.mantBits ≤ k)
    (hT : |x| < 2 ^ (fmt.emax + 1)) : (IEEE.round z x : IEEE fmt) = IEEE.fin x :=
  round_eq_fin z x x (roundRat_exact fmt x n k hx hn hk) h0 hT

/-! ## Order properties of the floating-point operations -/

theorem IEEE.isNaN_mul_left {fmt : FloatFormat} (x y : IEEE fmt) (h : (x * y).isNaN = false) :
    x.isNaN = false := by
  cases x <;> first | rfl | (cases y <;> simp [IEEE.mul_def, IEEE.mul, IEEE.isNaN] at h)

theorem IEEE.isNaN_mul_right {fmt : FloatFormat} (x y : IEEE fmt) (h : (x * y).isNaN = false) :
    y.isNaN = false := by
  cases y <;> first | rfl | (cases x <;> simp [IEEE.mul_def, IEEE.mul, IEEE.isNaN] at h)

theorem representable_mul {fmt : FloatFormat} (x y : IEEE fmt) : (x * y).Representable := by
  cases x <;> cases y <;> simp only [IEEE.mul_def, IEEE.mul] <;>
    first
      | exact representable_round _ _
      | trivial
      | (split_ifs <;> trivial)

theorem key_fin {fmt : FloatFormat} (q : ℚ) :
    (IEEE.fin q : IEEE fmt).key = ((q : WithTop ℚ) : WithBot (WithTop ℚ)) := rfl

theorem key_negZero {fmt : FloatFormat} : (IEEE.negZero : IEEE fmt).key = 0 := rfl

theorem key_inf_true {fmt : FloatFormat} : (IEEE.inf true : IEEE fmt).key = ⊥ := rfl

theorem key_inf_false {fmt : FloatFormat} : (IEEE.inf false : IEEE fmt).key = ⊤ := rfl

theorem coe_le_coe_key (p q : ℚ) :
    ((p : WithTop ℚ) : WithBot (WithTop ℚ)) ≤ ((q : WithTop ℚ) : WithBot (WithTop ℚ)) ↔ p ≤ q := by
  rw [WithBot.coe_le_coe, WithTop.coe_le_coe]

theorem coe_lt_coe_key (p q : ℚ) :
    ((p : WithTop ℚ) : WithBot (WithTop ℚ)) < ((q : WithTop ℚ) : WithBot (WithTop ℚ)) ↔ p < q := by
  rw [WithBot.coe_lt_coe, WithTop.coe_lt_coe]

theorem coe_nonpos_iff (q : ℚ) :
    ((q : WithTop ℚ) : WithBot (WithTop ℚ)) ≤ 0 ↔ q ≤ 0 := by
  rw [show (0 : WithBot (WithTop ℚ)) = (((0 : ℚ) : WithTop ℚ) : WithBot (WithTop ℚ)) from rfl,
    WithBot.coe_le_coe, WithTop.coe_le_coe]

theorem coe_neg_iff (q : ℚ) :
    ((q : WithTop ℚ) : WithBot (WithTop ℚ)) < 0 ↔ q < 0 := by
  rw [show (0 : WithBot (WithTop ℚ)) = (((0 : ℚ) : WithTop ℚ) : WithBot (WithTop ℚ)) from rfl,
    WithBot.coe_lt_coe, WithTop.coe_lt_coe]

theorem top_not_le_coe (q : ℚ) :
    ¬ ((⊤ : WithBot (WithTop ℚ)) ≤ ((q : WithTop ℚ) : WithBot (WithTop ℚ))) := by
  intro h
  have h2 : ((⊤ : WithTop ℚ) : WithBot (WithTop ℚ)) ≤ ((q : WithTop ℚ) : WithBot (WithTop ℚ)) := h
  rw [WithBot.coe_le_coe] at h2
  exact absurd (top_le_iff.mp h2) (WithTop.coe_ne_top)

theorem coe_not_le_bot (q : ℚ) :
    ¬ (((q : WithTop ℚ) : WithBot (WithTop ℚ)) ≤ ⊥) := by
  intro h
  exact absurd (le_bot_iff.mp h) (WithBot.coe_ne_bot)

theorem top_not_le_zero_key : ¬ ((⊤ : WithBot (WithTop ℚ)) ≤ 0) := top_not_le_coe 0

theorem zero_not_le_bot_key : ¬ ((0 : WithBot (WithTop ℚ)) ≤ ⊥) := coe_not_le_bot 0

theorem top_not_le_bot_key : ¬ ((⊤ : WithBot (WithTop ℚ)) ≤ ⊥) := by
  intro h
  have := le_bot_iff.mp h
  exact absurd this (by
    intro e
    have e2 : ((⊤ : WithTop ℚ) : WithBot (WithTop ℚ)) = ⊥ := e
    exact WithBot.coe_ne_bot e2)

/-- A value that is not a NaN is `-inf`, `+inf` or a finite number. -/
theorem IEEE.classify {fmt : FloatFormat} (x : IEEE fmt) (h : x.isNaN = false) :
    x = IEEE.inf true ∨ x = IEEE.inf false ∨ x.isFinite = true := by
  cases x with
  | fin q => exact Or.inr (Or.inr rfl)
  | negZero => exact Or.inr (Or.inr rfl)
  | inf s => cases s
             · exact Or.inr (Or.inl rfl)
             · exact Or.inl rfl
  | nan => simp [IEEE.isNaN] at h

theorem IEEE.isNaN_of_finite {fmt : FloatFormat} (x : IEEE fmt) (h : x.isFinite = true) :
    x.isNaN = false := by
  cases x <;> simp [IEEE.isFinite, IEEE.isNaN] at h ⊢

theorem IEEE.key_of_finite {fmt : FloatFormat} (x : IEEE fmt) (h : x.isFinite = true) :
    x.key = ((x.toRat : WithTop ℚ) : WithBot (WithTop ℚ)) := by
  cases x <;> simp [IEEE.isFinite] at h <;> rfl

theorem IEEE.mul_of_finite {fmt : FloatFormat} (x y : IEEE fmt) (hx : x.isFinite = true)
    (hy : y.isFinite = true) :
    x * y = IEEE.round (xor x.signBit y.signBit) (x.toRat * y.toRat) := by
  cases x <;> cases y <;> simp [IEEE.isFinite] at hx hy <;> rfl

theorem IEEE.add_of_finite {fmt : FloatFormat} (x y : IEEE fmt) (hx : x.isFinite = true)
    (hy : y.isFinite = true) :
    x + y = IEEE.round (x.signBit && y.signBit) (x.toRat + y.toRat) := by
  cases x <;> cases y <;> simp [IEEE.isFinite] at hx hy <;> rfl

theorem IEEE.neg_finite {fmt : FloatFormat} (x : IEEE fmt) (hx : x.isFinite = true) :
    (IEEE.neg x).isFinite = true ∧ (IEEE.neg x).toRat = -x.toRat := by
  cases x with
  | fin q =>
    by_cases hq : q = 0
    · simp [IEEE.neg, hq, IEEE.isFinite, IEEE.toRat]
    · simp [IEEE.neg, hq, IEEE.isFinite, IEEE.toRat]
  | negZero => simp [IEEE.neg, IEEE.isFinite, IEEE.toRat]
  | inf s => simp [IEEE.isFinite] at hx
  | nan => simp [IEEE.isFinite] at hx

theorem IEEE.inf_mul_finite {fmt : FloatFormat} (s : Bool) (y : IEEE fmt)
    (hy : y.isFinite = true) :
    IEEE.inf s * y = if y.toRat = 0 then IEEE.nan else IEEE.inf (xor s y.signBit) := by
  cases y <;> simp [IEEE.isFinite] at hy <;> rfl

theorem IEEE.finite_mul_inf {fmt : FloatFormat} (x : IEEE fmt) (t : Bool)
    (hx : x.isFinite = true) :
    x * IEEE.inf t = if x.toRat = 0 then IEEE.nan else IEEE.inf (xor x.signBit t) := by
  cases x <;> simp [IEEE.isFinite] at hx <;> rfl

theorem IEEE.inf_add_finite {fmt : FloatFormat} (s : Bool) (y : IEEE fmt)
    (hy : y.isFinite = true) : IEEE.inf s + y = IEEE.inf s := by
  cases y <;> simp [IEEE.isFinite] at hy <;> rfl

theorem IEEE.finite_add_inf {fmt : FloatFormat} (x : IEEE fmt) (t : Bool)
    (hx : x.isFinite = true) : x + IEEE.inf t = IEEE.inf t := by
  cases x <;> simp [IEEE.isFinite] at hx <;> rfl

theorem IEEE.signBit_of_pos {fmt : FloatFormat} (x : IEEE fmt) (hx : x.isFinite = true)
    (h : 0 < x.toRat) : x.signBit = false := by
  cases x with
  | fin q => simpa [IEEE.signBit, IEEE.toRat] using h.le
  | negZero => simp [IEEE.toRat] at h
  | inf s => simp [IEEE.isFinite] at hx
  | nan => simp [IEEE.isFinite] at hx

theorem IEEE.signBit_of_neg {fmt : FloatFormat} (x : IEEE fmt) (hx : x.isFinite = true)
    (h : x.toRat < 0) : x.signBit = true := by
  cases x with
  | fin q => simpa [IEEE.signBit, IEEE.toRat] using h
  | negZero => simp [IEEE.toRat] at h
  | inf s => simp [IEEE.isFinite] at hx
  | nan => simp [IEEE.isFinite] at hx

theorem IEEE.isFinite_round_or {fmt : FloatFormat} (z : Bool) (x : ℚ) :
    (IEEE.round z x : IEEE fmt).isNaN = false := isNaN_round z x

theorem IEEE.sub_eq_add_neg {fmt : FloatFormat} (a b : IEEE fmt) : a - b = a + IEEE.neg b := rfl

theorem IEEE.inf_add_inf {fmt : FloatFormat} (s t : Bool) :
    (IEEE.inf s + IEEE.inf t : IEEE fmt) = if s = t then IEEE.inf s else IEEE.nan := rfl

/-- Subtracting the same number keeps the order, as far as the differences are
numbers. -/
theorem sub_mono_float {fmt : FloatFormat} (lo hi o : IEEE fmt) (h : lo ≤ hi)
    (h1 : (lo - o).isNaN = false) (h2 : (hi - o).isNaN = false) :
    (lo - o).key ≤ (hi - o).key := by
  rw [IEEE.le_def] at h
  obtain ⟨nl, nh, hk⟩ := h
  have no : o.isNaN = false := by
    cases o with
    | nan => cases lo <;> simp [IEEE.sub_def, IEEE.neg, IEEE.add, IEEE.isNaN] at h1
    | _ => rfl
  simp only [IEEE.sub_eq_add_neg] at h1 h2 ⊢
  rcases IEEE.classify o no with rfl | rfl | fo
  · -- o = -inf : the differences are +inf
    have e : (IEEE.neg (IEEE.inf true) : IEEE fmt) = IEEE.inf false := rfl
    rw [e] at h1 h2 ⊢
    have key : ∀ x : IEEE fmt, x.isNaN = false → (x + IEEE.inf false).isNaN = false →
        (x + IEEE.inf false) = IEEE.inf false := by
      intro x nx hx
      rcases IEEE.classify x nx with rfl | rfl | fx
      · simp [IEEE.inf_add_inf, IEEE.isNaN] at hx
      · rfl
      · exact IEEE.finite_add_inf _ _ fx
    rw [key lo nl h1, key hi nh h2]
  · -- o = +inf : the differences are -inf
    have e : (IEEE.neg (IEEE.inf false) : IEEE fmt) = IEEE.inf true := rfl
    rw [e] at h1 h2 ⊢
    have key : ∀ x : IEEE fmt, x.isNaN = false → (x + IEEE.inf true).isNaN = false →
        (x + IEEE.inf true) = IEEE.inf true := by
      intro x nx hx
      rcases IEEE.classify x nx with rfl | rfl | fx
      · rfl
      · simp [IEEE.inf_add_inf, IEEE.isNaN] at hx
      · exact IEEE.finite_add_inf _ _ fx
    rw [key lo nl h1, key hi nh h2]
  · -- o finite
    obtain ⟨fn, tn⟩ := IEEE.neg_finite o fo
    rcases IEEE.classify lo nl with rfl | rfl | fl
    · -- lo = -inf
      rw [IEEE.inf_add_finite _ _ fn]
      exact bot_le
    · -- lo = +inf : hi = +inf
      rcases IEEE.classify hi nh with rfl | rfl | fh
      · exact absurd hk top_not_le_bot_key
      · exact le_rfl
      · rw [IEEE.key_of_finite hi fh] at hk
        exact absurd hk (top_not_le_coe _)
    · rcases IEEE.classify hi nh with rfl | rfl | fh
      · rw [IEEE.key_of_finite lo fl] at hk
        exact absurd hk (coe_not_le_bot _)
      · rw [IEEE.inf_add_finite _ _ fn]
        exact le_top
      · rw [IEEE.key_of_finite lo fl, IEEE.key_of_finite hi fh, coe_le_coe_key] at hk
        rw [IEEE.add_of_finite _ _ fl fn, IEEE.add_of_finite _ _ fh fn]
        exact key_round_mono _ _ (by linarith)

theorem IEEE.inf_mul_inf {fmt : FloatFormat} (s t : Bool) :
    (IEEE.inf s * IEEE.inf t : IEEE fmt) = IEEE.inf (xor s t) := rfl

theorem IEEE.lt_zero_iff {fmt : FloatFormat} (c : IEEE fmt) :
    c < 0 ↔ c.isNaN = false ∧ c.key < 0 := by
  rw [IEEE.lt_def]
  simp [IEEE.zero_def, IEEE.isNaN, IEEE.key_fin_zero]

theorem bot_lt_zero_key : (⊥ : WithBot (WithTop ℚ)) < 0 := WithBot.bot_lt_coe _

theorem zero_lt_top_key : (0 : WithBot (WithTop ℚ)) < ⊤ := by
  have : (((0 : ℚ) : WithTop ℚ) : WithBot (WithTop ℚ)) < ((⊤ : WithTop ℚ) : WithBot (WithTop ℚ)) :=
    WithBot.coe_lt_coe.mpr (WithTop.coe_lt_top 0)
  exact this

/-- Multiplication by a positive finite number keeps the order. -/
theorem mul_pos_mono_float {fmt : FloatFormat} (x y c : IEEE fmt) (nx : x.isNaN = false)
    (ny : y.isNaN = false) (hxy : x.key ≤ y.key) (fc : c.isFinite = true) (hc : 0 < c.toRat) :
    (x * c).key ≤ (y * c).key := by
  have sc := IEEE.signBit_of_pos c fc hc
  rcases IEEE.classify x nx with rfl | rfl | fx
  · rw [IEEE.inf_mul_finite _ _ fc, if_neg hc.ne', sc]
    exact bot_le
  · rcases IEEE.classify y ny with rfl | rfl | fy
    · exact absurd hxy top_not_le_bot_key
    · exact le_rfl
    · rw [IEEE.key_of_finite y fy] at hxy
      exact absurd hxy (top_not_le_coe _)
  · rcases IEEE.classify y ny with rfl | rfl | fy
    · rw [IEEE.key_of_finite x fx] at hxy
      exact absurd hxy (coe_not_le_bot _)
    · rw [IEEE.inf_mul_finite _ _ fc, if_neg hc.ne', sc]
      exact le_top
    · rw [IEEE.key_of_finite x fx, IEEE.key_of_finite y fy, coe_le_coe_key] at hxy
      rw [IEEE.mul_of_finite _ _ fx fc, IEEE.mul_of_finite _ _ fy fc]
      exact key_round_mono _ _ (mul_le_mul_of_nonneg_right hxy hc.le)

/-- Multiplication by a negative finite number reverses the order. -/
theorem mul_neg_anti_float {fmt : FloatFormat} (x y c : IEEE fmt) (nx : x.isNaN = false)
    (ny : y.isNaN = false) (hxy : x.key ≤ y.key) (fc : c.isFinite = true) (hc : c.toRat < 0) :
    (y * c).key ≤ (x * c).key := by
  have sc := IEEE.signBit_of_neg c fc hc
  rcases IEEE.classify x nx with rfl | rfl | fx
  · rw [IEEE.inf_mul_finite _ _ fc, if_neg hc.ne, sc]
    exact le_top
  · rcases IEEE.classify y ny with rfl | rfl | fy
    · exact absurd hxy top_not_le_bot_key
    · exact le_rfl
    · rw [IEEE.key_of_finite y fy] at hxy
      exact absurd hxy (top_not_le_coe _)
  · rcases IEEE.classify y ny with rfl | rfl | fy
    · rw [IEEE.key_of_finite x fx] at hxy
      exact absurd hxy (coe_not_le_bot _)
    · rw [IEEE.inf_mul_finite _ _ fc, if_neg hc.ne, sc]
      exact bot_le
    · rw [IEEE.key_of_finite x fx, IEEE.key_of_finite y fy, coe_le_coe_key] at hxy
      rw [IEEE.mul_of_finite _ _ fx fc, IEEE.mul_of_finite _ _ fy fc]
      exact key_round_mono _ _ (mul_le_mul_of_nonpos_right hxy hc.le)

/-- A product with a zero that is a number is a zero. -/
theorem mul_zero_key_float {fmt : FloatFormat} (x c : IEEE fmt) (nx : x.isNaN = false)
    (fc : c.isFinite = true) (hc : c.toRat = 0) (h : (x * c).isNaN = false) :
    (x * c).key = 0 := by
  rcases IEEE.classify x nx with rfl | rfl | fx
  · rw [IEEE.inf_mul_finite _ _ fc, if_pos hc] at h
    simp [IEEE.isNaN] at h
  · rw [IEEE.inf_mul_finite _ _ fc, if_pos hc] at h
    simp [IEEE.isNaN] at h
  · rw [IEEE.mul_of_finite _ _ fx fc, hc, mul_zero, key_round_zero]

/-- The product of a number with an infinity, when it is a number, is the
infinity whose sign is the product of the signs. -/
theorem mul_inf_key_float {fmt : FloatFormat} (x : IEEE fmt) (t : Bool) (nx : x.isNaN = false)
    (h : (x * IEEE.inf t).isNaN = false) :
    (0 < x.key ∧ x * IEEE.inf t = IEEE.inf t) ∨ (x.key < 0 ∧ x * IEEE.inf t = IEEE.inf (!t)) := by
  rcases IEEE.classify x nx with rfl | rfl | fx
  · right
    exact ⟨WithBot.bot_lt_coe _, by cases t <;> rfl⟩
  · left
    exact ⟨zero_lt_top_key, by cases t <;> rfl⟩
  · rw [IEEE.finite_mul_inf _ _ fx] at h ⊢
    by_cases h0 : x.toRat = 0
    · rw [if_pos h0] at h
      simp [IEEE.isNaN] at h
    · rw [if_neg h0, IEEE.key_of_finite x fx, coe_pos_iff, coe_neg_iff]
      rcases lt_or_gt_of_ne h0 with hneg | hpos
      · right
        rw [IEEE.signBit_of_neg x fx hneg]
        exact ⟨hneg, by cases t <;> rfl⟩
      · left
        rw [IEEE.signBit_of_pos x fx hpos]
        exact ⟨hpos, by cases t <;> rfl⟩

/-- Multiplying two ordered numbers by the same factor: the products, when
they are numbers, are ordered the same way for a factor that is not negative
and the opposite way for a negative factor. -/
theorem mul_mono_float {fmt : FloatFormat} (x y c : IEEE fmt) (nx : x.isNaN = false)
    (ny : y.isNaN = false) (hxy : x.key ≤ y.key) (h1 : (x * c).isNaN = false)
    (h2 : (y * c).isNaN = false) :
    (¬ (c < 0) → (x * c).key ≤ (y * c).key) ∧ (c < 0 → (y * c).key ≤ (x * c).key) := by
  have nc := IEEE.isNaN_mul_right x c h1
  rw [IEEE.lt_zero_iff]
  rcases IEEE.classify c nc with rfl | rfl | fc
  · -- c = -inf
    refine ⟨fun h => absurd ⟨rfl, bot_lt_zero_key⟩ h, fun _ => ?_⟩
    rcases mul_inf_key_float x true nx h1 with ⟨px, ex⟩ | ⟨px, ex⟩
    · rcases mul_inf_key_float y true ny h2 with ⟨py, ey⟩ | ⟨py, ey⟩
      · rw [ex, ey]
      · exact absurd (lt_of_lt_of_le px hxy) (not_lt.mpr py.le)
    · rw [ex]
      exact le_top
  · -- c = +inf
    refine ⟨fun _ => ?_, fun h => absurd h.2 (not_lt.mpr zero_lt_top_key.le)⟩
    rcases mul_inf_key_float x false nx h1 with ⟨px, ex⟩ | ⟨px, ex⟩
    · rcases mul_inf_key_float y false ny h2 with ⟨py, ey⟩ | ⟨py, ey⟩
      · rw [ex, ey]
      · exact absurd (lt_of_lt_of_le px hxy) (not_lt.mpr py.le)
    · rw [ex]
      exact bot_le
  · -- c finite
    rw [IEEE.key_of_finite c fc, coe_neg_iff]
    rcases lt_trichotomy c.toRat 0 with hc | hc | hc
    · exact ⟨fun h => absurd ⟨nc, hc⟩ h, fun _ => mul_neg_anti_float x y c nx ny hxy fc hc⟩
    · rw [mul_zero_key_float x c nx fc hc h1, mul_zero_key_float y c ny fc hc h2]
      exact ⟨fun _ => le_rfl, fun _ => le_rfl⟩
    · exact ⟨fun _ => mul_pos_mono_float x y c nx ny hxy fc hc,
        fun h => absurd h.2 (not_lt.mpr hc.le)⟩

theorem clamp_of_abs_lt (fmt : FloatFormat) (r : ℚ) (h : |r| < 2 ^ (fmt.emax + 1)) :
    fmt.clamp r = ((r : WithTop ℚ) : WithBot (WithTop ℚ)) := by
  rw [abs_lt] at h
  unfold FloatFormat.clamp
  rw [if_neg (by linarith), if_neg (by linarith)]

/-- Rounding the number of a finite value of the format gives the value. -/
theorem key_round_self {fmt : FloatFormat} (z : Bool) (x : IEEE fmt) (fx : x.isFinite = true)
    (rx : x.Representable) : (IEEE.round z x.toRat : IEEE fmt).key = x.key := by
  rw [key_round, IEEE.key_of_finite x fx]
  cases x with
  | fin p =>
    obtain ⟨h1, h2⟩ := rx
    simp only [IEEE.toRat]
    rw [h1, clamp_of_abs_lt fmt p h2]
  | negZero =>
    simp only [IEEE.toRat]
    rw [roundRat_zero, clamp_zero]
    rfl
  | inf s => simp [IEEE.isFinite] at fx
  | nan => simp [IEEE.isFinite] at fx

theorem IEEE.isFinite_fin {fmt : FloatFormat} (q : ℚ) : (IEEE.fin q : IEEE fmt).isFinite = true :=
  rfl

theorem IEEE.toRat_fin {fmt : FloatFormat} (q : ℚ) : (IEEE.fin q : IEEE fmt).toRat = q := rfl

theorem IEEE.signBit_fin_of_nonneg {fmt : FloatFormat} (q : ℚ) (h : 0 ≤ q) :
    (IEEE.fin q : IEEE fmt).signBit = false := by
  simpa [IEEE.signBit] using h

theorem isNaN_mul_fin {fmt : FloatFormat} (x : IEEE fmt) (q : ℚ) (hq : q ≠ 0)
    (nx : x.isNaN = false) : (x * IEEE.fin q).isNaN = false := by
  rcases IEEE.classify x nx with rfl | rfl | fx
  · rw [IEEE.inf_mul_finite _ _ (IEEE.isFinite_fin q), IEEE.toRat_fin, if_neg hq]
    rfl
  · rw [IEEE.inf_mul_finite _ _ (IEEE.isFinite_fin q), IEEE.toRat_fin, if_neg hq]
    rfl
  · rw [IEEE.mul_of_finite _ _ fx (IEEE.isFinite_fin q)]
    exact isNaN_round _ _

/-- Inflating a non-negative value of the format by a factor `≥ 1` does not
decrease it. -/
theorem inflate_le_float {fmt : FloatFormat} (x : IEEE fmt) (q : ℚ) (hq : 1 ≤ q)
    (nx : x.isNaN = false) (rx : x.Representable) (h0 : 0 ≤ x.key) :
    x.key ≤ (x * IEEE.fin q).key := by
  rcases IEEE.classify x nx with rfl | rfl | fx
  · exact bot_le
  · rw [IEEE.inf_mul_finite _ _ (IEEE.isFinite_fin q), IEEE.toRat_fin,
      if_neg (by linarith), IEEE.signBit_fin_of_nonneg q (by linarith)]
    exact le_rfl
  · have hx : 0 ≤ x.toRat := by
      rw [IEEE.key_of_finite x fx, coe_nonneg_iff] at h0
      exact h0
    rw [IEEE.mul_of_finite _ _ fx (IEEE.isFinite_fin q), IEEE.toRat_fin]
    have h1 : x.toRat ≤ x.toRat * q := by nlinarith
    have := @key_round_mono fmt false (xor x.signBit (IEEE.fin q : IEEE fmt).signBit) _ _ h1
    rwa [key_round_self false x fx rx] at this

/-- Inflating by a positive factor keeps a non-positive number non-positive. -/
theorem inflate_nonpos_float {fmt : FloatFormat} (x : IEEE fmt) (q : ℚ) (hq : 0 < q)
    (nx : x.isNaN = false) (h0 : x.key ≤ 0) : (x * IEEE.fin q).key ≤ 0 := by
  have := mul_pos_mono_float x (IEEE.fin 0) (IEEE.fin q) nx rfl h0 (IEEE.isFinite_fin q) hq
  rwa [IEEE.mul_of_finite (IEEE.fin 0) (IEEE.fin q) rfl rfl, IEEE.toRat_fin, zero_mul,
    key_round_zero] at this

/-- Numbers at the same position have inflated values at the same position. -/
theorem inflate_congr_float {fmt : FloatFormat} (x y : IEEE fmt) (q : ℚ) (hq : 0 < q)
    (nx : x.isNaN = false) (ny : y.isNaN = false) (h : x.key = y.key) :
    (x * IEEE.fin q).key = (y * IEEE.fin q).key :=
  le_antisymm (mul_pos_mono_float x y _ nx ny h.le (IEEE.isFinite_fin q) hq)
    (mul_pos_mono_float y x _ ny nx h.ge (IEEE.isFinite_fin q) hq)

/-! ## Floating point: distance to a box -/

theorem IEEE.round_zero {fmt : FloatFormat} (z : Bool) :
    (IEEE.round z 0 : IEEE fmt) = IEEE.zero z := by
  simp [IEEE.round]

theorem IEEE.fin_le_fin {fmt : FloatFormat} (a b : ℚ) :
    (IEEE.fin a : IEEE fmt) ≤ IEEE.fin b ↔ a ≤ b := by
  rw [IEEE.le_def, key_fin, key_fin, coe_le_coe_key]
  exact ⟨fun h => h.2.2, fun h => ⟨rfl, rfl, h⟩⟩

theorem IEEE.fin_lt_fin {fmt : FloatFormat} (a b : ℚ) :
    (IEEE.fin a : IEEE fmt) < IEEE.fin b ↔ a < b := by
  rw [IEEE.lt_def, key_fin, key_fin, coe_lt_coe_key]
  exact ⟨fun h => h.2.2, fun h => ⟨rfl, rfl, h⟩⟩

theorem IEEE.nan_not_lt {fmt : FloatFormat} (a : IEEE fmt) : ¬ (IEEE.nan < a) := by
  rw [IEEE.lt_def]
  rintro ⟨h, _⟩
  exact absurd h (by simp [IEEE.isNaN])

theorem IEEE.not_lt_nan {fmt : FloatFormat} (a : IEEE fmt) : ¬ (a < IEEE.nan) := by
  rw [IEEE.lt_def]
  rintro ⟨_, h, _⟩
  exact absurd h (by simp [IEEE.isNaN])

theorem IEEE.fin_lt_inf {fmt : FloatFormat} (a : ℚ) :
    (IEEE.fin a : IEEE fmt) < IEEE.inf false := by
  rw [IEEE.lt_def, key_fin, key_inf_false]
  exact ⟨rfl, rfl, WithBot.coe_lt_coe.mpr (WithTop.coe_lt_top a)⟩

theorem IEEE.inf_not_lt {fmt : FloatFormat} (a : IEEE fmt) : ¬ (IEEE.inf false < a) := by
  rw [IEEE.lt_def, key_inf_false]
  rintro ⟨_, _, h⟩
  exact absurd h (not_lt.mpr le_top)

theorem IEEE.neg_inf_lt_fin {fmt : FloatFormat} (a : ℚ) :
    (IEEE.inf true : IEEE fmt) < IEEE.fin a := by
  rw [IEEE.lt_def, key_fin, key_inf_true]
  exact ⟨rfl, rfl, WithBot.bot_lt_coe _⟩

theorem IEEE.not_lt_neg_inf {fmt : FloatFormat} (a : IEEE fmt) : ¬ (a < IEEE.inf true) := by
  rw [IEEE.lt_def, key_inf_true]
  rintro ⟨_, _, h⟩
  exact absurd h (not_lt.mpr bot_le)

theorem IEEE.one_div_zero {fmt : FloatFormat} : ((1 : IEEE fmt) / 0) = IEEE.inf false := by
  simp [IEEE.div_def, IEEE.one_def, IEEE.zero_def, IEEE.div, IEEE.toRat, IEEE.signBit]

theorem IEEE.zero_sub_zero {fmt : FloatFormat} : ((0 : IEEE fmt) - 0) = 0 := by
  simp [IEEE.sub_def, IEEE.zero_def, IEEE.neg, IEEE.add, IEEE.toRat, IEEE.round_zero,
    IEEE.zero, IEEE.signBit]

theorem IEEE.zero_mul_inf {fmt : FloatFormat} (s : Bool) :
    ((0 : IEEE fmt) * IEEE.inf s) = IEEE.nan := by
  simp [IEEE.mul_def, IEEE.zero_def, IEEE.mul, IEEE.toRat]

theorem IEEE.fin_mul_inf {fmt : FloatFormat} (a : ℚ) (ha : a ≠ 0) :
    (IEEE.fin a * IEEE.inf false : IEEE fmt) = IEEE.inf (decide (a < 0)) := by
  simp [IEEE.mul_def, IEEE.mul, IEEE.toRat, IEEE.signBit, ha]

theorem IEEE.inf_mul_fin {fmt : FloatFormat} (s : Bool) (a : ℚ) (ha : 0 < a) :
    (IEEE.inf s * IEEE.fin a : IEEE fmt) = IEEE.inf s := by
  have h : decide (a < 0) = false := by simpa using ha.le
  simp [IEEE.mul_def, IEEE.mul, IEEE.toRat, IEEE.signBit, ha.ne', h]

/-- A number with at most 24 significant bits and an exponent in range is a
`float`: the `float` operations deliver it exactly. -/
theorem single_exact (z : Bool) (x : ℚ) (n k : Int) (hx : x = n * 2 ^ k) (h0 : x ≠ 0)
    (hn : |n| < 2 ^ 24) (hk : -149 ≤ k) (hT : |x| < 2 ^ 128) :
    (IEEE.round z x : IEEE FloatFormat.single) = IEEE.fin x :=
  round_exact z x n k hx h0 hn hk (by
    have : (2 : ℚ) ^ (FloatFormat.single.emax + 1) = 2 ^ 128 := by norm_num [FloatFormat.emax]
    rw [this]
    exact hT)

/-- Subtraction of `float` numbers with an exact non-zero difference. -/
theorem single_sub (a b : ℚ) (n k : Int) (hx : a - b = n * 2 ^ k) (h0 : a - b ≠ 0)
    (hn : |n| < 2 ^ 24) (hk : -149 ≤ k) (hT : |a - b| < 2 ^ 128) :
    (IEEE.fin a - IEEE.fin b : IEEE FloatFormat.single) = IEEE.fin (a - b) := by
  obtain ⟨fn, tn⟩ := IEEE.neg_finite (IEEE.fin b : IEEE FloatFormat.single) rfl
  rw [IEEE.sub_eq_add_neg, IEEE.add_of_finite (IEEE.fin a) _ rfl fn, tn, IEEE.toRat_fin,
    IEEE.toRat_fin, ← sub_eq_add_neg]
  exact single_exact _ _ n k hx h0 hn hk hT

/-- Multiplication of `float` numbers with an exact non-zero product. -/
theorem single_mul (a b : ℚ) (n k : Int) (hx : a * b = n * 2 ^ k) (h0 : a * b ≠ 0)
    (hn : |n| < 2 ^ 24) (hk : -149 ≤ k) (hT : |a * b| < 2 ^ 128) :
    (IEEE.fin a * IEEE.fin b : IEEE FloatFormat.single) = IEEE.fin (a * b) := by
  rw [IEEE.mul_of_finite (IEEE.fin a) (IEEE.fin b) rfl rfl, IEEE.toRat_fin, IEEE.toRat_fin]
  exact single_exact _ _ n k hx h0 hn hk hT

theorem single_one_div_one : ((1 : IEEE FloatFormat.single) / 1) = 1 := by
  simp only [IEEE.div_def, IEEE.one_def, IEEE.div, IEEE.toRat]
  rw [if_neg (by norm_num), show (1 : ℚ) / 1 = 1 by norm_num]
  exact single_exact _ 1 1 0 (by norm_num) (by norm_num) (by norm_num) (by norm_num)
    (by norm_num [abs_lt])

/-- The `int` instantiation truncates: `Vector3i(1, 1, 1) / 2` is `(0, 0, 0)`,
not the vector of the halves. -/
theorem Vector3i_div_truncates (checked : Bool) :
    Vector3.divInt FloatFormat.single checked ⟨1, 1, 1⟩ 2 = Except.ok ⟨0, 0, 0⟩ := by
  have e2 : (IEEE.ofInt 2 : IEEE FloatFormat.single) = IEEE.fin 2 := by
    rw [IEEE.ofInt]
    exact round_exact _ _ 1 1 (by norm_num) (by norm_num) (by norm_num [FloatFormat.mantBits])
      (by decide) (by norm_num [FloatFormat.emax])
  have e1 : (IEEE.ofInt 1 : IEEE FloatFormat.single) = IEEE.fin 1 := by
    rw [IEEE.ofInt]
    exact round_exact _ _ 1 0 (by norm_num) (by norm_num) (by norm_num [FloatFormat.mantBits])
      (by decide) (by norm_num [FloatFormat.emax])
  have ei : ((1 : IEEE FloatFormat.single) / IEEE.fin 2) = IEEE.fin (1 / 2) := by
    simp only [IEEE.div_def, IEEE.one_def, IEEE.div, IEEE.toRat]
    rw [if_neg (by norm_num)]
    exact round_exact _ _ 1 (-1) (by norm_num) (by norm_num)
      (by norm_num [FloatFormat.mantBits]) (by decide) (by norm_num [FloatFormat.emax, abs_lt])
  have ep : (IEEE.fin 1 * IEEE.fin (1 / 2) : IEEE FloatFormat.single) = IEEE.fin (1 / 2) := by
    simp only [IEEE.mul_def, IEEE.mul, IEEE.toRat, one_mul]
    exact round_exact _ _ 1 (-1) (by norm_num) (by norm_num)
      (by norm_num [FloatFormat.mantBits]) (by decide) (by norm_num [FloatFormat.emax, abs_lt])
  have et : (IEEE.fin (1 / 2) : IEEE FloatFormat.single).toInt = 0 := by
    have hf : ⌊(1 / 2 : ℚ)⌋ = 0 := Int.floor_eq_iff.mpr ⟨by norm_num, by norm_num⟩
    have h0 : (0 : ℚ) ≤ 1 / 2 := by norm_num
    simp only [IEEE.toInt, h0, if_true, hf]
    decide
  rw [Vector3.divInt]
  simp only [e1, e2, ei, ep, et]
  cases checked <;> rfl

/-! ## Floating point: the two ray / box tests -/

/-! ## One axis of the two ray / box tests in floating point -/

/-- The core of one axis, on the two slab parameters `A` and `B` (numbers of
the format): whichever way they are ordered, the swap of the general test and
the selection of the optimized test (`neg` stands for its sign flag) give
entry values and inflated exit values at the same positions. -/
theorem axis_core_float {fmt : FloatFormat} (A B : IEEE fmt) (q : ℚ) (hq : 1 ≤ q)
    (hA : A.isNaN = false) (hB : B.isNaN = false) (rA : A.Representable)
    (rB : B.Representable) (neg : Prop) [Decidable neg] (h1 : neg → B.key ≤ A.key)
    (h2 : ¬ neg → A.key ≤ B.key) :
    ((if A > B then B else A).isNaN = false ∧
      ((if A > B then A else B) * IEEE.fin q).isNaN = false ∧
      (0 < ((if A > B then A else B) * IEEE.fin q).key →
        (if A > B then B else A).key ≤ ((if A > B then A else B) * IEEE.fin q).key)) ∧
    ((if neg then B else A).isNaN = false ∧
      (if neg then B else A).key = (if A > B then B else A).key) ∧
    (((if neg then A else B) * IEEE.fin q).isNaN = false ∧
      ((if neg then A else B) * IEEE.fin q).key
        = ((if A > B then A else B) * IEEE.fin q).key) := by
  have q0 : 0 < q := by linarith
  have nAk := isNaN_mul_fin A q q0.ne' hA
  have nBk := isNaN_mul_fin B q q0.ne' hB
  have exitA : A.key ≤ B.key → 0 < (B * IEEE.fin q).key → A.key ≤ (B * IEEE.fin q).key := by
    intro hle hpos
    have hB0 : 0 ≤ B.key := by
      by_contra hc
      exact absurd hpos (not_lt.mpr (inflate_nonpos_float B q q0 hB (not_le.mp hc).le))
    exact le_trans hle (inflate_le_float B q hq hB rB hB0)
  have exitB : B.key ≤ A.key → 0 < (A * IEEE.fin q).key → B.key ≤ (A * IEEE.fin q).key := by
    intro hle hpos
    have hA0 : 0 ≤ A.key := by
      by_contra hc
      exact absurd hpos (not_lt.mpr (inflate_nonpos_float A q q0 hA (not_le.mp hc).le))
    exact le_trans hle (inflate_le_float A q hq hA rA hA0)
  by_cases hneg : neg
  · have hBA : B.key ≤ A.key := h1 hneg
    simp only [if_pos hneg]
    by_cases hgt : A > B
    · simp only [if_pos hgt]
      exact ⟨⟨hB, nAk, exitB hBA⟩, ⟨hB, trivial⟩, nAk, trivial⟩
    · have hAB : A.key ≤ B.key := by
        by_contra hc
        exact hgt ((IEEE.lt_def B A).mpr ⟨hB, hA, not_le.mp hc⟩)
      have heq : A.key = B.key := le_antisymm hAB hBA
      simp only [if_neg hgt]
      exact ⟨⟨hA, nBk, exitA hAB⟩, ⟨hB, heq.symm⟩, nAk, inflate_congr_float A B q q0 hA hB heq⟩
  · have hAB : A.key ≤ B.key := h2 hneg
    have hgt : ¬ (A > B) := by
      intro h
      exact absurd ((IEEE.lt_def B A).mp h).2.2 (not_lt.mpr hAB)
    simp only [if_neg hneg, if_neg hgt]
    exact ⟨⟨hA, nBk, exitA hAB⟩, ⟨hA, trivial⟩, nBk, trivial⟩

/-- The selection of the optimized test by the `int` sign flag. -/
theorem flag_select_ite {β : Type} (neg : Prop) [Decidable neg] (lo hi : β) :
    (if (if neg then (1 : Int) else 0) = 0 then lo else hi) = (if neg then hi else lo) ∧
    (if 1 - (if neg then (1 : Int) else 0) = 0 then lo else hi) = (if neg then lo else hi) := by
  by_cases h : neg
  · simp only [if_pos h]
    exact ⟨if_neg (by decide), if_pos (by decide)⟩
  · simp only [if_neg h]
    exact ⟨if_pos (by decide), if_neg (by decide)⟩

/-- On one axis of a valid box whose two slab parameters are numbers: the
entry and exit values of the general test are numbers, the optimized test
selects (by the sign flag of `1 / d`) values at the same positions, and a
positive exit value is not below the entry value. -/
theorem axis_float {fmt : FloatFormat} (lo hi o d : IEEE fmt) (q : ℚ) (hq : 1 ≤ q)
    (hv : lo ≤ hi) (hA : ((lo - o) * (1 / d)).isNaN = false)
    (hB : ((hi - o) * (1 / d)).isNaN = false) :
    ((slabEntry lo hi o d).isNaN = false ∧ (slabExit lo hi o d (IEEE.fin q)).isNaN = false ∧
      (0 < (slabExit lo hi o d (IEEE.fin q)).key →
        (slabEntry lo hi o d).key ≤ (slabExit lo hi o d (IEEE.fin q)).key)) ∧
    ((((if (if 1 / d < 0 then (1 : Int) else 0) = 0 then lo else hi) - o) * (1 / d)).isNaN
        = false ∧
      (((if (if 1 / d < 0 then (1 : Int) else 0) = 0 then lo else hi) - o) * (1 / d)).key
        = (slabEntry lo hi o d).key) ∧
    (((((if 1 - (if 1 / d < 0 then (1 : Int) else 0) = 0 then lo else hi) - o) * (1 / d))
        * IEEE.fin q).isNaN = false ∧
      ((((if 1 - (if 1 / d < 0 then (1 : Int) else 0) = 0 then lo else hi) - o) * (1 / d))
        * IEEE.fin q).key = (slabExit lo hi o d (IEEE.fin q)).key) := by
  have na := IEEE.isNaN_mul_left _ _ hA
  have nc := IEEE.isNaN_mul_left _ _ hB
  have hac := sub_mono_float lo hi o hv na nc
  have hm := mul_mono_float (lo - o) (hi - o) (1 / d) na nc hac hA hB
  have core := axis_core_float ((lo - o) * (1 / d)) ((hi - o) * (1 / d)) q hq hA hB
    (representable_mul _ _) (representable_mul _ _) (1 / d < 0) hm.2 hm.1
  rw [(flag_select_ite (1 / d < 0) lo hi).1, (flag_select_ite (1 / d < 0) lo hi).2]
  unfold slabEntry slabExit
  have s1 : ((if 1 / d < 0 then hi else lo) - o) * (1 / d)
      = if 1 / d < 0 then (hi - o) * (1 / d) else (lo - o) * (1 / d) := by
    split_ifs <;> rfl
  have s2 : ((if 1 / d < 0 then lo else hi) - o) * (1 / d)
      = if 1 / d < 0 then (lo - o) * (1 / d) else (hi - o) * (1 / d) := by
    split_ifs <;> rfl
  rw [s1, s2]
  exact core

/-! ## The two ray / box tests on numbers of the format -/

theorem IEEE.At.gt_iff {fmt : FloatFormat} {a b : IEEE fmt} {u v : WithBot (WithTop ℚ)}
    (ha : a.At u) (hb : b.At v) : a > b ↔ v < u := by
  rw [gt_iff_lt, IEEE.lt_def, ha.2, hb.2]
  exact ⟨fun h => h.2.2, fun h => ⟨hb.1, ha.1, h⟩⟩

theorem IEEE.At.lt_iff {fmt : FloatFormat} {a b : IEEE fmt} {u v : WithBot (WithTop ℚ)}
    (ha : a.At u) (hb : b.At v) : a < b ↔ u < v := by
  rw [IEEE.lt_def, ha.2, hb.2]
  exact ⟨fun h => h.2.2, fun h => ⟨ha.1, hb.1, h⟩⟩

/-- `a > b ? a : b` is at the larger position. -/
theorem IEEE.At.select_max {fmt : FloatFormat} {a b : IEEE fmt} {u v : WithBot (WithTop ℚ)}
    (ha : a.At u) (hb : b.At v) : (if a > b then a else b).At (max v u) := by
  by_cases h : a > b
  · rw [if_pos h, max_eq_right ((ha.gt_iff hb).mp h).le]
    exact ha
  · rw [if_neg h, max_eq_left (not_lt.mp (fun c => h ((ha.gt_iff hb).mpr c)))]
    exact hb

/-- `a < b ? a : b` is at the smaller position. -/
theorem IEEE.At.select_min {fmt : FloatFormat} {a b : IEEE fmt} {u v : WithBot (WithTop ℚ)}
    (ha : a.At u) (hb : b.At v) : (if a < b then a else b).At (min v u) := by
  by_cases h : a < b
  · rw [if_pos h, min_eq_right ((ha.lt_iff hb).mp h).le]
    exact ha
  · rw [if_neg h, min_eq_left (not_lt.mp (fun c => h ((ha.lt_iff hb).mpr c)))]
    exact hb

theorem IEEE.At.zero {fmt : FloatFormat} : (0 : IEEE fmt).At 0 := ⟨rfl, rfl⟩

/-- The loop body of the general test written with the entry and exit values
of the axis. -/
theorem IntersectPSlab_entry_exit {α : Type} [Zero α] [One α] [OfNat α 2] [Add α] [Sub α]
    [Mul α] [Div α] [LT α] [DecidableRel (α := α) (· < ·)] (gamma : Nat → α) (b : Bounds3 α)
    (ray : Ray α) (i : Int) (t : α × α) :
    Bounds3.IntersectPSlab gamma b ray i t =
      if (if slabEntry (b.pMin.get i) (b.pMax.get i) (ray.o.get i) (ray.d.get i) > t.1 then
            slabEntry (b.pMin.get i) (b.pMax.get i) (ray.o.get i) (ray.d.get i) else t.1) >
          (if slabExit (b.pMin.get i) (b.pMax.get i) (ray.o.get i) (ray.d.get i)
              (1 + 2 * gamma 3) < t.2 then
            slabExit (b.pMin.get i) (b.pMax.get i) (ray.o.get i) (ray.d.get i)
              (1 + 2 * gamma 3) else t.2) then none
      else some
        (if slabEntry (b.pMin.get i) (b.pMax.get i) (ray.o.get i) (ray.d.get i) > t.1 then
            slabEntry (b.pMin.get i) (b.pMax.get i) (ray.o.get i) (ray.d.get i) else t.1,
          if slabExit (b.pMin.get i) (b.pMax.get i) (ray.o.get i) (ray.d.get i)
              (1 + 2 * gamma 3) < t.2 then
            slabExit (b.pMin.get i) (b.pMax.get i) (ray.o.get i) (ray.d.get i)
              (1 + 2 * gamma 3) else t.2) := rfl

/-- One step of the loop of the general test on numbers: the interval is
updated to the positions `max u N`, `min v F`, and the step fails exactly when
these cross. -/
theorem slab_step_float {fmt : FloatFormat} (gamma : Nat → IEEE fmt) (b : Bounds3 (IEEE fmt))
    (ray : Ray (IEEE fmt)) (i : Int) (t : IEEE fmt × IEEE fmt) (N F u v : WithBot (WithTop ℚ))
    (hn : (slabEntry (b.pMin.get i) (b.pMax.get i) (ray.o.get i) (ray.d.get i)).At N)
    (hf : (slabExit (b.pMin.get i) (b.pMax.get i) (ray.o.get i) (ray.d.get i)
      (1 + 2 * gamma 3)).At F)
    (h0 : t.1.At u) (h1 : t.2.At v) :
    ∃ t0 t1 : IEEE fmt, t0.At (max u N) ∧ t1.At (min v F) ∧
      Bounds3.IntersectPSlab gamma b ray i t =
        if max u N ≤ min v F then some (t0, t1) else none := by
  rw [IntersectPSlab_entry_exit]
  have a0 := hn.select_max h0
  have a1 := hf.select_min h1
  refine ⟨_, _, a0, a1, ?_⟩
  by_cases c : max u N ≤ min v F
  · rw [if_pos c, if_neg (fun h => absurd ((a0.gt_iff a1).mp h) (not_lt.mpr c))]
  · rw [if_neg c, if_pos ((a0.gt_iff a1).mpr (not_le.mp c))]

/-- The general test on numbers: it succeeds exactly when the largest of `0`
and the entry positions is not above the smallest of `tMax` and the exit
positions, and then reports values at these two positions. -/
theorem IntersectP_float {fmt : FloatFormat} (gamma : Nat → IEEE fmt) (b : Bounds3 (IEEE fmt))
    (ray : Ray (IEEE fmt)) (N0 N1 N2 F0 F1 F2 T : WithBot (WithTop ℚ))
    (n0 : (slabEntry (b.pMin.get 0) (b.pMax.get 0) (ray.o.get 0) (ray.d.get 0)).At N0)
    (f0 : (slabExit (b.pMin.get 0) (b.pMax.get 0) (ray.o.get 0) (ray.d.get 0)
      (1 + 2 * gamma 3)).At F0)
    (n1 : (slabEntry (b.pMin.get 1) (b.pMax.get 1) (ray.o.get 1) (ray.d.get 1)).At N1)
    (f1 : (slabExit (b.pMin.get 1) (b.pMax.get 1) (ray.o.get 1) (ray.d.get 1)
      (1 + 2 * gamma 3)).At F1)
    (n2 : (slabEntry (b.pMin.get 2) (b.pMax.get 2) (ray.o.get 2) (ray.d.get 2)).At N2)
    (f2 : (slabExit (b.pMin.get 2) (b.pMax.get 2) (ray.o.get 2) (ray.d.get 2)
      (1 + 2 * gamma 3)).At F2)
    (hT : ray.tMax.At T) :
    ∃ t0 t1 : IEEE fmt, t0.At (max (max (max 0 N0) N1) N2) ∧
      t1.At (min (min (min T F0) F1) F2) ∧
      Bounds3.IntersectP gamma b ray =
        if max (max (max 0 N0) N1) N2 ≤ min (min (min T F0) F1) F2 then some (t0, t1)
        else none := by
  unfold Bounds3.IntersectP
  obtain ⟨a0, b0, ha0, hb0, e0⟩ := slab_step_float gamma b ray 0 (0, ray.tMax) N0 F0 0 T n0 f0
    IEEE.At.zero hT
  obtain ⟨a1, b1, ha1, hb1, e1⟩ := slab_step_float gamma b ray 1 (a0, b0) N1 F1 _ _ n1 f1
    ha0 hb0
  obtain ⟨a2, b2, ha2, hb2, e2⟩ := slab_step_float gamma b ray 2 (a1, b1) N2 F2 _ _ n2 f2
    ha1 hb1
  refine ⟨a2, b2, ha2, hb2, ?_⟩
  rw [e0]
  by_cases c0 : max 0 N0 ≤ min T F0
  · rw [if_pos c0, Option.some_bind, e1]
    by_cases c1 : max (max 0 N0) N1 ≤ min (min T F0) F1
    · rw [if_pos c1, Option.some_bind, e2]
    · have c2 : ¬ max (max (max 0 N0) N1) N2 ≤ min (min (min T F0) F1) F2 := fun h =>
        c1 (le_trans (le_max_left _ _) (le_trans h (min_le_left _ _)))
      rw [if_neg c1, if_neg c2, Option.none_bind]
  · have c2 : ¬ max (max (max 0 N0) N1) N2 ≤ min (min (min T F0) F1) F2 := fun h =>
      c0 (le_trans (le_trans (le_max_left _ _) (le_max_left _ _))
        (le_trans h (le_trans (min_le_left _ _) (min_le_left _ _))))
    rw [if_neg c0, if_neg c2, Option.none_bind, Option.none_bind]

/-- The optimized test on numbers. -/
theorem IntersectPInv_float {fmt : FloatFormat} (gamma : Nat → IEEE fmt)
    (bounds : Bounds3 (IEEE fmt)) (ray : Ray (IEEE fmt)) (invDir : Vector3 (IEEE fmt))
    (dirIsNeg : Fin 3 → Int) (N0 N1 N2 F0 F1 F2 T : WithBot (WithTop ℚ))
    (n0 : (((bounds.get (dirIsNeg 0)).x - ray.o.x) * invDir.x).At N0)
    (f0 : ((((bounds.get (1 - dirIsNeg 0)).x - ray.o.x) * invDir.x)
      * (1 + 2 * gamma 3)).At F0)
    (n1 : (((bounds.get (dirIsNeg 1)).y - ray.o.y) * invDir.y).At N1)
    (f1 : ((((bounds.get (1 - dirIsNeg 1)).y - ray.o.y) * invDir.y)
      * (1 + 2 * gamma 3)).At F1)
    (n2 : (((bounds.get (dirIsNeg 2)).z - ray.o.z) * invDir.z).At N2)
    (f2 : ((((bounds.get (1 - dirIsNeg 2)).z - ray.o.z) * invDir.z)
      * (1 + 2 * gamma 3)).At F2)
    (hT : ray.tMax.At T) :
    Bounds3.IntersectPInv gamma bounds ray invDir dirIsNeg = true ↔
      (N0 ≤ F1 ∧ N1 ≤ F0) ∧ (max N0 N1 ≤ F2 ∧ N2 ≤ min F0 F1) ∧
        max (max N0 N1) N2 < T ∧ 0 < min (min F0 F1) F2 := by
  unfold Bounds3.IntersectPInv
  simp only
  generalize ((bounds.get (dirIsNeg 0)).x - ray.o.x) * invDir.x = tMin at n0 ⊢
  generalize (((bounds.get (1 - dirIsNeg 0)).x - ray.o.x) * invDir.x) * (1 + 2 * gamma 3)
    = tMax at f0 ⊢
  generalize ((bounds.get (dirIsNeg 1)).y - ray.o.y) * invDir.y = tyMin at n1 ⊢
  generalize (((bounds.get (1 - dirIsNeg 1)).y - ray.o.y) * invDir.y) * (1 + 2 * gamma 3)
    = tyMax at f1 ⊢
  generalize ((bounds.get (dirIsNeg 2)).z - ray.o.z) * invDir.z = tzMin at n2 ⊢
  generalize (((bounds.get (1 - dirIsNeg 2)).z - ray.o.z) * invDir.z) * (1 + 2 * gamma 3)
    = tzMax at f2 ⊢
  have m01 := n1.select_max n0
  have M01 := f1.select_min f0
  have m012 := n2.select_max m01
  have M012 := f2.select_min M01
  by_cases h1 : tMin > tyMax ∨ tyMin > tMax
  · rw [if_pos h1]
    have : ¬ (N0 ≤ F1 ∧ N1 ≤ F0) := by
      rintro ⟨a, c⟩
      rcases h1 with h | h
      · exact absurd a (not_le.mpr ((n0.gt_iff f1).mp h))
      · exact absurd c (not_le.mpr ((n1.gt_iff f0).mp h))
    exact ⟨fun h => absurd h (by decide), fun h => absurd h.1 this⟩
  · rw [if_neg h1]
    have h1b : N0 ≤ F1 ∧ N1 ≤ F0 :=
      ⟨not_lt.mp (fun h => h1 (Or.inl ((n0.gt_iff f1).mpr h))),
        not_lt.mp (fun h => h1 (Or.inr ((n1.gt_iff f0).mpr h)))⟩
    by_cases h2 : (if tyMin > tMin then tyMin else tMin) > tzMax ∨
        tzMin > (if tyMax < tMax then tyMax else tMax)
    · rw [if_pos h2]
      have : ¬ (max N0 N1 ≤ F2 ∧ N2 ≤ min F0 F1) := by
        rintro ⟨a, c⟩
        rcases h2 with h | h
        · exact absurd a (not_le.mpr ((m01.gt_iff f2).mp h))
        · exact absurd c (not_le.mpr ((n2.gt_iff M01).mp h))
      exact ⟨fun h => absurd h (by decide), fun h => absurd h.2.1 this⟩
    · rw [if_neg h2]
      have h2b : max N0 N1 ≤ F2 ∧ N2 ≤ min F0 F1 :=
        ⟨not_lt.mp (fun h => h2 (Or.inl ((m01.gt_iff f2).mpr h))),
          not_lt.mp (fun h => h2 (Or.inr ((n2.gt_iff M01).mpr h)))⟩
      rw [Bool.and_eq_true, decide_eq_true_eq, decide_eq_true_eq, m012.lt_iff hT,
        M012.gt_iff IEEE.At.zero]
      exact ⟨fun h => ⟨h1b, h2b, h⟩, fun h => h.2.2⟩

/-! ## The inflation factor `1 + 2 * gamma(3)` -/

theorem roundRat_one (fmt : FloatFormat) : fmt.roundRat 1 = 1 :=
  roundRat_exact fmt 1 1 0 (by norm_num) (by cases fmt <;> decide) (by cases fmt <;> decide)

theorem roundRat_two (fmt : FloatFormat) : fmt.roundRat 2 = 2 :=
  roundRat_exact fmt 2 1 1 (by norm_num) (by cases fmt <;> decide) (by cases fmt <;> decide)

theorem roundRat_three (fmt : FloatFormat) : fmt.roundRat 3 = 3 :=
  roundRat_exact fmt 3 3 0 (by norm_num) (by cases fmt <;> decide) (by cases fmt <;> decide)

theorem three_lt_overflow (fmt : FloatFormat) : (3 : ℚ) < 2 ^ (fmt.emax + 1) := by
  have h : (2 : ℚ) ^ (2 : Int) ≤ 2 ^ (fmt.emax + 1) :=
    zpow_le_zpow_right₀ (by norm_num) (by cases fmt <;> decide)
  have h4 : (2 : ℚ) ^ (2 : Int) = 4 := by norm_num
  linarith

/-- A result below the overflow threshold is finite, with the rounded number
as its value. -/
theorem round_finite {fmt : FloatFormat} (z : Bool) (x : ℚ)
    (h : |fmt.roundRat x| < 2 ^ (fmt.emax + 1)) :
    (IEEE.round z x : IEEE fmt).isFinite = true ∧
      (IEEE.round z x : IEEE fmt).toRat = fmt.roundRat x := by
  unfold IEEE.round
  split_ifs with h1 h2 h3
  · rw [h1, roundRat_zero]
    cases z <;> exact ⟨rfl, rfl⟩
  · exact absurd h (not_lt.mpr h2)
  · rw [h3]
    cases decide (x < 0) <;> exact ⟨rfl, rfl⟩
  · exact ⟨rfl, rfl⟩

/-- For `0 ≤ gamma ≤ 1` the inflation factor `1 + 2 * gamma` is a finite
number `≥ 1`. -/
theorem inflation_of_bounds {fmt : FloatFormat} (g : IEEE fmt) (h0 : (0 : IEEE fmt) ≤ g)
    (h1 : g ≤ 1) : ∃ q : ℚ, (1 + 2 * g : IEEE fmt) = IEEE.fin q ∧ 1 ≤ q := by
  rw [IEEE.zero_le_iff] at h0
  rw [IEEE.le_def] at h1
  obtain ⟨ng, k0⟩ := h0
  obtain ⟨_, _, k1⟩ := h1
  rcases IEEE.classify g ng with rfl | rfl | fg
  · exact absurd k0 zero_not_le_bot_key
  · exact absurd k1 (top_not_le_coe 1)
  · rw [IEEE.key_of_finite g fg] at k0 k1
    rw [coe_nonneg_iff] at k0
    have k1' : g.toRat ≤ 1 := (coe_le_coe_key _ _).mp k1
    -- 2 * g
    have hw : |fmt.roundRat (2 * g.toRat)| < 2 ^ (fmt.emax + 1) := by
      have a := roundRat_nonneg fmt (show (0 : ℚ) ≤ 2 * g.toRat by linarith)
      have b := roundRat_mono fmt (show 2 * g.toRat ≤ 2 by linarith)
      rw [roundRat_two] at b
      rw [abs_of_nonneg a]
      linarith [three_lt_overflow fmt]
    have e2 : (2 * g : IEEE fmt)
        = IEEE.round (xor (IEEE.fin 2 : IEEE fmt).signBit g.signBit) (2 * g.toRat) :=
      IEEE.mul_of_finite (IEEE.fin 2) g rfl fg
    obtain ⟨fw, tw⟩ := @round_finite fmt
      (xor (IEEE.fin 2 : IEEE fmt).signBit g.signBit) (2 * g.toRat) hw
    rw [← e2] at fw tw
    have w0 : 0 ≤ (2 * g : IEEE fmt).toRat := by
      rw [tw]
      exact roundRat_nonneg fmt (by linarith)
    have w2 : (2 * g : IEEE fmt).toRat ≤ 2 := by
      rw [tw]
      have b := roundRat_mono fmt (show 2 * g.toRat ≤ 2 by linarith)
      rwa [roundRat_two] at b
    -- 1 + 2 * g
    have e1 : (1 + 2 * g : IEEE fmt)
        = IEEE.round ((IEEE.fin 1 : IEEE fmt).signBit && (2 * g : IEEE fmt).signBit)
            (1 + (2 * g : IEEE fmt).toRat) :=
      IEEE.add_of_finite (IEEE.fin 1) (2 * g) rfl fw
    have r1 : 1 ≤ fmt.roundRat (1 + (2 * g : IEEE fmt).toRat) := by
      have b := roundRat_mono fmt (show (1 : ℚ) ≤ 1 + (2 * g : IEEE fmt).toRat by linarith)
      rwa [roundRat_one] at b
    have r3 : fmt.roundRat (1 + (2 * g : IEEE fmt).toRat) ≤ 3 := by
      have b := roundRat_mono fmt (show 1 + (2 * g : IEEE fmt).toRat ≤ 3 by linarith)
      rwa [roundRat_three] at b
    refine ⟨fmt.roundRat (1 + (2 * g : IEEE fmt).toRat), ?_, r1⟩
    rw [e1]
    exact round_eq_fin _ _ _ rfl (by linarith)
      (by rw [abs_of_nonneg (by linarith)]; linarith [three_lt_overflow fmt])

theorem round_one {fmt : FloatFormat} (z : Bool) : (IEEE.round z 1 : IEEE fmt) = IEEE.fin 1 :=
  round_eq_fin z 1 1 (roundRat_one fmt) (by norm_num)
    (by rw [abs_of_nonneg (by norm_num)]; linarith [three_lt_overflow fmt])

theorem two_zpow_neg_succ (m : Nat) : (2 : ℚ) ^ (-((m : Int) + 1)) = 1 / 2 ^ (m + 1) := by
  rw [zpow_neg, ← Nat.cast_succ, zpow_natCast, one_div]

/-- The error bound `gamma(3)` of the format lies between 0 and 1. -/
theorem gammaFloat_bounds (fmt : FloatFormat) :
    (0 : IEEE fmt) ≤ gammaFloat fmt 3 ∧ gammaFloat fmt 3 ≤ 1 := by
  -- the numerator 3 * MachineEpsilon and the denominator 1 - 3 * MachineEpsilon are exact
  have e3 : (IEEE.round false ((3 : Nat) : ℚ) : IEEE fmt) = IEEE.fin 3 := by
    have : (((3 : Nat) : ℚ)) = 3 := by norm_num
    rw [this]
    exact round_eq_fin _ _ _ (roundRat_three fmt) (by norm_num)
      (by rw [abs_of_nonneg (by norm_num)]; exact three_lt_overflow fmt)
  have hT := three_lt_overflow fmt
  have em : (IEEE.fin 3 * MachineEpsilon fmt : IEEE fmt)
      = IEEE.fin (3 / 2 ^ (fmt.mantBits + 1)) := by
    rw [MachineEpsilon,
      IEEE.mul_of_finite (IEEE.fin 3) (IEEE.fin (1 / 2 ^ (fmt.mantBits + 1))) rfl rfl]
    simp only [IEEE.toRat]
    have hx : (3 : ℚ) * (1 / 2 ^ (fmt.mantBits + 1)) = 3 / 2 ^ (fmt.mantBits + 1) := by ring
    rw [hx]
    have hpos : (0 : ℚ) < 3 / 2 ^ (fmt.mantBits + 1) := by positivity
    have hle : (3 : ℚ) / 2 ^ (fmt.mantBits + 1) ≤ 3 :=
      div_le_self (by norm_num) (one_le_pow₀ (by norm_num))
    exact round_exact _ _ 3 (-((fmt.mantBits : Int) + 1))
      (by
        rw [two_zpow_neg_succ]
        push_cast
        ring)
      hpos.ne' (by cases fmt <;> decide) (by cases fmt <;> decide)
      (by rw [abs_of_pos hpos]; linarith)
  have es : ((1 : IEEE fmt) - IEEE.fin (3 / 2 ^ (fmt.mantBits + 1)))
      = IEEE.fin (1 - 3 / 2 ^ (fmt.mantBits + 1)) := by
    have hne : (3 : ℚ) / 2 ^ (fmt.mantBits + 1) ≠ 0 := by positivity
    have hlt : (3 : ℚ) / 2 ^ (fmt.mantBits + 1) < 1 := by
      rw [div_lt_one (by positivity)]
      cases fmt <;> norm_num [FloatFormat.mantBits]
    rw [IEEE.sub_eq_add_neg, IEEE.one_def]
    simp only [IEEE.neg, if_neg hne]
    rw [IEEE.add_of_finite (IEEE.fin 1) (IEEE.fin (-(3 / 2 ^ (fmt.mantBits + 1)))) rfl rfl]
    simp only [IEEE.toRat]
    have hx : (1 : ℚ) + -(3 / 2 ^ (fmt.mantBits + 1)) = 1 - 3 / 2 ^ (fmt.mantBits + 1) := by ring
    rw [hx]
    have hpos : (0 : ℚ) < 1 - 3 / 2 ^ (fmt.mantBits + 1) := by linarith
    exact round_exact _ _ (2 ^ (fmt.mantBits + 1) - 3) (-((fmt.mantBits : Int) + 1))
      (by
        rw [two_zpow_neg_succ]
        push_cast
        field_simp)
      hpos.ne' (by cases fmt <;> decide) (by cases fmt <;> decide)
      (by
        rw [abs_of_pos hpos]
        have : (0 : ℚ) < 3 / 2 ^ (fmt.mantBits + 1) := by positivity
        linarith)
  have hpos : (0 : ℚ) < 3 / 2 ^ (fmt.mantBits + 1) := by positivity
  have hlt : (3 : ℚ) / 2 ^ (fmt.mantBits + 1) ≤ 1 / 2 := by
    rw [div_le_iff₀ (by positivity)]
    cases fmt <;> norm_num [FloatFormat.mantBits]
  have eg : gammaFloat fmt 3 = IEEE.round
      (xor (IEEE.fin (3 / 2 ^ (fmt.mantBits + 1)) : IEEE fmt).signBit
        (IEEE.fin (1 - 3 / 2 ^ (fmt.mantBits + 1)) : IEEE fmt).signBit)
      (3 / 2 ^ (fmt.mantBits + 1) / (1 - 3 / 2 ^ (fmt.mantBits + 1))) := by
    rw [gammaFloat, e3, em, es, IEEE.div_def]
    simp only [IEEE.div, IEEE.toRat]
    rw [if_neg (by linarith)]
  have v0 : (0 : ℚ) ≤ 3 / 2 ^ (fmt.mantBits + 1) / (1 - 3 / 2 ^ (fmt.mantBits + 1)) :=
    div_nonneg hpos.le (by linarith)
  have v1 : (3 : ℚ) / 2 ^ (fmt.mantBits + 1) / (1 - 3 / 2 ^ (fmt.mantBits + 1)) ≤ 1 := by
    rw [div_le_one (by linarith)]
    linarith
  rw [eg]
  constructor
  · rw [IEEE.zero_le_iff]
    exact ⟨isNaN_round _ _, key_round_nonneg _ v0⟩
  · rw [IEEE.le_def]
    refine ⟨isNaN_round _ _, rfl, ?_⟩
    have := @key_round_mono fmt
      (xor (IEEE.fin (3 / 2 ^ (fmt.mantBits + 1)) : IEEE fmt).signBit
        (IEEE.fin (1 - 3 / 2 ^ (fmt.mantBits + 1)) : IEEE fmt).signBit) false _ _ v1
    rwa [round_one] at this

/-- The inflation factor `1 + 2 * gamma(3)` of the two tests is a finite number
`≥ 1`. -/
theorem inflation_factor (fmt : FloatFormat) :
    ∃ q : ℚ, (1 + 2 * gammaFloat fmt 3 : IEEE fmt) = IEEE.fin q ∧ 1 ≤ q :=
  inflation_of_bounds _ (gammaFloat_bounds fmt).1 (gammaFloat_bounds fmt).2

/-- The decisions of the two tests on entry positions `n0 n1 n2` and exit
positions `f0 f1 f2`, with `z` for 0 and `T` for `tMax`: when every positive
exit position is at or above the entry position of its axis and `z < T`, the
optimized test succeeds exactly when the general test succeeds with an interval
that starts below `T` and ends above `z`. -/
theorem forms_agree_core {β : Type} [LinearOrder β] (z T n0 n1 n2 f0 f1 f2 : β) (hT : z < T)
    (h0 : z < f0 → n0 ≤ f0) (h1 : z < f1 → n1 ≤ f1) (h2 : z < f2 → n2 ≤ f2) :
    ((n0 ≤ f1 ∧ n1 ≤ f0) ∧ (max n0 n1 ≤ f2 ∧ n2 ≤ min f0 f1) ∧
        max (max n0 n1) n2 < T ∧ z < min (min f0 f1) f2) ↔
      (max (max (max z n0) n1) n2 ≤ min (min (min T f0) f1) f2 ∧
        max (max (max z n0) n1) n2 < T ∧ z < min (min (min T f0) f1) f2) := by
  simp only [max_le_iff, le_min_iff, max_lt_iff, lt_min_iff]
  constructor
  · rintro ⟨⟨a1, a2⟩, ⟨⟨a3, a3'⟩, a4, a4'⟩, ⟨⟨a5, a5'⟩, a5''⟩, ⟨a6, a6'⟩, a6''⟩
    have b0 := h0 a6
    have b1 := h1 a6'
    have b2 := h2 a6''
    have l0 := hT.le
    have l1 := a6.le
    have l2 := a6'.le
    have l3 := a6''.le
    have l4 := a5.le
    have l5 := a5'.le
    have l6 := a5''.le
    split_ands <;> assumption
  · intro h
    split_ands <;> tauto

/-- The corner coordinate the optimized test reads on the `x` axis. -/
theorem select_flag_x {α : Type} [Zero α] [One α] [Div α] [LT α]
    [DecidableRel (α := α) (· < ·)] (b : Bounds3 α) (r : Ray α) :
    (b.get (r.dirIsNeg 0)).x
        = (if (if 1 / r.d.x < 0 then (1 : Int) else 0) = 0 then b.pMin.x else b.pMax.x) ∧
    (b.get (1 - r.dirIsNeg 0)).x
        = (if 1 - (if 1 / r.d.x < 0 then (1 : Int) else 0) = 0 then b.pMin.x else b.pMax.x) := by
  have e : r.dirIsNeg 0 = if 1 / r.d.x < 0 then 1 else 0 := rfl
  rw [e]
  unfold Bounds3.get
  constructor <;> split_ifs <;> rfl

/-- The corner coordinate the optimized test reads on the `y` axis. -/
theorem select_flag_y {α : Type} [Zero α] [One α] [Div α] [LT α]
    [DecidableRel (α := α) (· < ·)] (b : Bounds3 α) (r : Ray α) :
    (b.get (r.dirIsNeg 1)).y
        = (if (if 1 / r.d.y < 0 then (1 : Int) else 0) = 0 then b.pMin.y else b.pMax.y) ∧
    (b.get (1 - r.dirIsNeg 1)).y
        = (if 1 - (if 1 / r.d.y < 0 then (1 : Int) else 0) = 0 then b.pMin.y else b.pMax.y) := by
  have e : r.dirIsNeg 1 = if 1 / r.d.y < 0 then 1 else 0 := rfl
  rw [e]
  unfold Bounds3.get
  constructor <;> split_ifs <;> rfl

/-- The corner coordinate the optimized test reads on the `z` axis. -/
theorem select_flag_z {α : Type} [Zero α] [One α] [Div α] [LT α]
    [DecidableRel (α := α) (· < ·)] (b : Bounds3 α) (r : Ray α) :
    (b.get (r.dirIsNeg 2)).z
        = (if (if 1 / r.d.z < 0 then (1 : Int) else 0) = 0 then b.pMin.z else b.pMax.z) ∧
    (b.get (1 - r.dirIsNeg 2)).z
        = (if 1 - (if 1 / r.d.z < 0 then (1 : Int) else 0) = 0 then b.pMin.z else b.pMax.z) := by
  have e : r.dirIsNeg 2 = if 1 / r.d.z < 0 then 1 else 0 := rfl
  rw [e]
  unfold Bounds3.get
  constructor <;> split_ifs <;> rfl

/-- The two tests agree off the boundary, in floating point, for an inflation
factor `k = 1 + 2 * gamma(3)` that is a finite number `≥ 1`. -/
theorem forms_agree_float {fmt : FloatFormat} (gamma : Nat → IEEE fmt) (q : ℚ)
    (hk : (1 + 2 * gamma 3 : IEEE fmt) = IEEE.fin q) (hq : 1 ≤ q)
    (b : Bounds3 (IEEE fmt)) (r : Ray (IEEE fmt)) (hb : b.Valid)
    (hx : isNaN ((b.pMin.x - r.o.x) * (1 / r.d.x)) = false ∧
      isNaN ((b.pMax.x - r.o.x) * (1 / r.d.x)) = false)
    (hy : isNaN ((b.pMin.y - r.o.y) * (1 / r.d.y)) = false ∧
      isNaN ((b.pMax.y - r.o.y) * (1 / r.d.y)) = false)
    (hz : isNaN ((b.pMin.z - r.o.z) * (1 / r.d.z)) = false ∧
      isNaN ((b.pMax.z - r.o.z) * (1 / r.d.z)) = false)
    (ht : 0 < r.tMax) :
    Bounds3.IntersectPInv gamma b r r.invDir r.dirIsNeg = true ↔
      ∃ t0 t1, Bounds3.IntersectP gamma b r = some (t0, t1) ∧ t0 < r.tMax ∧ 0 < t1 := by
  obtain ⟨vx, vy, vz⟩ := hb
  obtain ⟨⟨nx, fx, px⟩, ⟨sx, kx⟩, sx', kx'⟩ :=
    axis_float b.pMin.x b.pMax.x r.o.x r.d.x q hq vx hx.1 hx.2
  obtain ⟨⟨ny, fy, py⟩, ⟨sy, ky⟩, sy', ky'⟩ :=
    axis_float b.pMin.y b.pMax.y r.o.y r.d.y q hq vy hy.1 hy.2
  obtain ⟨⟨nz, fz, pz⟩, ⟨sz, kz⟩, sz', kz'⟩ :=
    axis_float b.pMin.z b.pMax.z r.o.z r.d.z q hq vz hz.1 hz.2
  have hT : r.tMax.At r.tMax.key := ⟨((IEEE.lt_def _ _).mp ht).2.1, rfl⟩
  have hT0 : (0 : WithBot (WithTop ℚ)) < r.tMax.key := ((IEEE.zero_lt_iff _).mp ht).2
  -- the optimized test
  have inv := IntersectPInv_float gamma b r r.invDir r.dirIsNeg
    (slabEntry b.pMin.x b.pMax.x r.o.x r.d.x).key (slabEntry b.pMin.y b.pMax.y r.o.y r.d.y).key
    (slabEntry b.pMin.z b.pMax.z r.o.z r.d.z).key
    (slabExit b.pMin.x b.pMax.x r.o.x r.d.x (IEEE.fin q)).key
    (slabExit b.pMin.y b.pMax.y r.o.y r.d.y (IEEE.fin q)).key
    (slabExit b.pMin.z b.pMax.z r.o.z r.d.z (IEEE.fin q)).key r.tMax.key
    (by rw [(select_flag_x b r).1]; exact ⟨sx, kx⟩)
    (by rw [(select_flag_x b r).2, hk]; exact ⟨sx', kx'⟩)
    (by rw [(select_flag_y b r).1]; exact ⟨sy, ky⟩)
    (by rw [(select_flag_y b r).2, hk]; exact ⟨sy', ky'⟩)
    (by rw [(select_flag_z b r).1]; exact ⟨sz, kz⟩)
    (by rw [(select_flag_z b r).2, hk]; exact ⟨sz', kz'⟩) hT
  -- the general test
  obtain ⟨t0, t1, h0, h1, gen⟩ := IntersectP_float gamma b r
    (slabEntry b.pMin.x b.pMax.x r.o.x r.d.x).key (slabEntry b.pMin.y b.pMax.y r.o.y r.d.y).key
    (slabEntry b.pMin.z b.pMax.z r.o.z r.d.z).key
    (slabExit b.pMin.x b.pMax.x r.o.x r.d.x (IEEE.fin q)).key
    (slabExit b.pMin.y b.pMax.y r.o.y r.d.y (IEEE.fin q)).key
    (slabExit b.pMin.z b.pMax.z r.o.z r.d.z (IEEE.fin q)).key r.tMax.key
    ⟨nx, rfl⟩ (by rw [hk]; exact ⟨fx, rfl⟩) ⟨ny, rfl⟩ (by rw [hk]; exact ⟨fy, rfl⟩)
    ⟨nz, rfl⟩ (by rw [hk]; exact ⟨fz, rfl⟩) hT
  rw [inv, forms_agree_core 0 r.tMax.key _ _ _ _ _ _ hT0 px py pz, gen]
  constructor
  · rintro ⟨c, a, e⟩
    rw [if_pos c]
    exact ⟨t0, t1, rfl, (h0.lt_iff hT).mpr a, (h1.gt_iff IEEE.At.zero).mpr e⟩
  · rintro ⟨u0, u1, e, a, c⟩
    by_cases hc : max (max (max 0 (slabEntry b.pMin.x b.pMax.x r.o.x r.d.x).key)
        (slabEntry b.pMin.y b.pMax.y r.o.y r.d.y).key)
        (slabEntry b.pMin.z b.pMax.z r.o.z r.d.z).key ≤
        min (min (min r.tMax.key (slabExit b.pMin.x b.pMax.x r.o.x r.d.x (IEEE.fin q)).key)
          (slabExit b.pMin.y b.pMax.y r.o.y r.d.y (IEEE.fin q)).key)
          (slabExit b.pMin.z b.pMax.z r.o.z r.d.z (IEEE.fin q)).key
    · rw [if_pos hc] at e
      simp only [Option.some.injEq, Prod.mk.injEq] at e
      obtain ⟨e0, e1⟩ := e
      subst e0 e1
      exact ⟨hc, (h0.lt_iff hT).mp a, (h1.gt_iff IEEE.At.zero).mp c⟩
    · rw [if_neg hc] at e
      exact absurd e (by simp)

/-! ## Evaluations in `float` -/

/-- In `float`, `gamma(3)` is `12582914 * 2^-46` and the inflation factor
`1 + 2 * gamma(3)` of the two tests is `1 + 3 * 2^-23`. -/
theorem inflation_single :
    (1 + 2 * gammaFloat FloatFormat.single 3 : IEEE FloatFormat.single)
      = IEEE.fin (8388611 / 8388608) := by
  have e3 : (IEEE.round false ((3 : Nat) : ℚ) : IEEE FloatFormat.single) = IEEE.fin 3 := by
    have : (((3 : Nat) : ℚ)) = 3 := by norm_num
    rw [this]
    exact round_exact _ _ 3 0 (by norm_num) (by norm_num) (by decide) (by decide)
      (by norm_num [FloatFormat.emax, abs_lt])
  have em : (IEEE.fin 3 * MachineEpsilon FloatFormat.single : IEEE FloatFormat.single)
      = IEEE.fin (3 / 16777216) := by
    rw [MachineEpsilon,
      IEEE.mul_of_finite (IEEE.fin 3) (IEEE.fin (1 / 2 ^ (FloatFormat.single.mantBits + 1)))
        rfl rfl]
    simp only [IEEE.toRat]
    have hx : (3 : ℚ) * (1 / 2 ^ (FloatFormat.single.mantBits + 1)) = 3 / 16777216 := by
      norm_num [FloatFormat.mantBits]
    rw [hx]
    exact round_exact _ _ 3 (-24) (by norm_num) (by norm_num) (by decide) (by decide)
      (by norm_num [FloatFormat.emax, abs_lt])
  have es : ((1 : IEEE FloatFormat.single) - IEEE.fin (3 / 16777216))
      = IEEE.fin (16777213 / 16777216) := by
    rw [IEEE.sub_eq_add_neg, IEEE.one_def]
    simp only [IEEE.neg]
    rw [if_neg (by norm_num),
      IEEE.add_of_finite (IEEE.fin 1) (IEEE.fin (-(3 / 16777216))) rfl rfl]
    simp only [IEEE.toRat]
    have hx : (1 : ℚ) + -(3 / 16777216) = 16777213 / 16777216 := by norm_num
    rw [hx]
    exact round_exact _ _ 16777213 (-24) (by norm_num) (by norm_num) (by decide) (by decide)
      (by norm_num [FloatFormat.emax, abs_lt])
  have eg : gammaFloat FloatFormat.single 3 = IEEE.fin (12582914 / 70368744177664) := by
    rw [gammaFloat, e3, em, es, IEEE.div_def]
    simp only [IEEE.div, IEEE.toRat]
    rw [if_neg (by norm_num)]
    have hr : FloatFormat.single.roundRat (3 / 16777216 / (16777213 / 16777216))
        = 12582914 / 70368744177664 := by
      rw [roundRat_of_pos _ (by norm_num),
        roundMag_normal FloatFormat.single _ (-23) 12582914 (by norm_num) (by norm_num)
          (by decide) (by norm_num [FloatFormat.mantBits, abs_lt])]
      norm_num [FloatFormat.mantBits]
    exact round_eq_fin _ _ _ hr (by norm_num) (by norm_num [FloatFormat.emax, abs_lt])
  have e2 : (2 * IEEE.fin (12582914 / 70368744177664) : IEEE FloatFormat.single)
      = IEEE.fin (12582914 / 35184372088832) := by
    rw [IEEE.two_def,
      IEEE.mul_of_finite (IEEE.fin 2) (IEEE.fin (12582914 / 70368744177664)) rfl rfl]
    simp only [IEEE.toRat]
    have hx : (2 : ℚ) * (12582914 / 70368744177664) = 12582914 / 35184372088832 := by norm_num
    rw [hx]
    exact round_exact _ _ 12582914 (-45) (by norm_num) (by norm_num) (by decide) (by decide)
      (by norm_num [FloatFormat.emax, abs_lt])
  rw [eg, e2, IEEE.one_def,
    IEEE.add_of_finite (IEEE.fin 1) (IEEE.fin (12582914 / 35184372088832)) rfl rfl]
  simp only [IEEE.toRat]
  have hr : FloatFormat.single.roundRat (1 + 12582914 / 35184372088832)
      = 8388611 / 8388608 := by
    rw [roundRat_of_pos _ (by norm_num),
      roundMag_normal FloatFormat.single _ 0 8388611 (by norm_num) (by norm_num)
        (by decide) (by norm_num [FloatFormat.mantBits, abs_lt])]
    norm_num [FloatFormat.mantBits]
  exact round_eq_fin _ _ _ hr (by norm_num) (by norm_num [FloatFormat.emax, abs_lt])

/-- The slab parameters of the box `[0,1]^3` for the ray from `(0, 1/2, 1/2)`
along `(0, 1, 0)`, in `float`: on the `x` axis, where the ray lies in the face
plane `x = 0` and its direction component is 0, the entry parameter is
`0 * inf`, a NaN. -/
theorem slab_values_in_face :
    ((0 : IEEE FloatFormat.single) - 0) * (1 / 0) = IEEE.nan ∧
    ((1 : IEEE FloatFormat.single) - 0) * (1 / 0) = IEEE.inf false ∧
    ((0 : IEEE FloatFormat.single) - IEEE.fin (1 / 2)) * (1 / 1) = IEEE.fin (-1 / 2) ∧
    ((1 : IEEE FloatFormat.single) - IEEE.fin (1 / 2)) * (1 / 1) = IEEE.fin (1 / 2) ∧
    ((0 : IEEE FloatFormat.single) - IEEE.fin (1 / 2)) * (1 / 0) = IEEE.inf true ∧
    ((1 : IEEE FloatFormat.single) - IEEE.fin (1 / 2)) * (1 / 0) = IEEE.inf false := by
  have s1 : ((1 : IEEE FloatFormat.single) - 0) = IEEE.fin 1 := by
    have := single_sub 1 0 1 0 (by norm_num) (by norm_num) (by norm_num) (by norm_num)
      (by norm_num [abs_lt])
    rw [sub_zero] at this
    exact this
  have s2 : ((0 : IEEE FloatFormat.single) - IEEE.fin (1 / 2)) = IEEE.fin (-1 / 2) := by
    have := single_sub 0 (1 / 2) (-1) (-1) (by norm_num) (by norm_num) (by norm_num)
      (by norm_num) (by norm_num [abs_lt])
    rw [show (0 : ℚ) - 1 / 2 = -1 / 2 by norm_num] at this
    exact this
  have s3 : ((1 : IEEE FloatFormat.single) - IEEE.fin (1 / 2)) = IEEE.fin (1 / 2) := by
    have := single_sub 1 (1 / 2) 1 (-1) (by norm_num) (by norm_num) (by norm_num)
      (by norm_num) (by norm_num [abs_lt])
    rw [show (1 : ℚ) - 1 / 2 = 1 / 2 by norm_num] at this
    exact this
  have m1 : (IEEE.fin (-1 / 2) * 1 : IEEE FloatFormat.single) = IEEE.fin (-1 / 2) := by
    have := single_mul (-1 / 2) 1 (-1) (-1) (by norm_num) (by norm_num) (by norm_num)
      (by norm_num) (by norm_num [abs_lt])
    rw [mul_one] at this
    exact this
  have m2 : (IEEE.fin (1 / 2) * 1 : IEEE FloatFormat.single) = IEEE.fin (1 / 2) := by
    have := single_mul (1 / 2) 1 1 (-1) (by norm_num) (by norm_num) (by norm_num)
      (by norm_num) (by norm_num [abs_lt])
    rw [mul_one] at this
    exact this
  refine ⟨?_, ?_, ?_, ?_, ?_, ?_⟩
  · rw [IEEE.zero_sub_zero, IEEE.one_div_zero, IEEE.zero_mul_inf]
  · rw [s1, IEEE.one_div_zero, IEEE.fin_mul_inf 1 (by norm_num)]
    norm_num
  · rw [s2, single_one_div_one, m1]
  · rw [s3, single_one_div_one, m2]
  · rw [s2, IEEE.one_div_zero, IEEE.fin_mul_inf _ (by norm_num)]
    norm_num
  · rw [s3, IEEE.one_div_zero, IEEE.fin_mul_inf _ (by norm_num)]
    norm_num

/-- One pass of the loop of the general test, from the values of its
intermediate variables: `A`, `B` are `tNear`, `tFar` before the swap, `n`, `f`
after the swap and the inflation, `t0`, `t1` the updated interval. -/
theorem IntersectPSlab_eval {α : Type} [Zero α] [One α] [OfNat α 2] [Add α] [Sub α] [Mul α] [Div α]
    [LT α] [DecidableRel (α := α) (· < ·)] (gamma : Nat → α)
    (b : Bounds3 α) (ray : Ray α) (i : Int) (t : α × α) (A B n f t0 t1 : α)
    (hA : (b.pMin.get i - ray.o.get i) * (1 / ray.d.get i) = A)
    (hB : (b.pMax.get i - ray.o.get i) * (1 / ray.d.get i) = B)
    (hn : (if A > B then B else A) = n)
    (hf : (if A > B then A else B) * (1 + 2 * gamma 3) = f)
    (h0 : (if n > t.1 then n else t.1) = t0)
    (h1 : (if f < t.2 then f else t.2) = t1) :
    Bounds3.IntersectPSlab gamma b ray i t = if t0 > t1 then none else some (t0, t1) := by
  subst hA hB hn hf h0 h1
  rfl

theorem Point3_get_zero {α : Type} (p : Point3 α) : p.get 0 = p.x := by
  unfold Point3.get
  rw [if_pos (by decide)]

theorem Point3_get_one {α : Type} (p : Point3 α) : p.get 1 = p.y := by
  unfold Point3.get
  rw [if_neg (by decide), if_pos (by decide)]

theorem Point3_get_two {α : Type} (p : Point3 α) : p.get 2 = p.z := by
  unfold Point3.get
  rw [if_neg (by decide), if_neg (by decide)]

theorem Vector3_get_zero {α : Type} (v : Vector3 α) : v.get 0 = v.x := by
  unfold Vector3.get
  rw [if_pos (by decide)]

theorem Vector3_get_one {α : Type} (v : Vector3 α) : v.get 1 = v.y := by
  unfold Vector3.get
  rw [if_neg (by decide), if_pos (by decide)]

theorem Vector3_get_two {α : Type} (v : Vector3 α) : v.get 2 = v.z := by
  unfold Vector3.get
  rw [if_neg (by decide), if_neg (by decide)]

theorem single_half_inflated :
    (IEEE.fin (1 / 2) * IEEE.fin (8388611 / 8388608) : IEEE FloatFormat.single)
      = IEEE.fin (8388611 / 16777216) := by
  have := single_mul (1 / 2) (8388611 / 8388608) 8388611 (-24) (by norm_num) (by norm_num)
    (by norm_num) (by norm_num) (by norm_num [abs_lt])
  rw [show (1 : ℚ) / 2 * (8388611 / 8388608) = 8388611 / 16777216 by norm_num] at this
  exact this

/-- The `x` pass for the ray in the face `x = 0`: `tNear` is NaN, every
comparison with it is false, and the running `t0` is kept. -/
theorem slab_x_in_face (t : IEEE FloatFormat.single × IEEE FloatFormat.single) :
    Bounds3.IntersectPSlab (gammaFloat FloatFormat.single)
        (⟨⟨0, 0, 0⟩, ⟨1, 1, 1⟩⟩ : Bounds3 (IEEE FloatFormat.single))
        ⟨⟨0, IEEE.fin (1 / 2), IEEE.fin (1 / 2)⟩, ⟨0, 1, 0⟩, IEEE.fin 10, 0, none⟩ 0 t
      = if (if IEEE.inf false < t.2 then IEEE.inf false else t.2) < t.1 then none
        else some (t.1, if IEEE.inf false < t.2 then IEEE.inf false else t.2) := by
  obtain ⟨v1, v2, v3, v4, v5, v6⟩ := slab_values_in_face
  refine IntersectPSlab_eval _ _ _ 0 t IEEE.nan (IEEE.inf false) IEEE.nan (IEEE.inf false) t.1
    (if IEEE.inf false < t.2 then IEEE.inf false else t.2) ?_ ?_ ?_ ?_ ?_ rfl
  · rw [Point3_get_zero, Point3_get_zero, Vector3_get_zero]; exact v1
  · rw [Point3_get_zero, Point3_get_zero, Vector3_get_zero]; exact v2
  · exact if_neg (IEEE.not_lt_nan _)
  · rw [if_neg (IEEE.not_lt_nan _), inflation_single]
    exact IEEE.inf_mul_fin false _ (by norm_num)
  · exact if_neg (IEEE.not_lt_nan _)

theorem slab_y_in_face :
    Bounds3.IntersectPSlab (gammaFloat FloatFormat.single)
        (⟨⟨0, 0, 0⟩, ⟨1, 1, 1⟩⟩ : Bounds3 (IEEE FloatFormat.single))
        ⟨⟨0, IEEE.fin (1 / 2), IEEE.fin (1 / 2)⟩, ⟨0, 1, 0⟩, IEEE.fin 10, 0, none⟩ 1
        (0, IEEE.fin 10)
      = some (0, IEEE.fin (8388611 / 16777216)) := by
  obtain ⟨v1, v2, v3, v4, v5, v6⟩ := slab_values_in_face
  have ca : ¬ (IEEE.fin (1 / 2) < (IEEE.fin (-1 / 2) : IEEE FloatFormat.single)) := by
    rw [IEEE.fin_lt_fin]; norm_num
  have cb : ¬ ((0 : IEEE FloatFormat.single) < IEEE.fin (-1 / 2)) := by
    rw [IEEE.zero_def, IEEE.fin_lt_fin]; norm_num
  have cc : (IEEE.fin (8388611 / 16777216) : IEEE FloatFormat.single) < IEEE.fin 10 := by
    rw [IEEE.fin_lt_fin]; norm_num
  have cd : ¬ ((IEEE.fin (8388611 / 16777216) : IEEE FloatFormat.single) < 0) := by
    rw [IEEE.zero_def, IEEE.fin_lt_fin]; norm_num
  rw [IntersectPSlab_eval _ _ _ 1 _ (IEEE.fin (-1 / 2)) (IEEE.fin (1 / 2)) (IEEE.fin (-1 / 2))
    (IEEE.fin (8388611 / 16777216)) 0 (IEEE.fin (8388611 / 16777216)) ?_ ?_ ?_ ?_ ?_ ?_]
  · rw [if_neg cd]
  · rw [Point3_get_one, Point3_get_one, Vector3_get_one]; exact v3
  · rw [Point3_get_one, Point3_get_one, Vector3_get_one]; exact v4
  · rw [if_neg ca]
  · rw [if_neg ca, inflation_single]
    exact single_half_inflated
  · exact if_neg cb
  · exact if_pos cc

theorem slab_z_in_face :
    Bounds3.IntersectPSlab (gammaFloat FloatFormat.single)
        (⟨⟨0, 0, 0⟩, ⟨1, 1, 1⟩⟩ : Bounds3 (IEEE FloatFormat.single))
        ⟨⟨0, IEEE.fin (1 / 2), IEEE.fin (1 / 2)⟩, ⟨0, 1, 0⟩, IEEE.fin 10, 0, none⟩ 2
        (0, IEEE.fin (8388611 / 16777216))
      = some (0, IEEE.fin (8388611 / 16777216)) := by
  obtain ⟨v1, v2, v3, v4, v5, v6⟩ := slab_values_in_face
  have cd : ¬ ((IEEE.fin (8388611 / 16777216) : IEEE FloatFormat.single) < 0) := by
    rw [IEEE.zero_def, IEEE.fin_lt_fin]; norm_num
  rw [IntersectPSlab_eval _ _ _ 2 _ (IEEE.inf true) (IEEE.inf false) (IEEE.inf true)
    (IEEE.inf false) 0 (IEEE.fin (8388611 / 16777216)) ?_ ?_ ?_ ?_ ?_ ?_]
  · rw [if_neg cd]
  · rw [Point3_get_two, Point3_get_two, Vector3_get_two]; exact v5
  · rw [Point3_get_two, Point3_get_two, Vector3_get_two]; exact v6
  · exact if_neg (IEEE.inf_not_lt _)
  · rw [if_neg (IEEE.inf_not_lt _), inflation_single]
    exact IEEE.inf_mul_fin false _ (by norm_num)
  · exact if_neg (IEEE.not_lt_neg_inf _)
  · exact if_neg (IEEE.inf_not_lt _)

/-- The general test on the ray in the face `x = 0` of `[0,1]^3`. -/
theorem IntersectP_in_face :
    Bounds3.IntersectP (gammaFloat FloatFormat.single)
        (⟨⟨0, 0, 0⟩, ⟨1, 1, 1⟩⟩ : Bounds3 (IEEE FloatFormat.single))
        ⟨⟨0, IEEE.fin (1 / 2), IEEE.fin (1 / 2)⟩, ⟨0, 1, 0⟩, IEEE.fin 10, 0, none⟩
      = some (0, IEEE.fin (8388611 / 16777216)) := by
  have ce : ¬ ((IEEE.fin 10 : IEEE FloatFormat.single) < 0) := by
    rw [IEEE.zero_def, IEEE.fin_lt_fin]; norm_num
  have hx := slab_x_in_face (0, IEEE.fin 10)
  rw [if_neg (IEEE.inf_not_lt _), if_neg ce] at hx
  rw [Bounds3.IntersectP, hx, Option.some_bind, slab_y_in_face, Option.some_bind, slab_z_in_face]

theorem IEEE.eq_nan_of_isNaN {fmt : FloatFormat} (x : IEEE fmt) (h : x.isNaN = true) :
    x = IEEE.nan := by
  cases x <;> simp_all [IEEE.isNaN]

/-- A NaN in the `x` entry parameter makes the optimized test answer `false`:
every comparison with it is false, so it stays in `tMin` to the final test
`tMin < ray.tMax`. -/
theorem IntersectPInv_nan_entry {fmt : FloatFormat} (gamma : Nat → IEEE fmt)
    (bounds : Bounds3 (IEEE fmt)) (ray : Ray (IEEE fmt)) (invDir : Vector3 (IEEE fmt))
    (dirIsNeg : Fin 3 → Int)
    (h : ((bounds.get (dirIsNeg 0)).x - ray.o.x) * invDir.x = IEEE.nan) :
    Bounds3.IntersectPInv gamma bounds ray invDir dirIsNeg = false := by
  unfold Bounds3.IntersectPInv
  simp only
  rw [h]
  generalize (((bounds.get (1 - dirIsNeg 0)).x - ray.o.x) * invDir.x) * (1 + 2 * gamma 3)
    = tMax
  generalize ((bounds.get (dirIsNeg 1)).y - ray.o.y) * invDir.y = tyMin
  generalize (((bounds.get (1 - dirIsNeg 1)).y - ray.o.y) * invDir.y) * (1 + 2 * gamma 3)
    = tyMax
  generalize ((bounds.get (dirIsNeg 2)).z - ray.o.z) * invDir.z = tzMin
  generalize (((bounds.get (1 - dirIsNeg 2)).z - ray.o.z) * invDir.z) * (1 + 2 * gamma 3)
    = tzMax
  simp only [gt_iff_lt, IEEE.not_lt_nan, IEEE.nan_not_lt, if_false, false_or, decide_False,
    Bool.false_and]
  split_ifs <;> rfl

theorem Ray.invDir_x {α : Type} [One α] [Div α] (r : Ray α) : r.invDir.x = 1 / r.d.x := by
  unfold Ray.invDir
  simp only

/-- The optimized test on the ray in the face `x = 0` of `[0,1]^3`. -/
theorem IntersectPInv_in_face :
    Bounds3.IntersectPInv (gammaFloat FloatFormat.single)
        (⟨⟨0, 0, 0⟩, ⟨1, 1, 1⟩⟩ : Bounds3 (IEEE FloatFormat.single))
        ⟨⟨0, IEEE.fin (1 / 2), IEEE.fin (1 / 2)⟩, ⟨0, 1, 0⟩, IEEE.fin 10, 0, none⟩
        (Ray.invDir (⟨⟨0, IEEE.fin (1 / 2), IEEE.fin (1 / 2)⟩, ⟨0, 1, 0⟩, IEEE.fin 10, 0, none⟩ :
          Ray (IEEE FloatFormat.single)))
        (Ray.dirIsNeg (⟨⟨0, IEEE.fin (1 / 2), IEEE.fin (1 / 2)⟩, ⟨0, 1, 0⟩, IEEE.fin 10, 0,
          none⟩ : Ray (IEEE FloatFormat.single))) = false := by
  apply IntersectPInv_nan_entry
  rw [(select_flag_x _ _).1, Ray.invDir_x]
  have e : ((1 : IEEE FloatFormat.single) / 0) = IEEE.inf false := IEEE.one_div_zero
  have c : ¬ ((IEEE.inf false : IEEE FloatFormat.single) < 0) := IEEE.inf_not_lt _
  have hflag : (if (1 : IEEE FloatFormat.single) / 0 < 0 then (1 : Int) else 0) = 0 := by
    rw [e]; exact if_neg c
  have := slab_values_in_face.1
  show ((if (if (1 : IEEE FloatFormat.single) / 0 < 0 then (1 : Int) else 0) = 0 then
    (0 : IEEE FloatFormat.single) else 1) - 0) * (1 / 0) = IEEE.nan
  rw [hflag, if_pos rfl]
  exact this

/-- C1 (second disagreement, floating point): the box `[0,1]^3` and the ray
from `(0, 1/2, 1/2)` along `(0, 1, 0)` with `tMax = 10`, in `float`.  The ray
runs inside the face `x = 0` of the box; on the `x` axis the entry parameter is
`0 * inf`, a NaN.  The general form, whose comparisons with the NaN are false,
keeps `t0 = 0` and reports the hit interval `(0, 0.5 * (1 + 2 * gamma(3)))`;
the optimized form keeps the NaN in `tMin` and its final test `tMin < tMax`
fails. -/
theorem IntersectP_forms_disagree_in_face :
    Bounds3.IntersectP (gammaFloat FloatFormat.single)
        (⟨⟨0, 0, 0⟩, ⟨1, 1, 1⟩⟩ : Bounds3 (IEEE FloatFormat.single))
        ⟨⟨0, IEEE.fin (1 / 2), IEEE.fin (1 / 2)⟩, ⟨0, 1, 0⟩, IEEE.fin 10, 0, none⟩
      = some (0, IEEE.fin (8388611 / 16777216)) ∧
    Bounds3.IntersectPInv (gammaFloat FloatFormat.single)
        (⟨⟨0, 0, 0⟩, ⟨1, 1, 1⟩⟩ : Bounds3 (IEEE FloatFormat.single))
        ⟨⟨0, IEEE.fin (1 / 2), IEEE.fin (1 / 2)⟩, ⟨0, 1, 0⟩, IEEE.fin 10, 0, none⟩
        (Ray.invDir (⟨⟨0, IEEE.fin (1 / 2), IEEE.fin (1 / 2)⟩, ⟨0, 1, 0⟩, IEEE.fin 10, 0, none⟩ :
          Ray (IEEE FloatFormat.single)))
        (Ray.dirIsNeg (⟨⟨0, IEEE.fin (1 / 2), IEEE.fin (1 / 2)⟩, ⟨0, 1, 0⟩, IEEE.fin 10, 0,
          none⟩ : Ray (IEEE FloatFormat.single))) = false :=
  ⟨IntersectP_in_face, IntersectPInv_in_face⟩

/-- The slab parameters of the box `[(-1,-1,-1), (1,1,1)]` for the ray from the
origin along `(0, 1, 0)`, in `float`: `-inf` and `+inf` on the axes `x` and `z`,
where the direction component is 0, and `-1`, `1` on the axis `y`. -/
theorem slab_values_axis_parallel :
    ((IEEE.fin (-1) : IEEE FloatFormat.single) - 0) * (1 / 0) = IEEE.inf true ∧
    ((1 : IEEE FloatFormat.single) - 0) * (1 / 0) = IEEE.inf false ∧
    ((IEEE.fin (-1) : IEEE FloatFormat.single) - 0) * (1 / 1) = IEEE.fin (-1) ∧
    ((1 : IEEE FloatFormat.single) - 0) * (1 / 1) = IEEE.fin 1 := by
  have s1 : ((IEEE.fin (-1) : IEEE FloatFormat.single) - 0) = IEEE.fin (-1) := by
    have := single_sub (-1) 0 (-1) 0 (by norm_num) (by norm_num) (by norm_num) (by norm_num)
      (by norm_num [abs_lt])
    rw [show (-1 : ℚ) - 0 = -1 by norm_num] at this
    exact this
  have s2 : ((1 : IEEE FloatFormat.single) - 0) = IEEE.fin 1 := by
    have := single_sub 1 0 1 0 (by norm_num) (by norm_num) (by norm_num) (by norm_num)
      (by norm_num [abs_lt])
    rw [show (1 : ℚ) - 0 = 1 by norm_num] at this
    exact this
  have m1 : (IEEE.fin (-1) * IEEE.fin 1 : IEEE FloatFormat.single) = IEEE.fin (-1) := by
    have := single_mul (-1) 1 (-1) 0 (by norm_num) (by norm_num) (by norm_num) (by norm_num)
      (by norm_num [abs_lt])
    rw [show (-1 : ℚ) * 1 = -1 by norm_num] at this
    exact this
  have m2 : (IEEE.fin 1 * IEEE.fin 1 : IEEE FloatFormat.single) = IEEE.fin 1 := by
    have := single_mul 1 1 1 0 (by norm_num) (by norm_num) (by norm_num) (by norm_num)
      (by norm_num [abs_lt])
    rw [show (1 : ℚ) * 1 = 1 by norm_num] at this
    exact this
  have i1 : (IEEE.fin (-1) * IEEE.inf false : IEEE FloatFormat.single) = IEEE.inf true := by
    rw [IEEE.fin_mul_inf (-1) (by norm_num)]
    norm_num
  have i2 : (IEEE.fin 1 * IEEE.inf false : IEEE FloatFormat.single) = IEEE.inf false := by
    rw [IEEE.fin_mul_inf 1 (by norm_num)]
    norm_num
  refine ⟨?_, ?_, ?_, ?_⟩
  · rw [s1, IEEE.one_div_zero, i1]
  · rw [s2, IEEE.one_div_zero, i2]
  · rw [s1, single_one_div_one, IEEE.one_def, m1]
  · rw [s2, single_one_div_one, IEEE.one_def, m2]

/-- The box `[(-1,-1,-1), (1,1,1)]` is valid, in `float`. -/
theorem unit_cube_valid :
    (⟨⟨IEEE.fin (-1), IEEE.fin (-1), IEEE.fin (-1)⟩, ⟨1, 1, 1⟩⟩ :
      Bounds3 (IEEE FloatFormat.single)).Valid := by
  have h : (IEEE.fin (-1) : IEEE FloatFormat.single) ≤ 1 := by
    rw [IEEE.one_def, IEEE.fin_le_fin]; norm_num
  exact ⟨h, h, h⟩

theorem zero_lt_ten : (0 : IEEE FloatFormat.single) < IEEE.fin 10 := by
  rw [IEEE.zero_def, IEEE.fin_lt_fin]; norm_num

/-- C1 (amended): in floating point (`float` or `double`, with `gamma` of
`pbrt.h`), for every valid `Bounds3` `b` and every `Ray` `r` with `r.tMax > 0`
such that none of the six slab parameters `(pMin[i] - o[i]) * (1 / d[i])`,
`(pMax[i] - o[i]) * (1 / d[i])` is a NaN, with `invDir = 1 / r.d` and
`dirIsNeg[i] = (invDir[i] < 0)`: the optimized form returns true if and only if
the general form returns true with `hitt0 < r.tMax` and `hitt1 > 0`.  Direction
components equal to zero (rays parallel to an axis) are included: their slab
parameters are infinite, not NaN, unless the origin lies in a face plane of
that axis. -/
theorem C1_IntersectP_forms_agree_off_boundary (fmt : FloatFormat) (b : Bounds3 (IEEE fmt))
    (r : Ray (IEEE fmt)) (hb : b.Valid)
    (hx : isNaN ((b.pMin.x - r.o.x) * (1 / r.d.x)) = false ∧
      isNaN ((b.pMax.x - r.o.x) * (1 / r.d.x)) = false)
    (hy : isNaN ((b.pMin.y - r.o.y) * (1 / r.d.y)) = false ∧
      isNaN ((b.pMax.y - r.o.y) * (1 / r.d.y)) = false)
    (hz : isNaN ((b.pMin.z - r.o.z) * (1 / r.d.z)) = false ∧
      isNaN ((b.pMax.z - r.o.z) * (1 / r.d.z)) = false)
    (ht : 0 < r.tMax) :
    Bounds3.IntersectPInv (gammaFloat fmt) b r r.invDir r.dirIsNeg = true ↔
      ∃ t0 t1, Bounds3.IntersectP (gammaFloat fmt) b r = some (t0, t1) ∧
        t0 < r.tMax ∧ 0 < t1 := by
  obtain ⟨q, hk, hq⟩ := inflation_factor fmt
  exact forms_agree_float (gammaFloat fmt) q hk hq b r hb hx hy hz ht

/-- Witness for C1 (amended): origin inside the box `[(-1,-1,-1), (1,1,1)]`,
direction `(0, 1, 0)` parallel to the `y` axis, `tMax = 10`, in `float`. -/
theorem C1_IntersectP_forms_agree_off_boundary_witness :
    Bounds3.IntersectPInv (gammaFloat FloatFormat.single)
        (⟨⟨IEEE.fin (-1), IEEE.fin (-1), IEEE.fin (-1)⟩, ⟨1, 1, 1⟩⟩ :
          Bounds3 (IEEE FloatFormat.single))
        ⟨⟨0, 0, 0⟩, ⟨0, 1, 0⟩, IEEE.fin 10, 0, none⟩
        (Ray.invDir (⟨⟨0, 0, 0⟩, ⟨0, 1, 0⟩, IEEE.fin 10, 0, none⟩ :
          Ray (IEEE FloatFormat.single)))
        (Ray.dirIsNeg (⟨⟨0, 0, 0⟩, ⟨0, 1, 0⟩, IEEE.fin 10, 0, none⟩ :
          Ray (IEEE FloatFormat.single))) = true ↔
      ∃ t0 t1, Bounds3.IntersectP (gammaFloat FloatFormat.single)
        (⟨⟨IEEE.fin (-1), IEEE.fin (-1), IEEE.fin (-1)⟩, ⟨1, 1, 1⟩⟩ :
          Bounds3 (IEEE FloatFormat.single))
        ⟨⟨0, 0, 0⟩, ⟨0, 1, 0⟩, IEEE.fin 10, 0, none⟩ = some (t0, t1) ∧
          t0 < IEEE.fin 10 ∧ 0 < t1 :=
  C1_IntersectP_forms_agree_off_boundary FloatFormat.single
    ⟨⟨IEEE.fin (-1), IEEE.fin (-1), IEEE.fin (-1)⟩, ⟨1, 1, 1⟩⟩
    ⟨⟨0, 0, 0⟩, ⟨0, 1, 0⟩, IEEE.fin 10, 0, none⟩ unit_cube_valid
    ⟨by rw [slab_values_axis_parallel.1]; rfl, by rw [slab_values_axis_parallel.2.1]; rfl⟩
    ⟨by rw [slab_values_axis_parallel.2.2.1]; rfl, by rw [slab_values_axis_parallel.2.2.2]; rfl⟩
    ⟨by rw [slab_values_axis_parallel.1]; rfl, by rw [slab_values_axis_parallel.2.1]; rfl⟩
    zero_lt_ten

/-! ## Floating point: the disagreements of the two tests -/

/-- One pass of the loop of the general test that keeps a non-empty interval. -/
theorem IntersectPSlab_some {α : Type} [Zero α] [One α] [OfNat α 2] [Add α] [Sub α] [Mul α]
    [Div α] [LT α] [DecidableRel (α := α) (· < ·)] (gamma : Nat → α)
    (b : Bounds3 α) (ray : Ray α) (i : Int) (t : α × α) (A B n f t0 t1 : α)
    (hA : (b.pMin.get i - ray.o.get i) * (1 / ray.d.get i) = A)
    (hB : (b.pMax.get i - ray.o.get i) * (1 / ray.d.get i) = B)
    (hn : (if A > B then B else A) = n)
    (hf : (if A > B then A else B) * (1 + 2 * gamma 3) = f)
    (h0 : (if n > t.1 then n else t.1) = t0)
    (h1 : (if f < t.2 then f else t.2) = t1) (h : ¬ t0 > t1) :
    Bounds3.IntersectPSlab gamma b ray i t = some (t0, t1) := by
  rw [IntersectPSlab_eval gamma b ray i t A B n f t0 t1 hA hB hn hf h0 h1, if_neg h]

/-- One pass of the loop of the general test that empties the interval. -/
theorem IntersectPSlab_none {α : Type} [Zero α] [One α] [OfNat α 2] [Add α] [Sub α] [Mul α]
    [Div α] [LT α] [DecidableRel (α := α) (· < ·)] (gamma : Nat → α)
    (b : Bounds3 α) (ray : Ray α) (i : Int) (t : α × α) (A B n f t0 t1 : α)
    (hA : (b.pMin.get i - ray.o.get i) * (1 / ray.d.get i) = A)
    (hB : (b.pMax.get i - ray.o.get i) * (1 / ray.d.get i) = B)
    (hn : (if A > B then B else A) = n)
    (hf : (if A > B then A else B) * (1 + 2 * gamma 3) = f)
    (h0 : (if n > t.1 then n else t.1) = t0)
    (h1 : (if f < t.2 then f else t.2) = t1) (h : t0 > t1) :
    Bounds3.IntersectPSlab gamma b ray i t = none := by
  rw [IntersectPSlab_eval gamma b ray i t A B n f t0 t1 hA hB hn hf h0 h1, if_pos h]

/-- The general test from its three passes. -/
theorem IntersectP_of_slabs {α : Type} [Zero α] [One α] [OfNat α 2] [Add α] [Sub α] [Mul α]
    [Div α] [LT α] [DecidableRel (α := α) (· < ·)] (gamma : Nat → α)
    (b : Bounds3 α) (ray : Ray α) (s0 s1 s2 : α × α)
    (h0 : Bounds3.IntersectPSlab gamma b ray 0 (0, ray.tMax) = some s0)
    (h1 : Bounds3.IntersectPSlab gamma b ray 1 s0 = some s1)
    (h2 : Bounds3.IntersectPSlab gamma b ray 2 s1 = some s2) :
    Bounds3.IntersectP gamma b ray = some s2 := by
  rw [Bounds3.IntersectP, h0, Option.some_bind, h1, Option.some_bind, h2]

/-- The optimized test from the values of its intermediate variables: the six
slab parameters, the exits already inflated. -/
theorem IntersectPInv_eval {α : Type} [Zero α] [One α] [OfNat α 2] [Add α] [Sub α] [Mul α]
    [Div α] [LT α] [DecidableRel (α := α) (· < ·)] (gamma : Nat → α)
    (bounds : Bounds3 α) (ray : Ray α) (invDir : Vector3 α) (dirIsNeg : Fin 3 → Int)
    (tMin tMax tyMin tyMax tzMin tzMax : α)
    (h1 : ((bounds.get (dirIsNeg 0)).x - ray.o.x) * invDir.x = tMin)
    (h2 : (((bounds.get (1 - dirIsNeg 0)).x - ray.o.x) * invDir.x) * (1 + 2 * gamma 3) = tMax)
    (h3 : ((bounds.get (dirIsNeg 1)).y - ray.o.y) * invDir.y = tyMin)
    (h4 : (((bounds.get (1 - dirIsNeg 1)).y - ray.o.y) * invDir.y) * (1 + 2 * gamma 3) = tyMax)
    (h5 : ((bounds.get (dirIsNeg 2)).z - ray.o.z) * invDir.z = tzMin)
    (h6 : (((bounds.get (1 - dirIsNeg 2)).z - ray.o.z) * invDir.z) * (1 + 2 * gamma 3)
      = tzMax) :
    Bounds3.IntersectPInv gamma bounds ray invDir dirIsNeg =
      if tMin > tyMax ∨ tyMin > tMax then false
      else if (if tyMin > tMin then tyMin else tMin) > tzMax ∨
          tzMin > (if tyMax < tMax then tyMax else tMax) then false
      else decide ((if tzMin > (if tyMin > tMin then tyMin else tMin) then tzMin
            else (if tyMin > tMin then tyMin else tMin)) < ray.tMax) &&
          decide ((if tzMax < (if tyMax < tMax then tyMax else tMax) then tzMax
            else (if tyMax < tMax then tyMax else tMax)) > 0) := by
  subst h1 h2 h3 h4 h5 h6
  rfl


theorem Ray.invDir_y {α : Type} [One α] [Div α] (r : Ray α) : r.invDir.y = 1 / r.d.y := by
  unfold Ray.invDir
  simp only

theorem Ray.invDir_z {α : Type} [One α] [Div α] (r : Ray α) : r.invDir.z = 1 / r.d.z := by
  unfold Ray.invDir
  simp only

/-- For a reciprocal direction component that is not negative the optimized
test reads `pMin.x` for the entry and `pMax.x` for the exit. -/
theorem select_nonneg_x {α : Type} [Zero α] [One α] [Div α] [LT α]
    [DecidableRel (α := α) (· < ·)] (b : Bounds3 α) (r : Ray α) (h : ¬ (1 / r.d.x < 0)) :
    (b.get (r.dirIsNeg 0)).x = b.pMin.x ∧ (b.get (1 - r.dirIsNeg 0)).x = b.pMax.x := by
  obtain ⟨e1, e2⟩ := select_flag_x b r
  rw [e1, e2, if_neg h]
  exact ⟨if_pos rfl, if_neg (by decide)⟩

theorem select_nonneg_y {α : Type} [Zero α] [One α] [Div α] [LT α]
    [DecidableRel (α := α) (· < ·)] (b : Bounds3 α) (r : Ray α) (h : ¬ (1 / r.d.y < 0)) :
    (b.get (r.dirIsNeg 1)).y = b.pMin.y ∧ (b.get (1 - r.dirIsNeg 1)).y = b.pMax.y := by
  obtain ⟨e1, e2⟩ := select_flag_y b r
  rw [e1, e2, if_neg h]
  exact ⟨if_pos rfl, if_neg (by decide)⟩

theorem select_nonneg_z {α : Type} [Zero α] [One α] [Div α] [LT α]
    [DecidableRel (α := α) (· < ·)] (b : Bounds3 α) (r : Ray α) (h : ¬ (1 / r.d.z < 0)) :
    (b.get (r.dirIsNeg 2)).z = b.pMin.z ∧ (b.get (1 - r.dirIsNeg 2)).z = b.pMax.z := by
  obtain ⟨e1, e2⟩ := select_flag_z b r
  rw [e1, e2, if_neg h]
  exact ⟨if_pos rfl, if_neg (by decide)⟩

theorem IEEE.lt_irrefl_float {fmt : FloatFormat} (a : IEEE fmt) : ¬ (a < a) := by
  rw [IEEE.lt_def]
  exact fun h => lt_irrefl _ h.2.2

theorem one_div_one_nonneg : ¬ ((1 : IEEE FloatFormat.single) / 1 < 0) := by
  rw [single_one_div_one, IEEE.one_def, IEEE.zero_def, IEEE.fin_lt_fin]
  norm_num

theorem one_div_zero_nonneg : ¬ ((1 : IEEE FloatFormat.single) / 0 < 0) := by
  rw [IEEE.one_div_zero]
  exact IEEE.inf_not_lt _

/-- Slab parameters for a direction component 1, in `float`. -/
theorem slab_values_diagonal :
    ((0 : IEEE FloatFormat.single) - 0) * (1 / 1) = 0 ∧
    ((IEEE.fin 2 : IEEE FloatFormat.single) - 0) * (1 / 1) = IEEE.fin 2 := by
  have s2 : ((IEEE.fin 2 : IEEE FloatFormat.single) - 0) = IEEE.fin 2 := by
    have := single_sub 2 0 1 1 (by norm_num) (by norm_num) (by norm_num) (by norm_num)
      (by norm_num [abs_lt])
    rw [show (2 : ℚ) - 0 = 2 by norm_num] at this
    exact this
  have m2 : (IEEE.fin 2 * IEEE.fin 1 : IEEE FloatFormat.single) = IEEE.fin 2 := by
    have := single_mul 2 1 1 1 (by norm_num) (by norm_num) (by norm_num) (by norm_num)
      (by norm_num [abs_lt])
    rw [show (2 : ℚ) * 1 = 2 by norm_num] at this
    exact this
  have m0 : ((0 : IEEE FloatFormat.single) * 1) = 0 := by
    simp [IEEE.mul_def, IEEE.zero_def, IEEE.one_def, IEEE.mul, IEEE.toRat, IEEE.round_zero,
      IEEE.zero, IEEE.signBit]
  refine ⟨?_, ?_⟩
  · rw [IEEE.zero_sub_zero, single_one_div_one, m0]
  · rw [s2, single_one_div_one, IEEE.one_def, m2]

/-- Products with the inflation factor `1 + 2 * gamma(3)` of `float`, all
exact. -/
theorem single_inflated :
    (IEEE.fin 1 * IEEE.fin (8388611 / 8388608) : IEEE FloatFormat.single) = IEEE.fin (8388611 / 8388608) ∧
    (IEEE.fin (-1) * IEEE.fin (8388611 / 8388608) : IEEE FloatFormat.single)
      = IEEE.fin (-8388611 / 8388608) ∧
    (IEEE.fin 2 * IEEE.fin (8388611 / 8388608) : IEEE FloatFormat.single)
      = IEEE.fin (8388611 / 4194304) ∧
    ((0 : IEEE FloatFormat.single) * IEEE.fin (8388611 / 8388608)) = 0 := by
  refine ⟨?_, ?_, ?_, ?_⟩
  · have := single_mul 1 (8388611 / 8388608) 8388611 (-23) (by norm_num) (by norm_num) (by norm_num)
      (by norm_num) (by norm_num [abs_lt])
    rw [show (1 : ℚ) * (8388611 / 8388608) = 8388611 / 8388608 by norm_num] at this
    exact this
  · have := single_mul (-1) (8388611 / 8388608) (-8388611) (-23) (by norm_num) (by norm_num)
      (by norm_num) (by norm_num) (by norm_num [abs_lt])
    rw [show (-1 : ℚ) * (8388611 / 8388608) = -8388611 / 8388608 by norm_num] at this
    exact this
  · have := single_mul 2 (8388611 / 8388608) 8388611 (-22) (by norm_num) (by norm_num) (by norm_num)
      (by norm_num) (by norm_num [abs_lt])
    rw [show (2 : ℚ) * (8388611 / 8388608) = 8388611 / 4194304 by norm_num] at this
    exact this
  · rw [IEEE.zero_def, IEEE.mul_of_finite (IEEE.fin 0) (IEEE.fin (8388611 / 8388608)) rfl rfl,
      IEEE.toRat_fin, IEEE.toRat_fin, zero_mul, IEEE.round_zero]
    norm_num [IEEE.zero, IEEE.signBit]

/-- The general test on the box `[(-1,-1,-1), (0,1,1)]` and the ray from the
origin along `(1,1,1)`, in `float`. -/
theorem IntersectP_at_zero_float :
    Bounds3.IntersectP (gammaFloat FloatFormat.single)
        (⟨⟨IEEE.fin (-1), IEEE.fin (-1), IEEE.fin (-1)⟩, ⟨0, 1, 1⟩⟩ :
          Bounds3 (IEEE FloatFormat.single))
        ⟨⟨0, 0, 0⟩, ⟨1, 1, 1⟩, IEEE.fin 10, 0, none⟩ = some (0, 0) := by
  obtain ⟨_, _, p1, p2⟩ := slab_values_axis_parallel
  obtain ⟨p3, _⟩ := slab_values_diagonal
  obtain ⟨k1, _, _, k0⟩ := single_inflated
  have c1 : ¬ ((0 : IEEE FloatFormat.single) < IEEE.fin (-1)) := by
    rw [IEEE.zero_def, IEEE.fin_lt_fin]; norm_num
  have c2 : ¬ ((IEEE.fin 1 : IEEE FloatFormat.single) < IEEE.fin (-1)) := by
    rw [IEEE.fin_lt_fin]; norm_num
  have c3 : (0 : IEEE FloatFormat.single) < IEEE.fin 10 := by
    rw [IEEE.zero_def, IEEE.fin_lt_fin]; norm_num
  have c4 : ¬ ((IEEE.fin (8388611 / 8388608) : IEEE FloatFormat.single) < 0) := by
    rw [IEEE.zero_def, IEEE.fin_lt_fin]; norm_num
  refine IntersectP_of_slabs _ _ _ (0, 0) (0, 0) (0, 0) ?_ ?_ ?_
  · refine IntersectPSlab_some _ _ _ 0 _ (IEEE.fin (-1)) 0 (IEEE.fin (-1)) 0 0 0
      ?_ ?_ ?_ ?_ ?_ ?_ (IEEE.lt_irrefl_float _)
    · rw [Point3_get_zero, Point3_get_zero, Vector3_get_zero]; exact p1
    · rw [Point3_get_zero, Point3_get_zero, Vector3_get_zero]; exact p3
    · exact if_neg c1
    · rw [if_neg c1, inflation_single]; exact k0
    · exact if_neg c1
    · exact if_pos c3
  · refine IntersectPSlab_some _ _ _ 1 _ (IEEE.fin (-1)) (IEEE.fin 1) (IEEE.fin (-1))
      (IEEE.fin (8388611 / 8388608)) 0 0 ?_ ?_ ?_ ?_ ?_ ?_ (IEEE.lt_irrefl_float _)
    · rw [Point3_get_one, Point3_get_one, Vector3_get_one]; exact p1
    · rw [Point3_get_one, Point3_get_one, Vector3_get_one]; exact p2
    · exact if_neg c2
    · rw [if_neg c2, inflation_single]; exact k1
    · exact if_neg c1
    · exact if_neg c4
  · refine IntersectPSlab_some _ _ _ 2 _ (IEEE.fin (-1)) (IEEE.fin 1) (IEEE.fin (-1))
      (IEEE.fin (8388611 / 8388608)) 0 0 ?_ ?_ ?_ ?_ ?_ ?_ (IEEE.lt_irrefl_float _)
    · rw [Point3_get_two, Point3_get_two, Vector3_get_two]; exact p1
    · rw [Point3_get_two, Point3_get_two, Vector3_get_two]; exact p2
    · exact if_neg c2
    · rw [if_neg c2, inflation_single]; exact k1
    · exact if_neg c1
    · exact if_neg c4

/-- The boundary disagreement at parameter 0, in `float`: the box
`[(-1,-1,-1), (0,1,1)]` and the ray from the origin along `(1,1,1)` with
`tMax = 10`.  The box is valid, no slab parameter is a NaN and `tMax > 0`; the
general form returns true with `hitt0 = hitt1 = 0`, the optimized form, whose
final test is `tMax > 0`, returns false. -/
theorem IntersectP_forms_disagree_at_zero_float :
    Bounds3.IntersectP (gammaFloat FloatFormat.single)
        (⟨⟨IEEE.fin (-1), IEEE.fin (-1), IEEE.fin (-1)⟩, ⟨0, 1, 1⟩⟩ :
          Bounds3 (IEEE FloatFormat.single))
        ⟨⟨0, 0, 0⟩, ⟨1, 1, 1⟩, IEEE.fin 10, 0, none⟩ = some (0, 0) ∧
    Bounds3.IntersectPInv (gammaFloat FloatFormat.single)
        (⟨⟨IEEE.fin (-1), IEEE.fin (-1), IEEE.fin (-1)⟩, ⟨0, 1, 1⟩⟩ :
          Bounds3 (IEEE FloatFormat.single))
        ⟨⟨0, 0, 0⟩, ⟨1, 1, 1⟩, IEEE.fin 10, 0, none⟩
        (Ray.invDir (⟨⟨0, 0, 0⟩, ⟨1, 1, 1⟩, IEEE.fin 10, 0, none⟩ :
          Ray (IEEE FloatFormat.single)))
        (Ray.dirIsNeg (⟨⟨0, 0, 0⟩, ⟨1, 1, 1⟩, IEEE.fin 10, 0, none⟩ :
          Ray (IEEE FloatFormat.single))) = false := by
  obtain ⟨_, _, p1, p2⟩ := slab_values_axis_parallel
  obtain ⟨p3, _⟩ := slab_values_diagonal
  have hv0 : (IEEE.fin (-1) : IEEE FloatFormat.single) ≤ 0 := by
    rw [IEEE.zero_def, IEEE.fin_le_fin]; norm_num
  have hv1 : (IEEE.fin (-1) : IEEE FloatFormat.single) ≤ 1 := by
    rw [IEEE.one_def, IEEE.fin_le_fin]; norm_num
  refine ⟨IntersectP_at_zero_float, ?_⟩
  rw [Bool.eq_false_iff]
  intro h
  obtain ⟨t0, t1, e, _, h1⟩ := (forms_agree_float (gammaFloat FloatFormat.single) (8388611 / 8388608)
    inflation_single (by norm_num)
    (⟨⟨IEEE.fin (-1), IEEE.fin (-1), IEEE.fin (-1)⟩, ⟨0, 1, 1⟩⟩ :
      Bounds3 (IEEE FloatFormat.single))
    ⟨⟨0, 0, 0⟩, ⟨1, 1, 1⟩, IEEE.fin 10, 0, none⟩ ⟨hv0, hv1, hv1⟩
    ⟨by rw [p1]; rfl, by rw [p3]; rfl⟩ ⟨by rw [p1]; rfl, by rw [p2]; rfl⟩
    ⟨by rw [p1]; rfl, by rw [p2]; rfl⟩ zero_lt_ten).mp h
  rw [IntersectP_at_zero_float] at e
  injection e with e
  injection e with e0 e1
  rw [← e1] at h1
  exact IEEE.lt_irrefl_float _ h1


/-- The optimized test answers `false` at its first exit when the `x` entry
exceeds the `y` exit or the `y` entry exceeds the `x` exit. -/
theorem IntersectPInv_false_first {α : Type} [Zero α] [One α] [OfNat α 2] [Add α] [Sub α]
    [Mul α] [Div α] [LT α] [DecidableRel (α := α) (· < ·)] (gamma : Nat → α)
    (bounds : Bounds3 α) (ray : Ray α) (invDir : Vector3 α) (dirIsNeg : Fin 3 → Int)
    (tMin tMax tyMin tyMax : α)
    (h1 : ((bounds.get (dirIsNeg 0)).x - ray.o.x) * invDir.x = tMin)
    (h2 : (((bounds.get (1 - dirIsNeg 0)).x - ray.o.x) * invDir.x) * (1 + 2 * gamma 3) = tMax)
    (h3 : ((bounds.get (dirIsNeg 1)).y - ray.o.y) * invDir.y = tyMin)
    (h4 : (((bounds.get (1 - dirIsNeg 1)).y - ray.o.y) * invDir.y) * (1 + 2 * gamma 3) = tyMax)
    (h : tMin > tyMax ∨ tyMin > tMax) :
    Bounds3.IntersectPInv gamma bounds ray invDir dirIsNeg = false := by
  rw [IntersectPInv_eval gamma bounds ray invDir dirIsNeg tMin tMax tyMin tyMax _ _ h1 h2 h3 h4
    rfl rfl, if_pos h]

/-- The optimized test answers `true` when it passes its two exits and its
final test. -/
theorem IntersectPInv_true_of {α : Type} [Zero α] [One α] [OfNat α 2] [Add α] [Sub α]
    [Mul α] [Div α] [LT α] [DecidableRel (α := α) (· < ·)] (gamma : Nat → α)
    (bounds : Bounds3 α) (ray : Ray α) (invDir : Vector3 α) (dirIsNeg : Fin 3 → Int)
    (tMin tMax tyMin tyMax tzMin tzMax u v u2 v2 : α)
    (h1 : ((bounds.get (dirIsNeg 0)).x - ray.o.x) * invDir.x = tMin)
    (h2 : (((bounds.get (1 - dirIsNeg 0)).x - ray.o.x) * invDir.x) * (1 + 2 * gamma 3) = tMax)
    (h3 : ((bounds.get (dirIsNeg 1)).y - ray.o.y) * invDir.y = tyMin)
    (h4 : (((bounds.get (1 - dirIsNeg 1)).y - ray.o.y) * invDir.y) * (1 + 2 * gamma 3) = tyMax)
    (h5 : ((bounds.get (dirIsNeg 2)).z - ray.o.z) * invDir.z = tzMin)
    (h6 : (((bounds.get (1 - dirIsNeg 2)).z - ray.o.z) * invDir.z) * (1 + 2 * gamma 3)
      = tzMax)
    (a : ¬ tMin > tyMax) (b : ¬ tyMin > tMax)
    (hu : (if tyMin > tMin then tyMin else tMin) = u)
    (hv : (if tyMax < tMax then tyMax else tMax) = v)
    (c : ¬ u > tzMax) (d : ¬ tzMin > v)
    (hu2 : (if tzMin > u then tzMin else u) = u2)
    (hv2 : (if tzMax < v then tzMax else v) = v2)
    (e : u2 < ray.tMax) (f : v2 > 0) :
    Bounds3.IntersectPInv gamma bounds ray invDir dirIsNeg = true := by
  rw [IntersectPInv_eval gamma bounds ray invDir dirIsNeg tMin tMax tyMin tyMax tzMin tzMax
    h1 h2 h3 h4 h5 h6, if_neg (not_or.mpr ⟨a, b⟩), hu, hv, if_neg (not_or.mpr ⟨c, d⟩), hu2,
    hv2, decide_eq_true e, decide_eq_true f]
  rfl

/-- The optimized test has no swap, in `float`: on the box
`[(1,-1,-1), (-1,1,1)]`, whose corners are reversed on `x`, the general form
(which swaps) reports the hit `(0, 1 + 2 * gamma(3))` for the ray from the
origin along `(1,1,1)`, the optimized form a miss. -/
theorem IntersectP_forms_on_reversed_box_float :
    Bounds3.IntersectP (gammaFloat FloatFormat.single)
        (⟨⟨1, IEEE.fin (-1), IEEE.fin (-1)⟩, ⟨IEEE.fin (-1), 1, 1⟩⟩ :
          Bounds3 (IEEE FloatFormat.single))
        ⟨⟨0, 0, 0⟩, ⟨1, 1, 1⟩, IEEE.fin 10, 0, none⟩ = some (0, IEEE.fin (8388611 / 8388608)) ∧
    Bounds3.IntersectPInv (gammaFloat FloatFormat.single)
        (⟨⟨1, IEEE.fin (-1), IEEE.fin (-1)⟩, ⟨IEEE.fin (-1), 1, 1⟩⟩ :
          Bounds3 (IEEE FloatFormat.single))
        ⟨⟨0, 0, 0⟩, ⟨1, 1, 1⟩, IEEE.fin 10, 0, none⟩
        (Ray.invDir (⟨⟨0, 0, 0⟩, ⟨1, 1, 1⟩, IEEE.fin 10, 0, none⟩ :
          Ray (IEEE FloatFormat.single)))
        (Ray.dirIsNeg (⟨⟨0, 0, 0⟩, ⟨1, 1, 1⟩, IEEE.fin 10, 0, none⟩ :
          Ray (IEEE FloatFormat.single))) = false := by
  obtain ⟨_, _, p1, p2⟩ := slab_values_axis_parallel
  obtain ⟨k1, km, _, _⟩ := single_inflated
  have c1 : ¬ ((0 : IEEE FloatFormat.single) < IEEE.fin (-1)) := by
    rw [IEEE.zero_def, IEEE.fin_lt_fin]; norm_num
  have c2 : ¬ ((IEEE.fin 1 : IEEE FloatFormat.single) < IEEE.fin (-1)) := by
    rw [IEEE.fin_lt_fin]; norm_num
  have c2r : (IEEE.fin (-1) : IEEE FloatFormat.single) < IEEE.fin 1 := by
    rw [IEEE.fin_lt_fin]; norm_num
  have c3 : (IEEE.fin (8388611 / 8388608) : IEEE FloatFormat.single) < IEEE.fin 10 := by
    rw [IEEE.fin_lt_fin]; norm_num
  have c4 : ¬ ((IEEE.fin (8388611 / 8388608) : IEEE FloatFormat.single) < 0) := by
    rw [IEEE.zero_def, IEEE.fin_lt_fin]; norm_num
  have c5 : (IEEE.fin (-8388611 / 8388608) : IEEE FloatFormat.single) < IEEE.fin (-1) := by
    rw [IEEE.fin_lt_fin]; norm_num
  constructor
  · refine IntersectP_of_slabs _ _ _ (0, IEEE.fin (8388611 / 8388608)) (0, IEEE.fin (8388611 / 8388608))
      (0, IEEE.fin (8388611 / 8388608)) ?_ ?_ ?_
    · refine IntersectPSlab_some _ _ _ 0 _ (IEEE.fin 1) (IEEE.fin (-1)) (IEEE.fin (-1))
        (IEEE.fin (8388611 / 8388608)) 0 (IEEE.fin (8388611 / 8388608)) ?_ ?_ ?_ ?_ ?_ ?_ c4
      · rw [Point3_get_zero, Point3_get_zero, Vector3_get_zero]; exact p2
      · rw [Point3_get_zero, Point3_get_zero, Vector3_get_zero]; exact p1
      · exact if_pos c2r
      · rw [if_pos c2r, inflation_single]; exact k1
      · exact if_neg c1
      · exact if_pos c3
    · refine IntersectPSlab_some _ _ _ 1 _ (IEEE.fin (-1)) (IEEE.fin 1) (IEEE.fin (-1))
        (IEEE.fin (8388611 / 8388608)) 0 (IEEE.fin (8388611 / 8388608)) ?_ ?_ ?_ ?_ ?_ ?_ c4
      · rw [Point3_get_one, Point3_get_one, Vector3_get_one]; exact p1
      · rw [Point3_get_one, Point3_get_one, Vector3_get_one]; exact p2
      · exact if_neg c2
      · rw [if_neg c2, inflation_single]; exact k1
      · exact if_neg c1
      · exact if_neg (IEEE.lt_irrefl_float _)
    · refine IntersectPSlab_some _ _ _ 2 _ (IEEE.fin (-1)) (IEEE.fin 1) (IEEE.fin (-1))
        (IEEE.fin (8388611 / 8388608)) 0 (IEEE.fin (8388611 / 8388608)) ?_ ?_ ?_ ?_ ?_ ?_ c4
      · rw [Point3_get_two, Point3_get_two, Vector3_get_two]; exact p1
      · rw [Point3_get_two, Point3_get_two, Vector3_get_two]; exact p2
      · exact if_neg c2
      · rw [if_neg c2, inflation_single]; exact k1
      · exact if_neg c1
      · exact if_neg (IEEE.lt_irrefl_float _)
  · refine IntersectPInv_false_first _ _ _ _ _ (IEEE.fin 1) (IEEE.fin (-8388611 / 8388608))
      (IEEE.fin (-1)) (IEEE.fin (8388611 / 8388608)) ?_ ?_ ?_ ?_ (Or.inr c5)
    · rw [(select_nonneg_x _ _ one_div_one_nonneg).1, Ray.invDir_x]; exact p2
    · rw [(select_nonneg_x _ _ one_div_one_nonneg).2, Ray.invDir_x]
      show ((IEEE.fin (-1) : IEEE FloatFormat.single) - 0) * (1 / 1)
        * (1 + 2 * gammaFloat FloatFormat.single 3) = _
      rw [p1, inflation_single]; exact km
    · rw [(select_nonneg_y _ _ one_div_one_nonneg).1, Ray.invDir_y]; exact p1
    · rw [(select_nonneg_y _ _ one_div_one_nonneg).2, Ray.invDir_y]
      show ((1 : IEEE FloatFormat.single) - 0) * (1 / 1)
        * (1 + 2 * gammaFloat FloatFormat.single 3) = _
      rw [p2, inflation_single]; exact k1

/-- With a negative `tMax`, in `float`: the general form starts from the empty
interval `[0, tMax]` and reports a miss, while the optimized form, which never
compares `0` with `ray.tMax`, reports a hit for an origin inside the box. -/
theorem IntersectP_forms_on_negative_tMax_float :
    Bounds3.IntersectP (gammaFloat FloatFormat.single)
        (⟨⟨IEEE.fin (-1), IEEE.fin (-1), IEEE.fin (-1)⟩, ⟨1, 1, 1⟩⟩ :
          Bounds3 (IEEE FloatFormat.single))
        ⟨⟨0, 0, 0⟩, ⟨1, 1, 1⟩, IEEE.fin (-1 / 2), 0, none⟩ = none ∧
    Bounds3.IntersectPInv (gammaFloat FloatFormat.single)
        (⟨⟨IEEE.fin (-1), IEEE.fin (-1), IEEE.fin (-1)⟩, ⟨1, 1, 1⟩⟩ :
          Bounds3 (IEEE FloatFormat.single))
        ⟨⟨0, 0, 0⟩, ⟨1, 1, 1⟩, IEEE.fin (-1 / 2), 0, none⟩
        (Ray.invDir (⟨⟨0, 0, 0⟩, ⟨1, 1, 1⟩, IEEE.fin (-1 / 2), 0, none⟩ :
          Ray (IEEE FloatFormat.single)))
        (Ray.dirIsNeg (⟨⟨0, 0, 0⟩, ⟨1, 1, 1⟩, IEEE.fin (-1 / 2), 0, none⟩ :
          Ray (IEEE FloatFormat.single))) = true := by
  obtain ⟨_, _, p1, p2⟩ := slab_values_axis_parallel
  obtain ⟨k1, _, _, _⟩ := single_inflated
  have c1 : ¬ ((0 : IEEE FloatFormat.single) < IEEE.fin (-1)) := by
    rw [IEEE.zero_def, IEEE.fin_lt_fin]; norm_num
  have c2 : ¬ ((IEEE.fin 1 : IEEE FloatFormat.single) < IEEE.fin (-1)) := by
    rw [IEEE.fin_lt_fin]; norm_num
  have c3 : ¬ ((IEEE.fin (8388611 / 8388608) : IEEE FloatFormat.single) < IEEE.fin (-1 / 2)) := by
    rw [IEEE.fin_lt_fin]; norm_num
  have c4 : (IEEE.fin (-1 / 2) : IEEE FloatFormat.single) < 0 := by
    rw [IEEE.zero_def, IEEE.fin_lt_fin]; norm_num
  have c5 : ¬ ((IEEE.fin (8388611 / 8388608) : IEEE FloatFormat.single) < IEEE.fin (-1)) := by
    rw [IEEE.fin_lt_fin]; norm_num
  have c6 : (IEEE.fin (-1) : IEEE FloatFormat.single) < IEEE.fin (-1 / 2) := by
    rw [IEEE.fin_lt_fin]; norm_num
  have c7 : (0 : IEEE FloatFormat.single) < IEEE.fin (8388611 / 8388608) := by
    rw [IEEE.zero_def, IEEE.fin_lt_fin]; norm_num
  constructor
  · rw [Bounds3.IntersectP, IntersectPSlab_none _ _ _ 0 _ (IEEE.fin (-1)) (IEEE.fin 1)
      (IEEE.fin (-1)) (IEEE.fin (8388611 / 8388608)) 0 (IEEE.fin (-1 / 2)) ?_ ?_ ?_ ?_ ?_ ?_ c4]
    · rfl
    · rw [Point3_get_zero, Point3_get_zero, Vector3_get_zero]; exact p1
    · rw [Point3_get_zero, Point3_get_zero, Vector3_get_zero]; exact p2
    · exact if_neg c2
    · rw [if_neg c2, inflation_single]; exact k1
    · exact if_neg c1
    · exact if_neg c3
  · refine IntersectPInv_true_of _ _ _ _ _ (IEEE.fin (-1)) (IEEE.fin (8388611 / 8388608)) (IEEE.fin (-1))
      (IEEE.fin (8388611 / 8388608)) (IEEE.fin (-1)) (IEEE.fin (8388611 / 8388608)) (IEEE.fin (-1)) (IEEE.fin (8388611 / 8388608))
      (IEEE.fin (-1)) (IEEE.fin (8388611 / 8388608)) ?_ ?_ ?_ ?_ ?_ ?_ c5 c5
      (if_neg (IEEE.lt_irrefl_float _)) (if_neg (IEEE.lt_irrefl_float _)) c5 c5
      (if_neg (IEEE.lt_irrefl_float _)) (if_neg (IEEE.lt_irrefl_float _)) c6 c7
    · rw [(select_nonneg_x _ _ one_div_one_nonneg).1, Ray.invDir_x]; exact p1
    · rw [(select_nonneg_x _ _ one_div_one_nonneg).2, Ray.invDir_x]
      show ((1 : IEEE FloatFormat.single) - 0) * (1 / 1)
        * (1 + 2 * gammaFloat FloatFormat.single 3) = _
      rw [p2, inflation_single]; exact k1
    · rw [(select_nonneg_y _ _ one_div_one_nonneg).1, Ray.invDir_y]; exact p1
    · rw [(select_nonneg_y _ _ one_div_one_nonneg).2, Ray.invDir_y]
      show ((1 : IEEE FloatFormat.single) - 0) * (1 / 1)
        * (1 + 2 * gammaFloat FloatFormat.single 3) = _
      rw [p2, inflation_single]; exact k1
    · rw [(select_nonneg_z _ _ one_div_one_nonneg).1, Ray.invDir_z]; exact p1
    · rw [(select_nonneg_z _ _ one_div_one_nonneg).2, Ray.invDir_z]
      show ((1 : IEEE FloatFormat.single) - 0) * (1 / 1)
        * (1 + 2 * gammaFloat FloatFormat.single 3) = _
      rw [p2, inflation_single]; exact k1

/-- The general test on the box `[(1,-1,-1), (2,1,1)]` and the ray from the
origin along `(1,0,0)` with `tMax = 1`, in `float`. -/
theorem IntersectP_at_tMax_float :
    Bounds3.IntersectP (gammaFloat FloatFormat.single)
        (⟨⟨1, IEEE.fin (-1), IEEE.fin (-1)⟩, ⟨IEEE.fin 2, 1, 1⟩⟩ :
          Bounds3 (IEEE FloatFormat.single))
        ⟨⟨0, 0, 0⟩, ⟨1, 0, 0⟩, 1, 0, none⟩ = some (1, 1) := by
  obtain ⟨q1, q2, _, p2⟩ := slab_values_axis_parallel
  obtain ⟨_, p4⟩ := slab_values_diagonal
  obtain ⟨_, _, k2, _⟩ := single_inflated
  have c1 : ¬ ((IEEE.fin 2 : IEEE FloatFormat.single) < IEEE.fin 1) := by
    rw [IEEE.fin_lt_fin]; norm_num
  have c2 : (0 : IEEE FloatFormat.single) < IEEE.fin 1 := by
    rw [IEEE.zero_def, IEEE.fin_lt_fin]; norm_num
  have c3 : ¬ ((IEEE.fin (8388611 / 4194304) : IEEE FloatFormat.single) < 1) := by
    rw [IEEE.one_def, IEEE.fin_lt_fin]; norm_num
  refine IntersectP_of_slabs _ _ _ (1, 1) (1, 1) (1, 1) ?_ ?_ ?_
  · refine IntersectPSlab_some _ _ _ 0 _ (IEEE.fin 1) (IEEE.fin 2) (IEEE.fin 1)
      (IEEE.fin (8388611 / 4194304)) 1 1 ?_ ?_ ?_ ?_ ?_ ?_ (IEEE.lt_irrefl_float _)
    · rw [Point3_get_zero, Point3_get_zero, Vector3_get_zero]; exact p2
    · rw [Point3_get_zero, Point3_get_zero, Vector3_get_zero]; exact p4
    · exact if_neg c1
    · rw [if_neg c1, inflation_single]; exact k2
    · exact if_pos c2
    · exact if_neg c3
  · refine IntersectPSlab_some _ _ _ 1 _ (IEEE.inf true) (IEEE.inf false) (IEEE.inf true)
      (IEEE.inf false) 1 1 ?_ ?_ ?_ ?_ ?_ ?_ (IEEE.lt_irrefl_float _)
    · rw [Point3_get_one, Point3_get_one, Vector3_get_one]; exact q1
    · rw [Point3_get_one, Point3_get_one, Vector3_get_one]; exact q2
    · exact if_neg (IEEE.inf_not_lt _)
    · rw [if_neg (IEEE.inf_not_lt _), inflation_single]
      exact IEEE.inf_mul_fin false _ (by norm_num)
    · exact if_neg (IEEE.not_lt_neg_inf _)
    · exact if_neg (IEEE.inf_not_lt _)
  · refine IntersectPSlab_some _ _ _ 2 _ (IEEE.inf true) (IEEE.inf false) (IEEE.inf true)
      (IEEE.inf false) 1 1 ?_ ?_ ?_ ?_ ?_ ?_ (IEEE.lt_irrefl_float _)
    · rw [Point3_get_two, Point3_get_two, Vector3_get_two]; exact q1
    · rw [Point3_get_two, Point3_get_two, Vector3_get_two]; exact q2
    · exact if_neg (IEEE.inf_not_lt _)
    · rw [if_neg (IEEE.inf_not_lt _), inflation_single]
      exact IEEE.inf_mul_fin false _ (by norm_num)
    · exact if_neg (IEEE.not_lt_neg_inf _)
    · exact if_neg (IEEE.inf_not_lt _)

/-- The same boundary effect at the far end, in `float`: the box
`[(1,-1,-1), (2,1,1)]` is entered exactly at `t = tMax = 1` by the ray from the
origin along `(1,0,0)`, a ray parallel to the `x` axis.  The box is valid, no
slab parameter is a NaN and `tMax > 0`; the general form reports the hit
`(1, 1)`, the optimized form, whose final test is `tMin < ray.tMax`, a miss. -/
theorem IntersectP_forms_at_tMax_float :
    Bounds3.IntersectP (gammaFloat FloatFormat.single)
        (⟨⟨1, IEEE.fin (-1), IEEE.fin (-1)⟩, ⟨IEEE.fin 2, 1, 1⟩⟩ :
          Bounds3 (IEEE FloatFormat.single))
        ⟨⟨0, 0, 0⟩, ⟨1, 0, 0⟩, 1, 0, none⟩ = some (1, 1) ∧
    Bounds3.IntersectPInv (gammaFloat FloatFormat.single)
        (⟨⟨1, IEEE.fin (-1), IEEE.fin (-1)⟩, ⟨IEEE.fin 2, 1, 1⟩⟩ :
          Bounds3 (IEEE FloatFormat.single))
        ⟨⟨0, 0, 0⟩, ⟨1, 0, 0⟩, 1, 0, none⟩
        (Ray.invDir (⟨⟨0, 0, 0⟩, ⟨1, 0, 0⟩, 1, 0, none⟩ : Ray (IEEE FloatFormat.single)))
        (Ray.dirIsNeg (⟨⟨0, 0, 0⟩, ⟨1, 0, 0⟩, 1, 0, none⟩ : Ray (IEEE FloatFormat.single)))
      = false := by
  obtain ⟨q1, q2, _, p2⟩ := slab_values_axis_parallel
  obtain ⟨_, p4⟩ := slab_values_diagonal
  have hv0 : (1 : IEEE FloatFormat.single) ≤ IEEE.fin 2 := by
    rw [IEEE.one_def, IEEE.fin_le_fin]; norm_num
  have hv1 : (IEEE.fin (-1) : IEEE FloatFormat.single) ≤ 1 := by
    rw [IEEE.one_def, IEEE.fin_le_fin]; norm_num
  have ht : (0 : IEEE FloatFormat.single) < 1 := by
    rw [IEEE.zero_def, IEEE.one_def, IEEE.fin_lt_fin]; norm_num
  refine ⟨IntersectP_at_tMax_float, ?_⟩
  rw [Bool.eq_false_iff]
  intro h
  obtain ⟨t0, t1, e, h0, _⟩ := (forms_agree_float (gammaFloat FloatFormat.single) (8388611 / 8388608)
    inflation_single (by norm_num)
    (⟨⟨1, IEEE.fin (-1), IEEE.fin (-1)⟩, ⟨IEEE.fin 2, 1, 1⟩⟩ :
      Bounds3 (IEEE FloatFormat.single))
    ⟨⟨0, 0, 0⟩, ⟨1, 0, 0⟩, 1, 0, none⟩ ⟨hv0, hv1, hv1⟩
    ⟨by rw [p2]; rfl, by rw [p4]; rfl⟩ ⟨by rw [q1]; rfl, by rw [q2]; rfl⟩
    ⟨by rw [q1]; rfl, by rw [q2]; rfl⟩ ht).mp h
  rw [IntersectP_at_tMax_float] at e
  injection e with e
  injection e with e0 e1
  rw [← e0] at h0
  exact IEEE.lt_irrefl_float _ h0

end pbrt
